import Mathlib

/-!
# avito-shop: the transactional balance core

A shallow embedding of the storage layer (`internal/storage`) and of the
services built on it (`internal/service`): `Buy`, `SendCoin`, `Login` and
`GetInfo`, and of the handler `BuyHandler` (`internal/app/handlers`).

* The database is a value `DB` holding the four tables as lists of rows in
  insertion order.  A `*sql.Tx` is a working copy of the committed `DB`:
  statements run through the transaction read and write the working copy,
  `Commit` installs it, `Rollback` (and a failed `Commit`) discards it.
* Every statement sent to the database may fail for reasons outside the data
  (connection loss, a lock held by another session, ...).  Such failures are
  inputs: each call site takes the driver error it meets, if any.
* Go's `int` is the 64-bit two's-complement integer of the targets the
  service is built for; `+` and `-` wrap (`wrapInt`).
* Each service call reports the error it returns, the committed database it
  leaves behind and the storage calls it made, in order.
-/

namespace AvitoShop

/-! ## Go values -/

/-- Smallest value of Go's `int` (64-bit). -/
def intMin : Int := -9223372036854775808

/-- Largest value of Go's `int` (64-bit). -/
def intMax : Int := 9223372036854775807

/-- Result of an `int` addition or subtraction whose exact value is `x`:
two's-complement wrap-around to 64 bits. -/
def wrapInt (x : Int) : Int :=
  (x + 9223372036854775808) % 18446744073709551616 - 9223372036854775808

/-- Go `error` values, as far as the services tell them apart. -/
inductive GoError where
  /-- A package-level `errors.New` value; the name stands for its identity. -/
  | sentinel (name : String)
  /-- A `*pq.Error` with its SQLSTATE code. -/
  | pq (code : String)
  /-- Any other error reported by `database/sql`, the driver or a library. -/
  | driver (text : String)
  /-- The value of `fmt.Errorf("<msg>: %w", inner)`. -/
  | wrapf (msg : String) (inner : GoError)
  /-- The value of `fmt.Errorf("<msg>")` or of an inline `errors.New("<msg>")`,
  wrapping nothing. -/
  | errorf (msg : String)
  deriving DecidableEq, Repr

/-- Go's `errors.Is`: walks the `%w` chain of the error looking for the target. -/
def errorsIs : GoError → GoError → Bool
  | .wrapf msg inner, target => (GoError.wrapf msg inner == target) || errorsIs inner target
  | e, target => e == target

/-- The sentinel `sql.ErrNoRows`. -/
def sqlErrNoRows : GoError := .sentinel "sql.ErrNoRows"

/-- The sentinel `storage.ErrUserNotFound`. -/
def ErrUserNotFound : GoError := .sentinel "storage.ErrUserNotFound"

/-- The sentinel `storage.ErrMerchNotFound`. -/
def ErrMerchNotFound : GoError := .sentinel "storage.ErrMerchNotFound"

/-! ## Rows and tables -/

/-- A row of `users` (`models.User`). -/
structure User where
  ID : Int
  Email : String
  PassHash : List Nat
  CoinBalance : Int
  deriving DecidableEq, Repr

/-- A row of `merch` (`models.Merch`). -/
structure Merch where
  ID : Int
  Name : String
  Price : Int
  deriving DecidableEq, Repr

/-- A row of `orders` as `CreateOrder` writes it.  The columns the database
fills in itself (`id`, `created_at = NOW()`) are not represented: rows are kept
in insertion order. -/
structure OrderRow where
  UserID : Int
  MerchID : Int
  Quantity : Int
  TotalPrice : Int
  deriving DecidableEq, Repr

/-- A row of `coin_transactions` (`models.CoinTransaction`) as
`CreateTransaction` writes it, without the database-assigned `id` and
`created_at`; rows are kept in insertion order. -/
structure CoinTransaction where
  UserID : Int
  Amount : Int
  TxType : String
  RelatedUserID : Option Int
  deriving DecidableEq, Repr

/-- The database: one list of rows per table, oldest row first. -/
structure DB where
  users : List User
  merch : List Merch
  orders : List OrderRow
  coinTransactions : List CoinTransaction
  deriving DecidableEq, Repr

/-- A storage call made by a service, with its arguments. -/
inductive Call where
  | beginTx
  | commit
  | rollback
  | getMerchByName (name : String)
  | lockUserByIDTx (id : Int)
  | getUserByEmail (email : String)
  | updateUserBalance (id : Int) (newBalance : Int)
  | createOrder (userID merchID quantity totalPrice : Int)
  | createTransaction (userID amount : Int) (txType : String) (relatedUserID : Option Int)
  | getUserByID (id : Int)
  | getOrdersByUserID (userID : Int)
  | getTransactionsByUserID (userID : Int)
  deriving DecidableEq, Repr

/-- What a call of `Buy` or `SendCoin` leaves behind: the error it returns
(`none` for `nil`), the committed database, and the storage calls it made. -/
structure Outcome where
  err : Option GoError
  db : DB
  calls : List Call
  deriving DecidableEq, Repr

/-! ## internal/storage -/

/-- The pair `QueryRowContext(...).Scan(...)` of a single-row query: the
driver error if there is one, else the first row satisfying the `WHERE`
clause, else `sql.ErrNoRows`. -/
def queryRow {α : Type} (rows : List α) (p : α → Bool) (fault : Option GoError) :
    Except GoError α :=
  match fault with
  | some e => .error e
  | none =>
    match rows.find? p with
    | some r => .ok r
    | none => .error sqlErrNoRows

/-- Source `userRepository.GetUserByEmail`:
`SELECT ... FROM users WHERE username = $1`. -/
def GetUserByEmail (db : DB) (fault : Option GoError) (email : String) :
    Except GoError User :=
  match queryRow db.users (fun u => u.Email == email) fault with
  | .error err =>
    if errorsIs err sqlErrNoRows then .error ErrUserNotFound else .error err
  | .ok user => .ok user

/-- Source `userRepository.GetUserByID`: `SELECT ... FROM users WHERE id = $1`. -/
def GetUserByID (db : DB) (fault : Option GoError) (id : Int) : Except GoError User :=
  match queryRow db.users (fun u => u.ID == id) fault with
  | .error err =>
    if errorsIs err sqlErrNoRows then .error ErrUserNotFound else .error err
  | .ok user => .ok user

/-- Source `userRepository.LockUserByIDTx`:
`SELECT ... FROM users WHERE id = $1 FOR UPDATE NOWAIT` inside the transaction.
A row locked by another session shows up as the driver error `pq` 55P03. -/
def LockUserByIDTx (tx : DB) (fault : Option GoError) (id : Int) : Except GoError User :=
  match queryRow tx.users (fun u => u.ID == id) fault with
  | .error err =>
    match err with
    | .pq code =>
      if code == "55P03" then
        .error (.wrapf "resource is locked, please try again" err)
      else if errorsIs err sqlErrNoRows then .error ErrUserNotFound
      else .error err
    | _ =>
      if errorsIs err sqlErrNoRows then .error ErrUserNotFound else .error err
  | .ok user => .ok user

/-- Effect of `UPDATE users SET coin_balance = $1 WHERE id = $2` on the rows of
`users`: every row with that id gets the new balance. -/
def setBalance (id : Int) (newBalance : Int) (users : List User) : List User :=
  users.map (fun u => if u.ID == id then { u with CoinBalance := newBalance } else u)

/-- The two places where `UpdateUserBalance` can meet a driver error. -/
structure UpdateFaults where
  exec : Option GoError
  rowsAffected : Option GoError
  deriving DecidableEq, Repr

/-- Source `userRepository.UpdateUserBalance`:
`UPDATE users SET coin_balance = $1 WHERE id = $2` inside the transaction,
`ErrUserNotFound` when no row was affected. -/
def UpdateUserBalance (tx : DB) (fault : UpdateFaults) (id : Int) (newBalance : Int) :
    Except GoError DB :=
  match fault.exec with
  | some err => .error err
  | none =>
    match fault.rowsAffected with
    | some err => .error err
    | none =>
      let affected := (tx.users.filter (fun u => u.ID == id)).length
      if affected == 0 then .error ErrUserNotFound
      else
        .ok { tx with users := setBalance id newBalance tx.users }

/-- Source `merchRepository.GetMerchByName`:
`SELECT id, name, price FROM merch WHERE name = $1` inside the transaction. -/
def GetMerchByName (tx : DB) (fault : Option GoError) (name : String) : Except GoError Merch :=
  match queryRow tx.merch (fun m => m.Name == name) fault with
  | .error err =>
    if errorsIs err sqlErrNoRows then .error ErrMerchNotFound else .error err
  | .ok merch => .ok merch

/-- Source `orderRepository.CreateOrder`: `INSERT INTO orders ...` inside the transaction. -/
def CreateOrder (tx : DB) (fault : Option GoError)
    (userID merchID quantity totalPrice : Int) : Except GoError DB :=
  match fault with
  | some err => .error (.wrapf "failed to create order" err)
  | none =>
    .ok { tx with orders := tx.orders ++ [⟨userID, merchID, quantity, totalPrice⟩] }

/-- Source `coinTransactionRepository.CreateTransaction`:
`INSERT INTO coin_transactions ...` inside the transaction. -/
def CreateTransaction (tx : DB) (fault : Option GoError)
    (userID amount : Int) (txType : String) (relatedUserID : Option Int) :
    Except GoError DB :=
  match fault with
  | some err => .error (.wrapf "failed to create coin transaction" err)
  | none =>
    .ok { tx with
          coinTransactions := tx.coinTransactions ++ [⟨userID, amount, txType, relatedUserID⟩] }

/-! ## internal/service: Buy -/

/-- The driver error met at each storage call of `Buy`, `none` where the call
goes through. -/
structure BuyFaults where
  beginTx : Option GoError
  getMerch : Option GoError
  lockUser : Option GoError
  updateBalance : UpdateFaults
  createOrder : Option GoError
  commit : Option GoError
  rollback : Option GoError
  deriving DecidableEq, Repr

/-- Source `buyService.Buy(ctx, userID, item)` on the committed database `db`.
An error of `tx.Rollback()` is only logged. -/
def Buy (db : DB) (f : BuyFaults) (userID : Int) (item : String) : Outcome :=
  match f.beginTx with
  | some err =>
    ⟨some (.wrapf "service.BuyService.Buy: failed to begin transaction" err), db, [.beginTx]⟩
  | none =>
    let tx := db
    let c1 := [Call.beginTx, .getMerchByName item]
    match GetMerchByName tx f.getMerch item with
    | .error err =>
      ⟨some (.wrapf "service.BuyService.Buy: failed to get merch" err), db, c1 ++ [.rollback]⟩
    | .ok merch =>
      let c2 := c1 ++ [.lockUserByIDTx userID]
      match LockUserByIDTx tx f.lockUser userID with
      | .error err =>
        ⟨some (.wrapf "service.BuyService.Buy: failed to get user" err), db, c2 ++ [.rollback]⟩
      | .ok user =>
        if user.CoinBalance < merch.Price then
          ⟨some (.errorf "service.BuyService.Buy: insufficient funds"), db, c2 ++ [.rollback]⟩
        else
          let newBalance := wrapInt (user.CoinBalance - merch.Price)
          let c3 := c2 ++ [.updateUserBalance userID newBalance]
          match UpdateUserBalance tx f.updateBalance userID newBalance with
          | .error err =>
            ⟨some (.wrapf "service.BuyService.Buy: failed to update user balance" err), db,
              c3 ++ [.rollback]⟩
          | .ok tx1 =>
            let c4 := c3 ++ [.createOrder userID merch.ID 1 merch.Price]
            match CreateOrder tx1 f.createOrder userID merch.ID 1 merch.Price with
            | .error err =>
              ⟨some (.wrapf "service.BuyService.Buy: failed to create order" err), db,
                c4 ++ [.rollback]⟩
            | .ok tx2 =>
              match f.commit with
              | some err =>
                ⟨some (.wrapf "service.BuyService.Buy: failed to commit transaction" err), db,
                  c4 ++ [.commit]⟩
              | none => ⟨none, tx2, c4 ++ [.commit]⟩

/-! ## internal/service: SendCoin -/

/-- The driver error met at each storage call of `SendCoin`, `none` where the
call goes through. -/
structure SendCoinFaults where
  beginTx : Option GoError
  lockSender : Option GoError
  getReceiver : Option GoError
  updateSender : UpdateFaults
  updateReceiver : UpdateFaults
  createSent : Option GoError
  createReceived : Option GoError
  commit : Option GoError
  rollback : Option GoError
  deriving DecidableEq, Repr

/-- Source `sendCoinService.SendCoin(ctx, fromUserID, toUser, amount)` on the
committed database `db`.  The sender is read and locked through the
transaction; the receiver is read by `GetUserByEmail` on the plain connection,
that is from the committed database.  An error of `tx.Rollback()` is only
logged. -/
def SendCoin (db : DB) (f : SendCoinFaults) (fromUserID : Int) (toUser : String)
    (amount : Int) : Outcome :=
  if amount ≤ 0 then
    ⟨some (.errorf "service.SendCoinService.SendCoin: amount must be positive"), db, []⟩
  else
    match f.beginTx with
    | some err =>
      ⟨some (.wrapf "service.SendCoinService.SendCoin: failed to begin transaction" err), db,
        [.beginTx]⟩
    | none =>
      let tx := db
      let c1 := [Call.beginTx, .lockUserByIDTx fromUserID]
      match LockUserByIDTx tx f.lockSender fromUserID with
      | .error err =>
        ⟨some (.wrapf "service.SendCoinService.SendCoin: failed to get sender" err), db,
          c1 ++ [.rollback]⟩
      | .ok sender =>
        let c2 := c1 ++ [.getUserByEmail toUser]
        match GetUserByEmail db f.getReceiver toUser with
        | .error err =>
          if errorsIs err ErrUserNotFound then
            ⟨some (.errorf "service.SendCoinService.SendCoin: receiver not found"), db,
              c2 ++ [.rollback]⟩
          else
            ⟨some (.wrapf "service.SendCoinService.SendCoin: failed to get receiver" err), db,
              c2 ++ [.rollback]⟩
        | .ok receiver =>
          if fromUserID == receiver.ID then
            ⟨some (.errorf "service.SendCoinService.SendCoin: cannot transfer coins to yourself"),
              db, c2 ++ [.rollback]⟩
          else if sender.CoinBalance < amount then
            ⟨some (.errorf "service.SendCoinService.SendCoin: insufficient funds"), db,
              c2 ++ [.rollback]⟩
          else
            let newSenderBalance := wrapInt (sender.CoinBalance - amount)
            let c3 := c2 ++ [.updateUserBalance fromUserID newSenderBalance]
            match UpdateUserBalance tx f.updateSender fromUserID newSenderBalance with
            | .error err =>
              ⟨some (.wrapf "service.SendCoinService.SendCoin: failed to update sender balance"
                err), db, c3 ++ [.rollback]⟩
            | .ok tx1 =>
              let newReceiverBalance := wrapInt (receiver.CoinBalance + amount)
              let c4 := c3 ++ [.updateUserBalance receiver.ID newReceiverBalance]
              match UpdateUserBalance tx1 f.updateReceiver receiver.ID newReceiverBalance with
              | .error err =>
                ⟨some (.wrapf
                  "service.SendCoinService.SendCoin: failed to update receiver balance" err), db,
                  c4 ++ [.rollback]⟩
              | .ok tx2 =>
                let c5 := c4 ++
                  [.createTransaction fromUserID amount "transfer_sent" (some receiver.ID)]
                match CreateTransaction tx2 f.createSent fromUserID amount "transfer_sent"
                    (some receiver.ID) with
                | .error err =>
                  ⟨some (.wrapf
                    "service.SendCoinService.SendCoin: failed to record sender transaction" err),
                    db, c5 ++ [.rollback]⟩
                | .ok tx3 =>
                  let c6 := c5 ++
                    [.createTransaction receiver.ID amount "transfer_received" (some fromUserID)]
                  match CreateTransaction tx3 f.createReceived receiver.ID amount
                      "transfer_received" (some fromUserID) with
                  | .error err =>
                    ⟨some (.wrapf
                      "service.SendCoinService.SendCoin: failed to record receiver transaction"
                      err), db, c6 ++ [.rollback]⟩
                  | .ok tx4 =>
                    match f.commit with
                    | some err =>
                      ⟨some (.wrapf
                        "service.SendCoinService.SendCoin: failed to commit transaction" err),
                        db, c6 ++ [.commit]⟩
                    | none => ⟨none, tx4, c6 ++ [.commit]⟩

/-! ## internal/service: Login -/

/-- What the database does with the `INSERT` of `CreateUser`: the driver error
it reports, if any, and the value it assigns to the `id` column. -/
structure CreateUserEnv where
  fault : Option GoError
  id : Int

/-- Modelled from the spec: the declaration of the `users` table (the schema
migration is not among the sources).  Accounts are keyed by `id` and the
identity (`username`) is unique, so a row may be inserted only if no stored
row has its id or its identity. -/
def usersAccepts (users : List User) (row : User) : Bool :=
  !(users.any (fun u => u.ID == row.ID || u.Email == row.Email))

/-- Source `userRepository.CreateUser`:
`INSERT INTO users (username, pass_hash, coin_balance) VALUES ($1, $2, $3)
RETURNING id` on the plain connection (committed at once).  A row the table
rejects is reported as the driver error `pq` 23505 (unique violation). -/
def CreateUser (db : DB) (env : CreateUserEnv) (user : User) : Except GoError (User × DB) :=
  match env.fault with
  | some err => .error err
  | none =>
    let row : User := { user with ID := env.id }
    if usersAccepts db.users row then
      .ok (row, { db with users := db.users ++ [row] })
    else .error (.pq "23505")

/-- Environment of `security.NewToken`: the value of `JWT_SECRET` and the two
steps of `token.SignedString` of the JWT library, which the service does not
control: the signing string of the claims of a user (encoded header and
claims; the claims hold the clock) and the encoded HS256 signature of a
signing string under a key. -/
structure TokenEnv where
  secret : String
  signingString : User → Except GoError String
  signature : String → String → Except GoError String

/-- Source `security.NewToken(ctx, user, ttl)`.  `token.SignedString(secret)`
returns the signing string, a dot and the encoded signature. -/
def NewToken (env : TokenEnv) (user : User) : Except GoError String :=
  if env.secret == "" then
    .error (.errorf "JWT_SECRET environment variable is not set")
  else
    match env.signingString user with
    | .error err => .error err
    | .ok sstr =>
      match env.signature sstr env.secret with
      | .error err => .error err
      | .ok sig => .ok (sstr ++ "." ++ sig)

/-- What `Login` meets outside its own code: driver errors, the result of
`bcrypt.GenerateFromPassword` (salted, hence not a function of the password),
`bcrypt.CompareHashAndPassword`, and the token environment. -/
structure LoginEnv where
  getUser : Option GoError
  hash : Except GoError (List Nat)
  createUser : CreateUserEnv
  compare : List Nat → String → Option GoError
  token : TokenEnv

/-- What a call of `Login` leaves behind: the token and error it returns and
the committed database. -/
structure LoginOutcome where
  token : String
  err : Option GoError
  db : DB

/-- Source `AuthService.Login(ctx, email, password)` on the committed database `db`. -/
def Login (db : DB) (env : LoginEnv) (email password : String) : LoginOutcome :=
  match GetUserByEmail db env.getUser email with
  | .error err =>
    if errorsIs err ErrUserNotFound then
      match env.hash with
      | .error herr => ⟨"", some (.wrapf "auth.Login: failed to hash password" herr), db⟩
      | .ok passHash =>
        let newUser : User := { ID := 0, Email := email, PassHash := passHash, CoinBalance := 1000 }
        match CreateUser db env.createUser newUser with
        | .error cerr => ⟨"", some (.wrapf "auth.Login: failed to create user" cerr), db⟩
        | .ok (user, db1) =>
          match NewToken env.token user with
          | .error terr => ⟨"", some (.wrapf "auth.Login: failed to generate token" terr), db1⟩
          | .ok token => ⟨token, none, db1⟩
    else ⟨"", some (.wrapf "auth.Login: failed to get user" err), db⟩
  | .ok user =>
    match env.compare user.PassHash password with
    | some cerr => ⟨"", some (.wrapf "auth.Login: invalid credentials" cerr), db⟩
    | none =>
      match NewToken env.token user with
      | .error terr => ⟨"", some (.wrapf "auth.Login: failed to generate token" terr), db⟩
      | .ok token => ⟨token, none, db⟩

/-! ## Sequences of calls -/

/-- One call of a service, with everything it meets outside its own code. -/
inductive Op where
  | login (env : LoginEnv) (email password : String)
  | buy (f : BuyFaults) (userID : Int) (item : String)
  | sendCoin (f : SendCoinFaults) (fromUserID : Int) (toUser : String) (amount : Int)

/-- The committed database after one call. -/
def step (db : DB) : Op → DB
  | .login env email password => (Login db env email password).db
  | .buy f userID item => (Buy db f userID item).db
  | .sendCoin f fromUserID toUser amount => (SendCoin db f fromUserID toUser amount).db

/-- The committed database after a sequence of calls, one after the other. -/
def run (db : DB) (ops : List Op) : DB :=
  ops.foldl step db

/-- Whether `x` is a value of Go's `int`. -/
def isInt (x : Int) : Prop :=
  intMin ≤ x ∧ x ≤ intMax

instance (x : Int) : Decidable (isInt x) := by
  unfold isInt
  infer_instance

/-- Whether the credit of a call fits Go's `int`: for a transfer that goes
through (`SendCoin` returns no error), the receiver's balance plus the amount
does not exceed `intMax`.  A call that is refused or fails credits nobody and
is under no condition. -/
def creditFits (db : DB) : Op → Bool
  | .sendCoin f fromUserID toUser amount =>
    match (SendCoin db f fromUserID toUser amount).err,
          db.users.find? (fun u => u.Email == toUser) with
    | none, some receiver => decide (receiver.CoinBalance + amount ≤ intMax)
    | _, _ => true
  | _ => true

/-- Whether every credit fits along a sequence of calls run from `db`. -/
def creditsFit (db : DB) : List Op → Bool
  | [] => true
  | op :: ops => creditFits db op && creditsFit (step db op) ops

/-- No storage call of `Buy` meets a driver error. -/
def noBuyFaults : BuyFaults :=
  ⟨.none, .none, .none, ⟨.none, .none⟩, .none, .none, .none⟩

/-- No storage call of `SendCoin` meets a driver error. -/
def noSendCoinFaults : SendCoinFaults :=
  ⟨.none, .none, .none, ⟨.none, .none⟩, ⟨.none, .none⟩, .none, .none, .none, .none⟩

/-- Balance of the account with the given id, as `GetUserByID` reads it from
the committed database. -/
def balanceOf (db : DB) (id : Int) : Option Int :=
  (db.users.find? (fun u => u.ID == id)).map (fun u => u.CoinBalance)

/-- A small database: the two accounts and the catalog item of the service tests. -/
def sampleDB : DB :=
  { users := [⟨1, "sender@example.com", [1], 1000⟩, ⟨2, "receiver@example.com", [2], 500⟩]
    merch := [⟨1, "t-shirt", 80⟩]
    orders := []
    coinTransactions := [] }

/-- The storage calls of a `Buy` that runs to its `Commit`. -/
def buyCalls (userID : Int) (item : String) (merch : Merch) (newBalance : Int) : List Call :=
  [.beginTx, .getMerchByName item, .lockUserByIDTx userID,
   .updateUserBalance userID newBalance, .createOrder userID merch.ID 1 merch.Price, .commit]

/-- The database a successful `Buy` commits. -/
def buyResult (db : DB) (userID : Int) (merch : Merch) (user : User) : DB :=
  { db with
    users := setBalance userID (wrapInt (user.CoinBalance - merch.Price)) db.users
    orders := db.orders ++ [⟨userID, merch.ID, 1, merch.Price⟩] }

/-- The storage calls of a `SendCoin` that runs to its `Commit`. -/
def sendCoinCalls (fromUserID : Int) (toUser : String) (amount : Int) (sender receiver : User) :
    List Call :=
  [.beginTx, .lockUserByIDTx fromUserID, .getUserByEmail toUser,
   .updateUserBalance fromUserID (wrapInt (sender.CoinBalance - amount)),
   .updateUserBalance receiver.ID (wrapInt (receiver.CoinBalance + amount)),
   .createTransaction fromUserID amount "transfer_sent" (some receiver.ID),
   .createTransaction receiver.ID amount "transfer_received" (some fromUserID), .commit]

/-- The database a successful `SendCoin` commits. -/
def sendCoinResult (db : DB) (fromUserID : Int) (amount : Int) (sender receiver : User) : DB :=
  { db with
    users := setBalance receiver.ID (wrapInt (receiver.CoinBalance + amount))
      (setBalance fromUserID (wrapInt (sender.CoinBalance - amount)) db.users)
    coinTransactions := db.coinTransactions ++
      [⟨fromUserID, amount, "transfer_sent", some receiver.ID⟩,
       ⟨receiver.ID, amount, "transfer_received", some fromUserID⟩] }

/-- The database of the service tests with both accounts holding the largest
`int`. -/
def overflowDB : DB :=
  { users := [⟨1, "sender@example.com", [1], 9223372036854775807⟩,
              ⟨2, "receiver@example.com", [2], 9223372036854775807⟩]
    merch := [⟨1, "t-shirt", 80⟩]
    orders := []
    coinTransactions := [] }

/-- A database whose single account holds exactly the price of the t-shirt. -/
def exactFundsDB : DB :=
  { users := [⟨1, "test@example.com", [1], 80⟩]
    merch := [⟨1, "t-shirt", 80⟩]
    orders := []
    coinTransactions := [] }

/-- The database of the insufficient-funds test: one account holding 50 coins,
the t-shirt priced 80. -/
def poorDB : DB :=
  { users := [⟨1, "test@example.com", [1], 50⟩]
    merch := [⟨1, "t-shirt", 80⟩]
    orders := []
    coinTransactions := [] }

/-- A driver error standing for a lost connection. -/
def connLost : GoError := .driver "driver: bad connection"

/-- Every stored balance is a non-negative value of `int`. -/
def balancesOK (db : DB) : Prop :=
  ∀ u ∈ db.users, 0 ≤ u.CoinBalance ∧ u.CoinBalance ≤ intMax

/-- An environment for `Login` in which nothing fails: a fixed hash, a hash
comparison that accepts exactly that hash, a secret and a signer. -/
def sampleLoginEnv : LoginEnv :=
  { getUser := none
    hash := .ok [7]
    createUser := { fault := none, id := 3 }
    compare := fun h _ => if h == [7] then none else some (.sentinel "bcrypt.ErrMismatchedHashAndPassword")
    token := { secret := "testsecret"
               signingString := fun u => .ok ("header." ++ u.Email)
               signature := fun _ key => .ok ("signed-with-" ++ key) } }

/-- A short session on the sample database: a first login, a purchase, a
transfer, a transfer that fails for lack of funds, a purchase whose commit
fails, and a transfer of the largest `int`, refused for lack of funds. -/
def sampleOps : List Op :=
  [.login sampleLoginEnv "new@example.com" "secret",
   .buy noBuyFaults 1 "t-shirt",
   .sendCoin noSendCoinFaults 1 "new@example.com" 900,
   .sendCoin noSendCoinFaults 1 "receiver@example.com" 100,
   .buy { noBuyFaults with commit := some connLost } 2 "t-shirt",
   .sendCoin noSendCoinFaults 2 "sender@example.com" 9223372036854775807]

/-- A single transfer of one coin from account 1 to the identity of account 2. -/
def oneCoinTransfer : List Op :=
  [.sendCoin noSendCoinFaults 1 "receiver@example.com" 1]

/-! ## internal/storage: listings -/

/-- An order as `GetOrdersByUserID` reads it (`models.Order`): the stored
columns and the item name brought in by the `JOIN`; `id` and `created_at` are
not represented. -/
structure Order where
  UserID : Int
  MerchID : Int
  MerchName : String
  Quantity : Int
  TotalPrice : Int
  deriving DecidableEq, Repr

/-- The three places where a listing can meet a driver error: the query, the
`Scan` of a row, and `rows.Err()` after the loop. -/
structure RowsFaults where
  query : Option GoError
  scan : Option GoError
  rowsErr : Option GoError
  deriving DecidableEq, Repr

/-- Rows of the query of `GetOrdersByUserID`: the orders of the user joined
with the catalog on the item id, newest first. -/
def ordersJoinMerch (db : DB) (userID : Int) : List Order :=
  (db.orders.reverse.filter (fun o => o.UserID == userID)).flatMap
    (fun o => (db.merch.filter (fun m => o.MerchID == m.ID)).map
      (fun m => { UserID := o.UserID, MerchID := o.MerchID, MerchName := m.Name,
                  Quantity := o.Quantity, TotalPrice := o.TotalPrice }))

/-- Source `orderRepository.GetOrdersByUserID`:
`SELECT ... FROM orders o JOIN merch m ON o.merch_id = m.id WHERE o.user_id = $1
ORDER BY o.created_at DESC` on the plain connection.  A `Scan` can only fail
when there is a row to scan. -/
def GetOrdersByUserID (db : DB) (f : RowsFaults) (userID : Int) : Except GoError (List Order) :=
  match f.query with
  | some err => .error err
  | none =>
    let rows := ordersJoinMerch db userID
    match f.scan with
    | some err => if rows.isEmpty then
        (match f.rowsErr with
         | some err1 => .error err1
         | none => .ok rows)
      else .error err
    | none =>
      match f.rowsErr with
      | some err => .error err
      | none => .ok rows

/-- Source `coinTransactionRepository.GetTransactionsByUserID`:
`SELECT ... FROM coin_transactions WHERE user_id = $1 ORDER BY created_at DESC`
on the plain connection. -/
def GetTransactionsByUserID (db : DB) (f : RowsFaults) (userID : Int) :
    Except GoError (List CoinTransaction) :=
  match f.query with
  | some err => .error (.wrapf "failed to query coin transactions" err)
  | none =>
    let rows := db.coinTransactions.reverse.filter (fun t => t.UserID == userID)
    match f.scan with
    | some err => if rows.isEmpty then
        (match f.rowsErr with
         | some err1 => .error err1
         | none => .ok rows)
      else .error (.wrapf "failed to scan coin transaction" err)
    | none =>
      match f.rowsErr with
      | some err => .error err
      | none => .ok rows

/-! ## internal/service: GetInfo -/

/-- Source `service.InventoryItem`; `ItemType` is the field `Type`. -/
structure InventoryItem where
  ItemType : String
  Quantity : Int
  deriving DecidableEq, Repr

/-- Source `service.HistoryEntry`. -/
structure HistoryEntry where
  FromUser : String
  ToUser : String
  Amount : Int
  deriving DecidableEq, Repr

/-- Source `service.CoinHistory`. -/
structure CoinHistory where
  Received : List HistoryEntry
  Sent : List HistoryEntry
  deriving DecidableEq, Repr

/-- Source `service.InfoResponse`. -/
structure InfoResponse where
  Coins : Int
  Inventory : List InventoryItem
  CoinHistory : CoinHistory
  deriving DecidableEq, Repr

/-- The statement `inventoryMap[name] += quantity` on a Go `map[string]int`
kept as a list of entries with distinct keys: an absent key counts as 0, and
the addition is Go's `int` addition. -/
def mapAdd (m : List (String × Int)) (name : String) (quantity : Int) : List (String × Int) :=
  match m with
  | [] => [(name, wrapInt (0 + quantity))]
  | (k, v) :: rest =>
    if k == name then (k, wrapInt (v + quantity)) :: rest
    else (k, v) :: mapAdd rest name quantity

/-- The first loop of `GetInfo`: the map from item name to quantity. -/
def inventoryMap (orders : List Order) : List (String × Int) :=
  orders.foldl (fun m o => mapAdd m o.MerchName o.Quantity) []

/-- The second loop of `GetInfo`: one `InventoryItem` per map entry, in the
order in which `range` visits the entries (`rangeOrder`, which Go leaves
unspecified). -/
def inventoryOf (rangeOrder : List (String × Int) → List (String × Int))
    (orders : List Order) : List InventoryItem :=
  (rangeOrder (inventoryMap orders)).map (fun e => { ItemType := e.1, Quantity := e.2 })

/-- The name shown for the counterparty of a ledger entry, and the storage
call made to find it: empty without a counterparty id or when `GetUserByID`
fails, else the identity of the account read. -/
def counterpartyName (db : DB) (fault : Option GoError) (related : Option Int) :
    String × List Call :=
  match related with
  | none => ("", [])
  | some id =>
    match GetUserByID db fault id with
    | .ok user => (user.Email, [.getUserByID id])
    | .error _ => ("", [.getUserByID id])

/-- The loop of `GetInfo` over the ledger entries, from entry number `i` on:
`received`, `sent` and the storage calls made so far are carried along.
`lookup i` is the driver error the counterparty lookup of entry `i` meets. -/
def historyLoop (db : DB) (lookup : Nat → Option GoError) :
    Nat → List CoinTransaction → List HistoryEntry × List HistoryEntry × List Call →
    List HistoryEntry × List HistoryEntry × List Call
  | _, [], acc => acc
  | i, tx :: rest, (received, sent, calls) =>
    if tx.TxType == "transfer_received" then
      let name := counterpartyName db (lookup i) tx.RelatedUserID
      historyLoop db lookup (i + 1) rest
        (received ++ [{ FromUser := name.1, ToUser := "", Amount := tx.Amount }], sent,
          calls ++ name.2)
    else if tx.TxType == "transfer_sent" then
      let name := counterpartyName db (lookup i) tx.RelatedUserID
      historyLoop db lookup (i + 1) rest
        (received, sent ++ [{ FromUser := "", ToUser := name.1, Amount := tx.Amount }],
          calls ++ name.2)
    else historyLoop db lookup (i + 1) rest (received, sent, calls)

/-- What `GetInfo` meets outside its own code: driver errors of its reads, the
order in which `range` visits the inventory map, and the driver error of each
counterparty lookup (by position of the ledger entry in the listing). -/
structure GetInfoEnv where
  getUser : Option GoError
  orders : RowsFaults
  rangeOrder : List (String × Int) → List (String × Int)
  transactions : RowsFaults
  lookup : Nat → Option GoError

/-- What a call of `GetInfo` leaves behind: the response (`none` for `nil`),
the error, the database and the storage calls it made. -/
structure InfoOutcome where
  resp : Option InfoResponse
  err : Option GoError
  db : DB
  calls : List Call

/-- Source `infoService.GetInfo(ctx, userID)` on the committed database `db`. -/
def GetInfo (db : DB) (env : GetInfoEnv) (userID : Int) : InfoOutcome :=
  match GetUserByID db env.getUser userID with
  | .error err => ⟨none, some (.wrapf "failed to get user" err), db, [.getUserByID userID]⟩
  | .ok user =>
    let c1 := [Call.getUserByID userID, .getOrdersByUserID userID]
    match GetOrdersByUserID db env.orders userID with
    | .error err => ⟨none, some (.wrapf "failed to get orders" err), db, c1⟩
    | .ok orders =>
      let inventory := inventoryOf env.rangeOrder orders
      let c2 := c1 ++ [.getTransactionsByUserID userID]
      match GetTransactionsByUserID db env.transactions userID with
      | .error _ =>
        ⟨some { Coins := user.CoinBalance, Inventory := inventory,
                CoinHistory := { Received := [], Sent := [] } }, none, db, c2⟩
      | .ok transactions =>
        let h := historyLoop db env.lookup 0 transactions ([], [], [])
        ⟨some { Coins := user.CoinBalance, Inventory := inventory,
                CoinHistory := { Received := h.1, Sent := h.2.1 } }, none, db, c2 ++ h.2.2⟩

/-- The storage calls of a `GetInfo` that reaches the ledger listing. -/
def infoCalls (userID : Int) : List Call :=
  [.getUserByID userID, .getOrdersByUserID userID, .getTransactionsByUserID userID]

/-- Whether a storage call only reads. -/
def Call.isRead : Call → Bool
  | .getMerchByName _ => true
  | .getUserByEmail _ => true
  | .getUserByID _ => true
  | .getOrdersByUserID _ => true
  | .getTransactionsByUserID _ => true
  | _ => false

/-- An environment for `GetInfo` in which nothing fails and `range` visits the
map entries in the order they were added. -/
def plainInfoEnv : GetInfoEnv :=
  { getUser := none
    orders := ⟨none, none, none⟩
    rangeOrder := fun l => l
    transactions := ⟨none, none, none⟩
    lookup := fun _ => none }

/-- The database of the `GetInfo` test after two purchases of a t-shirt by
account 1, one of a cup, and two transfers between accounts 1 and 2. -/
def infoDB : DB :=
  { users := [⟨1, "test@example.com", [1], 920⟩, ⟨2, "friend@example.com", [2], 500⟩]
    merch := [⟨1, "t-shirt", 80⟩, ⟨2, "cup", 20⟩]
    orders := [⟨1, 1, 1, 80⟩, ⟨1, 2, 1, 20⟩, ⟨1, 1, 1, 80⟩]
    coinTransactions :=
      [⟨1, 80, "transfer_received", none⟩, ⟨1, 30, "transfer_sent", some 2⟩,
       ⟨2, 30, "transfer_received", some 1⟩, ⟨1, 7, "bonus", none⟩] }

/-- The ledger entries of kind `transfer_received` of a listing, in its order. -/
def receivedOf (transactions : List CoinTransaction) : List CoinTransaction :=
  transactions.filter (fun t => t.TxType == "transfer_received")

/-- The ledger entries of kind `transfer_sent` of a listing, in its order. -/
def sentOf (transactions : List CoinTransaction) : List CoinTransaction :=
  transactions.filter (fun t => t.TxType == "transfer_sent")

/-- The read `inventoryMap[name]` of a Go `map[string]int`: 0 for an absent key. -/
def mapGet : List (String × Int) → String → Int
  | [], _ => 0
  | (k, v) :: rest, name => if k == name then v else mapGet rest name

/-- The sum of the quantities of the orders with the given item name, as an
exact integer. -/
def qtySum (name : String) (orders : List Order) : Int :=
  ((orders.filter (fun o => o.MerchName == name)).map (fun o => o.Quantity)).sum

/-- Whether a storage call ends a unit of work (`Commit` or `Rollback`). -/
def Call.isEnd : Call → Bool
  | .commit => true
  | .rollback => true
  | _ => false

/-- The call that ends the unit of work of a trace: the last call, provided it
is a `Commit` or a `Rollback` and no earlier call is one; `none` otherwise. -/
def unitEnd (calls : List Call) : Option Call :=
  match calls.reverse with
  | [] => none
  | last :: earlier =>
    if last.isEnd && earlier.all (fun c => !c.isEnd) then some last else none

/-- The counterparty name of the specification: the identity of the
counterparty account when the ledger entry has a counterparty id and that
account can be read, the empty string otherwise. -/
def shownName (db : DB) (fault : Option GoError) (related : Option Int) : String :=
  match related with
  | none => ""
  | some id =>
    match GetUserByID db fault id with
    | .ok user => user.Email
    | .error _ => ""

/-- The received history of the specification, for a listing numbered from
`i`: one entry for each listed ledger entry of kind `transfer_received`, in the
order of the listing, with the entry's amount and the counterparty name as
sender. -/
def receivedHistory (db : DB) (lookup : Nat → Option GoError) (i : Nat)
    (transactions : List CoinTransaction) : List HistoryEntry :=
  ((transactions.enumFrom i).filter (fun p => p.2.TxType == "transfer_received")).map
    (fun p => { FromUser := shownName db (lookup p.1) p.2.RelatedUserID, ToUser := "",
                Amount := p.2.Amount })

/-- The sent history of the specification, for a listing numbered from `i`:
one entry for each listed ledger entry of kind `transfer_sent`, in the order of
the listing, with the entry's amount and the counterparty name as receiver. -/
def sentHistory (db : DB) (lookup : Nat → Option GoError) (i : Nat)
    (transactions : List CoinTransaction) : List HistoryEntry :=
  ((transactions.enumFrom i).filter (fun p => p.2.TxType == "transfer_sent")).map
    (fun p => { FromUser := "", ToUser := shownName db (lookup p.1) p.2.RelatedUserID,
                Amount := p.2.Amount })

/-- An environment for `GetInfo` in which no read fails, for a given order in
which `range` visits the inventory map. -/
def quietInfoEnv (rangeOrder : List (String × Int) → List (String × Int)) : GetInfoEnv :=
  { getUser := none
    orders := ⟨none, none, none⟩
    rangeOrder := rangeOrder
    transactions := ⟨none, none, none⟩
    lookup := fun _ => none }

/-! ## internal/app/handlers: BuyHandler -/

/-- What a handler has put on its `http.ResponseWriter`: the status code of
the header once it is written (`none` before), the `Content-Type` header and
the body. -/
structure Response where
  status : Option Nat
  contentType : String
  body : String
  deriving DecidableEq, Repr

/-- A fresh `http.ResponseWriter`: nothing written. -/
def Response.fresh : Response :=
  { status := none, contentType := "", body := "" }

/-- The call `w.Header().Set("Content-Type", v)`: it changes the response only
while the header is not written. -/
def setContentType (w : Response) (v : String) : Response :=
  match w.status with
  | some _ => w
  | none => { w with contentType := v }

/-- The call `w.WriteHeader(code)` of `net/http`: the first call fixes the
status code, later calls are ignored. -/
def WriteHeader (w : Response) (code : Nat) : Response :=
  match w.status with
  | some _ => w
  | none => { w with status := some code }

/-- The call `w.Write(data)` of `net/http`: it writes the header with status
200 if none is written yet, then sends the data unless the connection fails. -/
def Write (w : Response) (fault : Option GoError) (data : String) : Response × Option GoError :=
  let w1 := WriteHeader w 200
  match fault with
  | some err => (w1, some err)
  | none => ({ w1 with body := w1.body ++ data }, none)

/-- The call `http.Error(w, msg, code)`: plain-text content type, the status
code, and the message followed by a newline. -/
def httpError (w : Response) (fault : Option GoError) (msg : String) (code : Nat) : Response :=
  (Write (WriteHeader (setContentType w "text/plain; charset=utf-8") code) fault
    (msg ++ "\n")).1

/-- What `BuyHandler` meets outside its own code: the text `err.Error()` of an
error and the error of writes on the connection, if it is broken. -/
structure HandlerEnv where
  errorText : GoError → String
  writeFault : Option GoError

/-- What a call of `BuyHandler` leaves behind: the response and the calls it
made to the service, with their arguments. -/
structure HandlerOutcome where
  response : Response
  serviceCalls : List (Int × String)

/-- The JSON encoding of `BuyResponse` with the success message, as
`json.Encoder.Encode` writes it. -/
def buyResponseJSON : String :=
  "\x7b\"message\":\"Item purchased successfully\"\x7d\n"

/-- Source `handlers.BuyHandler` for a request whose URL parameter `item` and
whose user id in the context (`jwtmiddleware.FromContext`, `none` when absent)
are given; `buy` is the `BuyService` the handler was built with. -/
def BuyHandler (buy : Int → String → Option GoError) (env : HandlerEnv)
    (item : String) (ctxUserID : Option Int) : HandlerOutcome :=
  if item == "" then
    ⟨httpError Response.fresh env.writeFault "item parameter is required" 400, []⟩
  else
    match ctxUserID with
    | none => ⟨httpError Response.fresh env.writeFault "unauthorized" 401, []⟩
    | some userID =>
      match buy userID item with
      | some err =>
        ⟨httpError Response.fresh env.writeFault (env.errorText err) 400, [(userID, item)]⟩
      | none =>
        let w1 := setContentType Response.fresh "application/json"
        match Write w1 env.writeFault buyResponseJSON with
        | (w2, some _) =>
          ⟨httpError w2 env.writeFault "internal server error" 500, [(userID, item)]⟩
        | (w2, none) => ⟨w2, [(userID, item)]⟩

/-- A rendering of errors for the examples: the message of the outermost
error. -/
def outerText : GoError → String
  | .sentinel name => name
  | .pq code => code
  | .driver text => text
  | .wrapf msg _ => msg
  | .errorf msg => msg

/-! ## The ledger equation -/

/-- The empty store: no account, no order, no ledger entry; the catalog is
reference data. -/
def emptyStore (catalog : List Merch) : DB :=
  { users := [], merch := catalog, orders := [], coinTransactions := [] }

/-- The sum of the amounts of the ledger entries of an account of one kind, as
an exact integer. -/
def ledgerTotal (kind : String) (id : Int) (ledger : List CoinTransaction) : Int :=
  ((ledger.filter (fun t => t.UserID == id && t.TxType == kind)).map (fun t => t.Amount)).sum

/-- The sum of the total prices of the orders of an account, as an exact
integer. -/
def spentTotal (id : Int) (orders : List OrderRow) : Int :=
  ((orders.filter (fun o => o.UserID == id)).map (fun o => o.TotalPrice)).sum

/-- Whether the arithmetic of a call on `db` is exact: every new balance the
call computes (a debit `balance - amount`, a credit `balance + amount`) is the
exact integer result, not a wrapped one. -/
def arithExact (db : DB) : Op → Bool
  | .login _ _ _ => true
  | .buy _ userID item =>
    match db.merch.find? (fun m => m.Name == item),
          db.users.find? (fun u => u.ID == userID) with
    | some merch, some user =>
      decide (user.CoinBalance < merch.Price) ||
        decide (wrapInt (user.CoinBalance - merch.Price) = user.CoinBalance - merch.Price)
    | _, _ => true
  | .sendCoin _ fromUserID toUser amount =>
    match db.users.find? (fun u => u.ID == fromUserID),
          db.users.find? (fun u => u.Email == toUser) with
    | some sender, some receiver =>
      decide (amount ≤ 0) || decide (sender.CoinBalance < amount) ||
        (decide (wrapInt (sender.CoinBalance - amount) = sender.CoinBalance - amount) &&
          decide (wrapInt (receiver.CoinBalance + amount) = receiver.CoinBalance + amount))
    | _, _ => true

/-- Whether the arithmetic is exact along a sequence of calls run from `db`. -/
def arithExactAlong (db : DB) : List Op → Bool
  | [] => true
  | op :: ops => arithExact db op && arithExactAlong (step db op) ops

/-- The ledger equation of an account row in a database: its balance is 1000
plus what it received, minus what it sent, minus what it spent on orders. -/
def ledgerEquation (db : DB) (u : User) : Prop :=
  u.CoinBalance =
    1000 + ledgerTotal "transfer_received" u.ID db.coinTransactions
      - ledgerTotal "transfer_sent" u.ID db.coinTransactions
      - spentTotal u.ID db.orders

/-- The invariant behind the ledger equation: ids are keys, every order and
ledger entry belongs to a stored account, and every account satisfies the
equation. -/
def ledgerInvariant (db : DB) : Prop :=
  (db.users.map (fun u => u.ID)).Nodup ∧
  (∀ t ∈ db.coinTransactions, t.UserID ∈ db.users.map (fun u => u.ID)) ∧
  (∀ o ∈ db.orders, o.UserID ∈ db.users.map (fun u => u.ID)) ∧
  (∀ u ∈ db.users, ledgerEquation db u)

/-- The environment `sampleLoginEnv` with the id the database assigns to the
new account. -/
def loginEnvWithID (id : Int) : LoginEnv :=
  { sampleLoginEnv with createUser := { fault := none, id := id } }

/-- A session from the empty store: two first logins, a purchase, two
transfers, a transfer refused for lack of funds and a purchase whose commit
fails. -/
def ledgerOps : List Op :=
  [.login (loginEnvWithID 1) "a@example.com" "secret",
   .login (loginEnvWithID 2) "b@example.com" "secret",
   .buy noBuyFaults 1 "t-shirt",
   .sendCoin noSendCoinFaults 1 "b@example.com" 300,
   .sendCoin noSendCoinFaults 2 "a@example.com" 50,
   .sendCoin noSendCoinFaults 1 "b@example.com" 5000,
   .buy { noBuyFaults with commit := some connLost } 2 "t-shirt"]

/-! ## The steps of a unit of work before its Commit -/

/-- Whether every lookup, validation and write step that `Buy` makes between
`BeginTx` and `Commit` goes through: the catalog lookup, the locking read of
the account, the funds check, the balance update and the order insert, each
with the arguments `Buy` gives it. -/
def buyStepsPass (db : DB) (f : BuyFaults) (userID : Int) (item : String) : Bool :=
  match GetMerchByName db f.getMerch item with
  | .error _ => false
  | .ok merch =>
    match LockUserByIDTx db f.lockUser userID with
    | .error _ => false
    | .ok user =>
      if user.CoinBalance < merch.Price then false
      else
        match UpdateUserBalance db f.updateBalance userID
            (wrapInt (user.CoinBalance - merch.Price)) with
        | .error _ => false
        | .ok tx1 =>
          match CreateOrder tx1 f.createOrder userID merch.ID 1 merch.Price with
          | .error _ => false
          | .ok _ => true

/-- Whether every lookup, validation and write step that `SendCoin` makes
between `BeginTx` and `Commit` goes through: the locking read of the sender,
the lookup of the receiver, the self-transfer check, the funds check, the two
balance updates and the two ledger inserts, each with the arguments `SendCoin`
gives it. -/
def sendCoinStepsPass (db : DB) (f : SendCoinFaults) (fromUserID : Int) (toUser : String)
    (amount : Int) : Bool :=
  match LockUserByIDTx db f.lockSender fromUserID with
  | .error _ => false
  | .ok sender =>
    match GetUserByEmail db f.getReceiver toUser with
    | .error _ => false
    | .ok receiver =>
      if fromUserID == receiver.ID then false
      else if sender.CoinBalance < amount then false
      else
        match UpdateUserBalance db f.updateSender fromUserID
            (wrapInt (sender.CoinBalance - amount)) with
        | .error _ => false
        | .ok tx1 =>
          match UpdateUserBalance tx1 f.updateReceiver receiver.ID
              (wrapInt (receiver.CoinBalance + amount)) with
          | .error _ => false
          | .ok tx2 =>
            match CreateTransaction tx2 f.createSent fromUserID amount "transfer_sent"
                (some receiver.ID) with
            | .error _ => false
            | .ok tx3 =>
              match CreateTransaction tx3 f.createReceived receiver.ID amount
                  "transfer_received" (some fromUserID) with
              | .error _ => false
              | .ok _ => true

/-! ## The checks of SendCoin, as the specification lists them -/

/-- The checks of `SendCoin`, in the order of the specification. -/
inductive SendCoinCheck where
  | invalidAmount
  | senderNotFound
  | receiverNotFound
  | selfTransfer
  | insufficientFunds
  deriving DecidableEq, Repr

/-- The first check of the specification that fails, `none` when all pass:
amount `<= 0`; no account with the sender id; no account with the receiver
identity; receiver id equal to the sender id; sender balance below the amount. -/
def firstFailedCheck (db : DB) (fromUserID : Int) (toUser : String) (amount : Int) :
    Option SendCoinCheck :=
  if amount ≤ 0 then some .invalidAmount
  else
    match db.users.find? (fun u => u.ID == fromUserID) with
    | none => some .senderNotFound
    | some sender =>
      match db.users.find? (fun u => u.Email == toUser) with
      | none => some .receiverNotFound
      | some receiver =>
        if fromUserID = receiver.ID then some .selfTransfer
        else if sender.CoinBalance < amount then some .insufficientFunds
        else none

/-- The error `SendCoin` returns for each failed check. -/
def checkError : SendCoinCheck → GoError
  | .invalidAmount => .errorf "service.SendCoinService.SendCoin: amount must be positive"
  | .senderNotFound =>
    .wrapf "service.SendCoinService.SendCoin: failed to get sender" ErrUserNotFound
  | .receiverNotFound => .errorf "service.SendCoinService.SendCoin: receiver not found"
  | .selfTransfer =>
    .errorf "service.SendCoinService.SendCoin: cannot transfer coins to yourself"
  | .insufficientFunds => .errorf "service.SendCoinService.SendCoin: insufficient funds"

/-! ## Facts about the storage layer -/

theorem wrapInt_of_isInt (x : Int) (h : isInt x) : wrapInt x = x := by
  unfold isInt intMin intMax at h
  unfold wrapInt
  omega

theorem queryRow_ok {α : Type} (rows : List α) (p : α → Bool) (fault : Option GoError) (r : α)
    (h : queryRow rows p fault = .ok r) : fault = none ∧ rows.find? p = some r := by
  unfold queryRow at h
  split at h
  · cases h
  · split at h
    · cases h; exact ⟨rfl, by assumption⟩
    · cases h

theorem LockUserByIDTx_ok (tx : DB) (fault : Option GoError) (id : Int) (u : User)
    (h : LockUserByIDTx tx fault id = .ok u) :
    tx.users.find? (fun u => u.ID == id) = some u := by
  unfold LockUserByIDTx at h
  split at h
  · split at h <;> split at h <;> cases h
  · rename_i user hq
    cases h
    exact (queryRow_ok _ _ _ _ hq).2

theorem GetUserByEmail_ok (db : DB) (fault : Option GoError) (email : String) (u : User)
    (h : GetUserByEmail db fault email = .ok u) :
    db.users.find? (fun u => u.Email == email) = some u := by
  unfold GetUserByEmail at h
  split at h
  · split at h <;> cases h
  · rename_i user hq
    cases h
    exact (queryRow_ok _ _ _ _ hq).2

theorem GetMerchByName_ok (tx : DB) (fault : Option GoError) (name : String) (m : Merch)
    (h : GetMerchByName tx fault name = .ok m) :
    tx.merch.find? (fun m => m.Name == name) = some m := by
  unfold GetMerchByName at h
  split at h
  · split at h <;> cases h
  · rename_i merch hq
    cases h
    exact (queryRow_ok _ _ _ _ hq).2

theorem UpdateUserBalance_ok (tx tx1 : DB) (fault : UpdateFaults) (id nb : Int)
    (h : UpdateUserBalance tx fault id nb = .ok tx1) :
    tx1 = { tx with users := setBalance id nb tx.users } := by
  unfold UpdateUserBalance at h
  split at h
  · cases h
  · split at h
    · cases h
    · simp only at h
      split at h
      · cases h
      · cases h; rfl

theorem CreateOrder_ok (tx tx1 : DB) (fault : Option GoError) (a b c d : Int)
    (h : CreateOrder tx fault a b c d = .ok tx1) :
    tx1 = { tx with orders := tx.orders ++ [⟨a, b, c, d⟩] } := by
  unfold CreateOrder at h
  split at h <;> cases h
  rfl

theorem CreateTransaction_ok (tx tx1 : DB) (fault : Option GoError) (a b : Int) (t : String)
    (r : Option Int) (h : CreateTransaction tx fault a b t r = .ok tx1) :
    tx1 = { tx with coinTransactions := tx.coinTransactions ++ [⟨a, b, t, r⟩] } := by
  unfold CreateTransaction at h
  split at h <;> cases h
  rfl

/-! ## Facts about the services -/

theorem Buy_cases (db : DB) (f : BuyFaults) (userID : Int) (item : String) :
    ((Buy db f userID item).err ≠ none ∧ (Buy db f userID item).db = db) ∨
    ∃ merch user,
      db.merch.find? (fun m => m.Name == item) = some merch ∧
      db.users.find? (fun u => u.ID == userID) = some user ∧
      merch.Price ≤ user.CoinBalance ∧
      Buy db f userID item =
        ⟨none, buyResult db userID merch user,
          buyCalls userID item merch (wrapInt (user.CoinBalance - merch.Price))⟩ := by
  cases hb : f.beginTx with
  | some e => left; simp [Buy, hb]
  | none =>
    cases hm : GetMerchByName db f.getMerch item with
    | error e => left; simp [Buy, hb, hm]
    | ok merch =>
      cases hu : LockUserByIDTx db f.lockUser userID with
      | error e => left; simp [Buy, hb, hm, hu]
      | ok user =>
        by_cases hlt : user.CoinBalance < merch.Price
        · left; simp [Buy, hb, hm, hu, hlt]
        · cases hup : UpdateUserBalance db f.updateBalance userID
              (wrapInt (user.CoinBalance - merch.Price)) with
          | error e => left; simp [Buy, hb, hm, hu, hlt, hup]
          | ok tx1 =>
            cases hco : CreateOrder tx1 f.createOrder userID merch.ID 1 merch.Price with
            | error e => left; simp [Buy, hb, hm, hu, hlt, hup, hco]
            | ok tx2 =>
              cases hc : f.commit with
              | some e => left; simp [Buy, hb, hm, hu, hlt, hup, hco, hc]
              | none =>
                right
                refine ⟨merch, user, GetMerchByName_ok _ _ _ _ hm, LockUserByIDTx_ok _ _ _ _ hu,
                  not_lt.mp hlt, ?_⟩
                have h1 := UpdateUserBalance_ok _ _ _ _ _ hup
                have h2 := CreateOrder_ok _ _ _ _ _ _ _ hco
                subst h1
                subst h2
                simp [Buy, hb, hm, hu, hlt, hup, hco, hc, buyResult, buyCalls]

theorem SendCoin_cases (db : DB) (f : SendCoinFaults) (fromUserID : Int) (toUser : String)
    (amount : Int) :
    ((SendCoin db f fromUserID toUser amount).err ≠ none ∧
      (SendCoin db f fromUserID toUser amount).db = db) ∨
    ∃ sender receiver,
      0 < amount ∧
      db.users.find? (fun u => u.ID == fromUserID) = some sender ∧
      db.users.find? (fun u => u.Email == toUser) = some receiver ∧
      fromUserID ≠ receiver.ID ∧
      amount ≤ sender.CoinBalance ∧
      SendCoin db f fromUserID toUser amount =
        ⟨none, sendCoinResult db fromUserID amount sender receiver,
          sendCoinCalls fromUserID toUser amount sender receiver⟩ := by
  by_cases ha : amount ≤ 0
  · left; simp [SendCoin, ha]
  cases hb : f.beginTx with
  | some e => left; simp [SendCoin, ha, hb]
  | none =>
    cases hs : LockUserByIDTx db f.lockSender fromUserID with
    | error e => left; simp [SendCoin, ha, hb, hs]
    | ok sender =>
      cases hr : GetUserByEmail db f.getReceiver toUser with
      | error e =>
        left
        by_cases hnf : errorsIs e ErrUserNotFound = true <;> simp [SendCoin, ha, hb, hs, hr, hnf]
      | ok receiver =>
        by_cases hself : fromUserID = receiver.ID
        · left; subst hself; simp [SendCoin, ha, hb, hs, hr]
        by_cases hlt : sender.CoinBalance < amount
        · left; simp [SendCoin, ha, hb, hs, hr, hself, hlt]
        cases h1 : UpdateUserBalance db f.updateSender fromUserID
            (wrapInt (sender.CoinBalance - amount)) with
        | error e => left; simp [SendCoin, ha, hb, hs, hr, hself, hlt, h1]
        | ok tx1 =>
          cases h2 : UpdateUserBalance tx1 f.updateReceiver receiver.ID
              (wrapInt (receiver.CoinBalance + amount)) with
          | error e => left; simp [SendCoin, ha, hb, hs, hr, hself, hlt, h1, h2]
          | ok tx2 =>
            cases h3 : CreateTransaction tx2 f.createSent fromUserID amount "transfer_sent"
                (some receiver.ID) with
            | error e => left; simp [SendCoin, ha, hb, hs, hr, hself, hlt, h1, h2, h3]
            | ok tx3 =>
              cases h4 : CreateTransaction tx3 f.createReceived receiver.ID amount
                  "transfer_received" (some fromUserID) with
              | error e => left; simp [SendCoin, ha, hb, hs, hr, hself, hlt, h1, h2, h3, h4]
              | ok tx4 =>
                cases hc : f.commit with
                | some e =>
                  left; simp [SendCoin, ha, hb, hs, hr, hself, hlt, h1, h2, h3, h4, hc]
                | none =>
                  right
                  refine ⟨sender, receiver, not_le.mp ha, LockUserByIDTx_ok _ _ _ _ hs,
                    GetUserByEmail_ok _ _ _ _ hr, hself, not_lt.mp hlt, ?_⟩
                  have e1 := UpdateUserBalance_ok _ _ _ _ _ h1
                  have e2 := UpdateUserBalance_ok _ _ _ _ _ h2
                  have e3 := CreateTransaction_ok _ _ _ _ _ _ _ h3
                  have e4 := CreateTransaction_ok _ _ _ _ _ _ _ h4
                  subst e1
                  subst e2
                  subst e3
                  subst e4
                  simp [SendCoin, ha, hb, hs, hr, hself, hlt, h1, h2, h3, h4, hc,
                    sendCoinResult, sendCoinCalls]

/-! ## Calls that meet no driver error -/

theorem LockUserByIDTx_found (tx : DB) (id : Int) (u : User)
    (h : tx.users.find? (fun u => u.ID == id) = some u) :
    LockUserByIDTx tx none id = .ok u := by
  simp [LockUserByIDTx, queryRow, h]

theorem GetUserByEmail_found (db : DB) (email : String) (u : User)
    (h : db.users.find? (fun u => u.Email == email) = some u) :
    GetUserByEmail db none email = .ok u := by
  simp [GetUserByEmail, queryRow, h]

theorem GetMerchByName_found (tx : DB) (name : String) (m : Merch)
    (h : tx.merch.find? (fun m => m.Name == name) = some m) :
    GetMerchByName tx none name = .ok m := by
  simp [GetMerchByName, queryRow, h]

theorem find_id_spec (us : List User) (id : Int) (u : User)
    (h : us.find? (fun u => u.ID == id) = some u) : u ∈ us ∧ u.ID = id := by
  have hp := @List.find?_some _ (fun u : User => u.ID == id) u us h
  exact ⟨List.mem_of_find?_eq_some h, by simpa using hp⟩

theorem find_email_spec (us : List User) (email : String) (u : User)
    (h : us.find? (fun u => u.Email == email) = some u) : u ∈ us ∧ u.Email = email := by
  have hp := @List.find?_some _ (fun u : User => u.Email == email) u us h
  exact ⟨List.mem_of_find?_eq_some h, by simpa using hp⟩

theorem UpdateUserBalance_found (tx : DB) (id nb : Int) (u : User)
    (h : tx.users.find? (fun u => u.ID == id) = some u) :
    UpdateUserBalance tx ⟨none, none⟩ id nb =
      .ok { tx with users := setBalance id nb tx.users } := by
  obtain ⟨hin, hid⟩ := find_id_spec _ _ _ h
  have hmem : u ∈ tx.users.filter (fun u => u.ID == id) :=
    List.mem_filter.mpr ⟨hin, by simpa using hid⟩
  have hlen : (tx.users.filter (fun u => u.ID == id)).length ≠ 0 := by
    intro h0
    rw [List.length_eq_zero] at h0
    rw [h0] at hmem
    cases hmem
  simp only [UpdateUserBalance, beq_iff_eq, hlen, if_false]

theorem find_setBalance (id id1 nb : Int) (us : List User) :
    (setBalance id nb us).find? (fun u => u.ID == id1) =
      (us.find? (fun u => u.ID == id1)).map
        (fun u => if u.ID == id then { u with CoinBalance := nb } else u) := by
  unfold setBalance
  rw [List.find?_map]
  have hfun : ((fun u : User => u.ID == id1) ∘ fun u : User =>
      if (u.ID == id) = true then { u with CoinBalance := nb } else u) =
      (fun u : User => u.ID == id1) := by
    funext u
    simp only [Function.comp]
    split <;> rfl
  rw [hfun]

theorem find_setBalance_same (id nb : Int) (us : List User) :
    (setBalance id nb us).find? (fun u => u.ID == id) =
      (us.find? (fun u => u.ID == id)).map (fun u => { u with CoinBalance := nb }) := by
  rw [find_setBalance]
  cases h : us.find? (fun u => u.ID == id) with
  | none => rfl
  | some v =>
    have hv := (find_id_spec _ _ _ h).2
    simp [hv]

theorem find_setBalance_ne (id id1 nb : Int) (us : List User) (hne : id1 ≠ id) :
    (setBalance id nb us).find? (fun u => u.ID == id1) = us.find? (fun u => u.ID == id1) := by
  rw [find_setBalance]
  cases h : us.find? (fun u => u.ID == id1) with
  | none => rfl
  | some v =>
    have hv := (find_id_spec _ _ _ h).2
    simp [hv, hne]

theorem find_setBalance_exists (id id1 nb : Int) (us : List User) (u : User)
    (h : us.find? (fun u => u.ID == id1) = some u) :
    ∃ v, (setBalance id nb us).find? (fun u => u.ID == id1) = some v := by
  rw [find_setBalance, h]
  exact ⟨_, rfl⟩

theorem find_email_setBalance (id nb : Int) (email : String) (us : List User) :
    (setBalance id nb us).find? (fun u => u.Email == email) =
      (us.find? (fun u => u.Email == email)).map
        (fun u => if u.ID == id then { u with CoinBalance := nb } else u) := by
  unfold setBalance
  rw [List.find?_map]
  have hfun : ((fun u : User => u.Email == email) ∘ fun u : User =>
      if (u.ID == id) = true then { u with CoinBalance := nb } else u) =
      (fun u : User => u.Email == email) := by
    funext u
    simp only [Function.comp]
    split <;> rfl
  rw [hfun]

theorem find_email_id (us : List User) (email : String) (u : User)
    (h : us.find? (fun u => u.Email == email) = some u) :
    ∃ v, us.find? (fun w => w.ID == u.ID) = some v := by
  have hin := (find_email_spec _ _ _ h).1
  cases hf : us.find? (fun w => w.ID == u.ID) with
  | some v => exact ⟨v, rfl⟩
  | none =>
    have := List.find?_eq_none.mp hf u hin
    simp at this

theorem Buy_noFaults (db : DB) (userID : Int) (item : String) (merch : Merch) (user : User)
    (hm : db.merch.find? (fun m => m.Name == item) = some merch)
    (hu : db.users.find? (fun u => u.ID == userID) = some user)
    (hle : merch.Price ≤ user.CoinBalance) :
    Buy db noBuyFaults userID item =
      ⟨none, buyResult db userID merch user,
        buyCalls userID item merch (wrapInt (user.CoinBalance - merch.Price))⟩ := by
  have hlt : ¬ user.CoinBalance < merch.Price := not_lt.mpr hle
  simp [Buy, noBuyFaults, GetMerchByName_found _ _ _ hm, LockUserByIDTx_found _ _ _ hu, hlt,
    UpdateUserBalance_found _ _ _ _ hu, CreateOrder, buyResult, buyCalls]

theorem SendCoin_noFaults (db : DB) (fromUserID : Int) (toUser : String) (amount : Int)
    (sender receiver : User)
    (hs : db.users.find? (fun u => u.ID == fromUserID) = some sender)
    (hr : db.users.find? (fun u => u.Email == toUser) = some receiver)
    (hpos : 0 < amount) (hne : fromUserID ≠ receiver.ID) (hle : amount ≤ sender.CoinBalance) :
    SendCoin db noSendCoinFaults fromUserID toUser amount =
      ⟨none, sendCoinResult db fromUserID amount sender receiver,
        sendCoinCalls fromUserID toUser amount sender receiver⟩ := by
  have ha : ¬ amount ≤ 0 := not_le.mpr hpos
  have hlt : ¬ sender.CoinBalance < amount := not_lt.mpr hle
  obtain ⟨w, hw⟩ := find_email_id _ _ _ hr
  obtain ⟨v, hv⟩ := find_setBalance_exists fromUserID receiver.ID
    (wrapInt (sender.CoinBalance - amount)) db.users w hw
  have h2 := UpdateUserBalance_found
    { db with users := setBalance fromUserID (wrapInt (sender.CoinBalance - amount)) db.users }
    receiver.ID (wrapInt (receiver.CoinBalance + amount)) v hv
  simp [SendCoin, noSendCoinFaults, ha, LockUserByIDTx_found _ _ _ hs,
    GetUserByEmail_found _ _ _ hr, hne, hlt, UpdateUserBalance_found _ _ _ _ hs, h2,
    CreateTransaction, sendCoinResult, sendCoinCalls]

/-! ## Balances after a committed call -/

theorem balanceOf_buyResult (db : DB) (userID : Int) (merch : Merch) (user : User)
    (hu : db.users.find? (fun u => u.ID == userID) = some user) :
    balanceOf (buyResult db userID merch user) userID =
      some (wrapInt (user.CoinBalance - merch.Price)) := by
  simp only [balanceOf, buyResult]
  rw [find_setBalance_same, hu]
  rfl

theorem balanceOf_sendCoinResult_sender (db : DB) (fromUserID : Int) (amount : Int)
    (sender receiver : User)
    (hs : db.users.find? (fun u => u.ID == fromUserID) = some sender)
    (hne : fromUserID ≠ receiver.ID) :
    balanceOf (sendCoinResult db fromUserID amount sender receiver) fromUserID =
      some (wrapInt (sender.CoinBalance - amount)) := by
  simp only [balanceOf, sendCoinResult]
  rw [find_setBalance_ne _ _ _ _ hne, find_setBalance_same, hs]
  rfl

theorem balanceOf_sendCoinResult_receiver (db : DB) (fromUserID : Int) (toUser : String)
    (amount : Int) (sender receiver : User)
    (hr : db.users.find? (fun u => u.Email == toUser) = some receiver) :
    balanceOf (sendCoinResult db fromUserID amount sender receiver) receiver.ID =
      some (wrapInt (receiver.CoinBalance + amount)) := by
  obtain ⟨w, hw⟩ := find_email_id _ _ _ hr
  obtain ⟨v, hv⟩ := find_setBalance_exists fromUserID receiver.ID
    (wrapInt (sender.CoinBalance - amount)) db.users w hw
  simp only [balanceOf, sendCoinResult]
  rw [find_setBalance_same, hv]
  rfl

/-! ## Balances along a sequence of calls -/

theorem mem_setBalance (id nb : Int) (us : List User) (v : User)
    (h : v ∈ setBalance id nb us) : v ∈ us ∨ v.CoinBalance = nb := by
  unfold setBalance at h
  obtain ⟨u, hu, rfl⟩ := List.mem_map.mp h
  split
  · exact Or.inr rfl
  · exact Or.inl hu

theorem CreateUser_ok (db db1 : DB) (env : CreateUserEnv) (user row : User)
    (h : CreateUser db env user = .ok (row, db1)) :
    row = { user with ID := env.id } ∧ db1 = { db with users := db.users ++ [row] } := by
  unfold CreateUser at h
  split at h
  · cases h
  · simp only at h
    split at h
    · cases h
      exact ⟨rfl, rfl⟩
    · cases h

theorem Login_db (db : DB) (env : LoginEnv) (email password : String) :
    (Login db env email password).db = db ∨
    ∃ row : User, row.CoinBalance = 1000 ∧
      (Login db env email password).db = { db with users := db.users ++ [row] } := by
  cases hg : GetUserByEmail db env.getUser email with
  | ok user =>
    left
    cases hc : env.compare user.PassHash password with
    | some e => simp [Login, hg, hc]
    | none =>
      cases ht : NewToken env.token user with
      | error e => simp [Login, hg, hc, ht]
      | ok t => simp [Login, hg, hc, ht]
  | error err =>
    by_cases hnf : errorsIs err ErrUserNotFound = true
    · cases hh : env.hash with
      | error e => left; simp [Login, hg, hnf, hh]
      | ok passHash =>
        cases hcu : CreateUser db env.createUser
            { ID := 0, Email := email, PassHash := passHash, CoinBalance := 1000 } with
        | error e => left; simp [Login, hg, hnf, hh, hcu]
        | ok res =>
          obtain ⟨row, db1⟩ := res
          obtain ⟨hrow, hdb1⟩ := CreateUser_ok _ _ _ _ _ hcu
          right
          refine ⟨row, by rw [hrow], ?_⟩
          cases ht : NewToken env.token row with
          | error e => simp [Login, hg, hnf, hh, hcu, ht, hdb1]
          | ok t => simp [Login, hg, hnf, hh, hcu, ht, hdb1]
    · left; simp [Login, hg, hnf]

theorem step_merch (db : DB) (op : Op) : (step db op).merch = db.merch := by
  cases op with
  | login env email password =>
    rcases Login_db db env email password with h | ⟨row, _, h⟩ <;> simp [step, h]
  | buy f userID item =>
    rcases Buy_cases db f userID item with h | ⟨m, u, _, _, _, h⟩
    · simp [step, h.2]
    · simp [step, h, buyResult]
  | sendCoin f fromUserID toUser amount =>
    rcases SendCoin_cases db f fromUserID toUser amount with h | ⟨a, b, _, _, _, _, _, h⟩
    · simp [step, h.2]
    · simp [step, h, sendCoinResult]

theorem step_balancesOK (db : DB) (op : Op) (hbal : balancesOK db)
    (hprice : ∀ m ∈ db.merch, 0 < m.Price) (hfit : creditFits db op = true) :
    balancesOK (step db op) := by
  cases op with
  | login env email password =>
    rcases Login_db db env email password with h | ⟨row, hrow, h⟩
    · simpa [step, h] using hbal
    · intro u hu
      simp only [step, h, List.mem_append, List.mem_singleton] at hu
      rcases hu with hu | rfl
      · exact hbal u hu
      · rw [hrow]
        unfold intMax
        omega
  | buy f userID item =>
    rcases Buy_cases db f userID item with h | ⟨m, u, hm, hu, hle, h⟩
    · simpa [step, h.2] using hbal
    · intro v hv
      simp only [step, h, buyResult] at hv
      have hp := hprice m (List.mem_of_find?_eq_some hm)
      have hb := hbal u (find_id_spec _ _ _ hu).1
      rcases mem_setBalance _ _ _ _ hv with hv | hv
      · exact hbal v hv
      · rw [hv, wrapInt_of_isInt]
        · omega
        · unfold isInt intMin
          omega
  | sendCoin f fromUserID toUser amount =>
    rcases SendCoin_cases db f fromUserID toUser amount with
      h | ⟨s, r, hpos, hs, hr, _, hle, h⟩
    · simpa [step, h.2] using hbal
    · intro v hv
      simp only [step, h, sendCoinResult] at hv
      have hsb := hbal s (find_id_spec _ _ _ hs).1
      have hrb := hbal r (find_email_spec _ _ _ hr).1
      have hcredit : r.CoinBalance + amount ≤ intMax := by
        simpa [creditFits, h, hr] using hfit
      rcases mem_setBalance _ _ _ _ hv with hv | hv
      · rcases mem_setBalance _ _ _ _ hv with hv | hv
        · exact hbal v hv
        · rw [hv, wrapInt_of_isInt]
          · omega
          · unfold isInt intMin
            omega
      · rw [hv, wrapInt_of_isInt]
        · omega
        · unfold isInt intMin
          omega

theorem run_balancesOK (ops : List Op) :
    ∀ db : DB, balancesOK db → (∀ m ∈ db.merch, 0 < m.Price) → creditsFit db ops = true →
      balancesOK (run db ops) := by
  induction ops with
  | nil => intro db hbal _ _; exact hbal
  | cons op ops ih =>
    intro db hbal hprice hfit
    simp only [creditsFit, Bool.and_eq_true] at hfit
    have h1 := step_balancesOK db op hbal hprice hfit.1
    have h2 : ∀ m ∈ (step db op).merch, 0 < m.Price := by
      rw [step_merch]
      exact hprice
    exact ih (step db op) h1 h2 hfit.2

/-! ## The claims -/

/-- Claim C1. For every store and every call of `Buy` or `SendCoin`, whatever
driver errors it meets: if the call returns an error, the committed database
after the call (accounts with their balances, orders, ledger entries) equals
the committed database before the call. -/
theorem failed_call_leaves_store_unchanged (db : DB) :
    (∀ (f : BuyFaults) (userID : Int) (item : String),
      (Buy db f userID item).err ≠ none → (Buy db f userID item).db = db) ∧
    (∀ (f : SendCoinFaults) (fromUserID : Int) (toUser : String) (amount : Int),
      (SendCoin db f fromUserID toUser amount).err ≠ none →
        (SendCoin db f fromUserID toUser amount).db = db) := by
  constructor
  · intro f userID item herr
    rcases Buy_cases db f userID item with h | ⟨merch, user, _, _, _, heq⟩
    · exact h.2
    · rw [heq] at herr
      exact absurd rfl herr
  · intro f fromUserID toUser amount herr
    rcases SendCoin_cases db f fromUserID toUser amount with h | ⟨s, r, _, _, _, _, _, heq⟩
    · exact h.2
    · rw [heq] at herr
      exact absurd rfl herr

/-- Claim C1 at work: a `Buy` whose `Commit` fails and a `SendCoin` whose second
ledger insert fails both return an error and leave the sample database as it
was. -/
theorem failed_call_leaves_store_unchanged_witness :
    ((Buy sampleDB { noBuyFaults with commit := some connLost } 1 "t-shirt").err ≠ none ∧
      (Buy sampleDB { noBuyFaults with commit := some connLost } 1 "t-shirt").db = sampleDB) ∧
    ((SendCoin sampleDB { noSendCoinFaults with createReceived := some connLost } 1
        "receiver@example.com" 100).err ≠ none ∧
      (SendCoin sampleDB { noSendCoinFaults with createReceived := some connLost } 1
        "receiver@example.com" 100).db = sampleDB) :=
  ⟨⟨by decide,
     (failed_call_leaves_store_unchanged sampleDB).1 _ 1 "t-shirt" (by decide)⟩,
   ⟨by decide,
     (failed_call_leaves_store_unchanged sampleDB).2 _ 1 "receiver@example.com" 100
       (by decide)⟩⟩

/-- Claim C4. Every successful `SendCoin(fromUserID, toUser, amount)` leaves the
ledger equal to the ledger before the call followed by exactly two entries:
first the sender's (account `fromUserID`, the amount, kind `transfer_sent`,
counterparty the receiver's id), then the receiver's (account the receiver's
id, the same amount, kind `transfer_received`, counterparty `fromUserID`),
where the receiver is the account `toUser` resolves to. -/
theorem sendCoin_appends_ledger_pair (db : DB) (f : SendCoinFaults) (fromUserID : Int)
    (toUser : String) (amount : Int)
    (hok : (SendCoin db f fromUserID toUser amount).err = none) :
    ∃ receiver : User,
      db.users.find? (fun u => u.Email == toUser) = some receiver ∧
      (SendCoin db f fromUserID toUser amount).db.coinTransactions =
        db.coinTransactions ++
          [{ UserID := fromUserID, Amount := amount, TxType := "transfer_sent",
             RelatedUserID := some receiver.ID },
           { UserID := receiver.ID, Amount := amount, TxType := "transfer_received",
             RelatedUserID := some fromUserID }] := by
  rcases SendCoin_cases db f fromUserID toUser amount with h | ⟨s, r, _, _, hr, _, _, heq⟩
  · exact absurd hok h.1
  · exact ⟨r, hr, by rw [heq]; rfl⟩

/-- Claim C4 at work: the transfer of the service tests (100 coins from account
1 to the identity of account 2). -/
theorem sendCoin_appends_ledger_pair_witness :
    (SendCoin sampleDB noSendCoinFaults 1 "receiver@example.com" 100).err = none ∧
    ∃ receiver : User,
      sampleDB.users.find? (fun u => u.Email == "receiver@example.com") = some receiver ∧
      (SendCoin sampleDB noSendCoinFaults 1 "receiver@example.com" 100).db.coinTransactions =
        sampleDB.coinTransactions ++
          [{ UserID := 1, Amount := 100, TxType := "transfer_sent",
             RelatedUserID := some receiver.ID },
           { UserID := receiver.ID, Amount := 100, TxType := "transfer_received",
             RelatedUserID := some 1 }] :=
  ⟨by decide,
   sendCoin_appends_ledger_pair sampleDB noSendCoinFaults 1 "receiver@example.com" 100
     (by decide)⟩

/-- Claim C6. Every successful `Buy(userID, item)` creates exactly one order and
no other record: the orders afterwards are the orders before followed by one
order owned by `userID`, for the id of the catalog item named `item`, with
quantity 1 and total price the item's catalog price; the ledger and the
catalog are unchanged and no account is added or removed. -/
theorem buy_creates_one_order (db : DB) (f : BuyFaults) (userID : Int) (item : String)
    (hok : (Buy db f userID item).err = none) :
    ∃ merch : Merch,
      db.merch.find? (fun m => m.Name == item) = some merch ∧
      (Buy db f userID item).db.orders =
        db.orders ++
          [{ UserID := userID, MerchID := merch.ID, Quantity := 1, TotalPrice := merch.Price }] ∧
      (Buy db f userID item).db.coinTransactions = db.coinTransactions ∧
      (Buy db f userID item).db.merch = db.merch ∧
      (Buy db f userID item).db.users.length = db.users.length := by
  rcases Buy_cases db f userID item with h | ⟨merch, user, hm, _, _, heq⟩
  · exact absurd hok h.1
  · refine ⟨merch, hm, ?_, ?_, ?_, ?_⟩ <;> rw [heq]
    · rfl
    · rfl
    · rfl
    · simp [buyResult, setBalance]

/-- Claim C6 at work: the purchase of the service tests (account 1 buys a
t-shirt). -/
theorem buy_creates_one_order_witness :
    (Buy sampleDB noBuyFaults 1 "t-shirt").err = none ∧
    ∃ merch : Merch,
      sampleDB.merch.find? (fun m => m.Name == "t-shirt") = some merch ∧
      (Buy sampleDB noBuyFaults 1 "t-shirt").db.orders =
        sampleDB.orders ++
          [{ UserID := 1, MerchID := merch.ID, Quantity := 1, TotalPrice := merch.Price }] ∧
      (Buy sampleDB noBuyFaults 1 "t-shirt").db.coinTransactions = sampleDB.coinTransactions ∧
      (Buy sampleDB noBuyFaults 1 "t-shirt").db.merch = sampleDB.merch ∧
      (Buy sampleDB noBuyFaults 1 "t-shirt").db.users.length = sampleDB.users.length :=
  ⟨by decide, buy_creates_one_order sampleDB noBuyFaults 1 "t-shirt" (by decide)⟩

/-- Claim C10. For every amount `<= 0`, whatever the database holds (sender or
receiver existing or not) and whatever the storage would answer, `SendCoin`
returns the error "amount must be positive", makes no storage call at all (it
begins no transaction and takes no lock) and leaves the database as it was. -/
theorem sendCoin_nonpositive_amount (db : DB) (f : SendCoinFaults) (fromUserID : Int)
    (toUser : String) (amount : Int) (hamount : amount ≤ 0) :
    SendCoin db f fromUserID toUser amount =
      { err := some (.errorf "service.SendCoinService.SendCoin: amount must be positive")
        db := db
        calls := [] } := by
  simp [SendCoin, hamount]

/-- Claim C10 at work: the request of the API test (empty receiver, amount -5). -/
theorem sendCoin_nonpositive_amount_witness :
    (-5 : Int) ≤ 0 ∧
    SendCoin sampleDB noSendCoinFaults 1 "" (-5) =
      { err := some (.errorf "service.SendCoinService.SendCoin: amount must be positive")
        db := sampleDB
        calls := [] } :=
  ⟨by decide, sendCoin_nonpositive_amount sampleDB noSendCoinFaults 1 "" (-5) (by decide)⟩

/-- Claim C2 as stated fails where the credit overflows Go's `int`: the sender
and the receiver both hold 9223372036854775807, every storage operation
succeeds, and a transfer of 1 coin returns no error but leaves the receiver
with -9223372036854775808, not with 9223372036854775807 + 1. -/
theorem sendCoin_credit_wraps :
    balanceOf overflowDB 1 = some 9223372036854775807 ∧
    (overflowDB.users.find? (fun u => u.Email == "receiver@example.com")).map
      (fun u => (u.ID, u.CoinBalance)) = some (2, 9223372036854775807) ∧
    (SendCoin overflowDB noSendCoinFaults 1 "receiver@example.com" 1).err = none ∧
    balanceOf (SendCoin overflowDB noSendCoinFaults 1 "receiver@example.com" 1).db 2 =
      some (-9223372036854775808) ∧
    balanceOf (SendCoin overflowDB noSendCoinFaults 1 "receiver@example.com" 1).db 2 ≠
      some (9223372036854775807 + 1) := by
  decide

/-- Claim C2, amended. For every sender account with `int` balance `s`, every
receiver account with another id and `int` balance `r`, and every amount `a`
with `0 < a <= s` whose credit fits (`r + a <= 9223372036854775807`): when no
storage operation fails, `SendCoin` returns no error, and afterwards the
sender's balance is exactly `s - a` and the receiver's exactly `r + a`. -/
theorem sendCoin_moves_amount (db : DB) (fromUserID : Int) (toUser : String) (amount : Int)
    (sender receiver : User)
    (hs : db.users.find? (fun u => u.ID == fromUserID) = some sender)
    (hr : db.users.find? (fun u => u.Email == toUser) = some receiver)
    (hne : fromUserID ≠ receiver.ID)
    (hpos : 0 < amount) (hle : amount ≤ sender.CoinBalance)
    (hsInt : isInt sender.CoinBalance) (hrInt : isInt receiver.CoinBalance)
    (hfit : receiver.CoinBalance + amount ≤ intMax) :
    (SendCoin db noSendCoinFaults fromUserID toUser amount).err = none ∧
    balanceOf (SendCoin db noSendCoinFaults fromUserID toUser amount).db fromUserID =
      some (sender.CoinBalance - amount) ∧
    balanceOf (SendCoin db noSendCoinFaults fromUserID toUser amount).db receiver.ID =
      some (receiver.CoinBalance + amount) := by
  have h1 : wrapInt (sender.CoinBalance - amount) = sender.CoinBalance - amount := by
    apply wrapInt_of_isInt
    unfold isInt intMin intMax at *
    omega
  have h2 : wrapInt (receiver.CoinBalance + amount) = receiver.CoinBalance + amount := by
    apply wrapInt_of_isInt
    unfold isInt intMin intMax at *
    omega
  rw [SendCoin_noFaults db fromUserID toUser amount sender receiver hs hr hpos hne hle]
  refine ⟨rfl, ?_, ?_⟩
  · rw [← h1]
    exact balanceOf_sendCoinResult_sender db fromUserID amount sender receiver hs hne
  · rw [← h2]
    exact balanceOf_sendCoinResult_receiver db fromUserID toUser amount sender receiver hr

/-- Claim C2 at work: the transfer of the service tests, 1000 and 500 become
900 and 600. -/
theorem sendCoin_moves_amount_witness :
    (SendCoin sampleDB noSendCoinFaults 1 "receiver@example.com" 100).err = none ∧
    balanceOf (SendCoin sampleDB noSendCoinFaults 1 "receiver@example.com" 100).db 1 =
      some (1000 - 100) ∧
    balanceOf (SendCoin sampleDB noSendCoinFaults 1 "receiver@example.com" 100).db 2 =
      some (500 + 100) :=
  sendCoin_moves_amount sampleDB 1 "receiver@example.com" 100
    ⟨1, "sender@example.com", [1], 1000⟩ ⟨2, "receiver@example.com", [2], 500⟩
    (by decide) (by decide) (by decide) (by decide) (by decide)
    (by unfold isInt; decide) (by unfold isInt; decide) (by decide)

/-- Claim C3 as stated fails where the credit overflows Go's `int`: a successful
transfer of 5 coins between two accounts that both hold 9223372036854775807
leaves 9223372036854775802 and -9223372036854775804, whose sum is not the sum
before the call. -/
theorem sendCoin_sum_breaks_on_overflow :
    (SendCoin overflowDB noSendCoinFaults 1 "receiver@example.com" 5).err = none ∧
    balanceOf overflowDB 1 = some 9223372036854775807 ∧
    balanceOf overflowDB 2 = some 9223372036854775807 ∧
    balanceOf (SendCoin overflowDB noSendCoinFaults 1 "receiver@example.com" 5).db 1 =
      some 9223372036854775802 ∧
    balanceOf (SendCoin overflowDB noSendCoinFaults 1 "receiver@example.com" 5).db 2 =
      some (-9223372036854775804) ∧
    (9223372036854775802 : Int) + (-9223372036854775804) ≠
      9223372036854775807 + 9223372036854775807 := by
  decide

/-- Claim C3, amended. In every database (hence at each call of any sequence
of calls), a successful `SendCoin` between accounts with `int` balances whose
credit fits (receiver balance + amount `<= 9223372036854775807`) leaves the
sum of the sender's and the receiver's balances equal to their sum before the
call. -/
theorem sendCoin_preserves_pair_sum (db : DB) (f : SendCoinFaults) (fromUserID : Int)
    (toUser : String) (amount : Int) (sender receiver : User)
    (hs : db.users.find? (fun u => u.ID == fromUserID) = some sender)
    (hr : db.users.find? (fun u => u.Email == toUser) = some receiver)
    (hok : (SendCoin db f fromUserID toUser amount).err = none)
    (hsInt : isInt sender.CoinBalance) (hrInt : isInt receiver.CoinBalance)
    (hfit : receiver.CoinBalance + amount ≤ intMax) :
    ∃ s1 r1 : Int,
      balanceOf (SendCoin db f fromUserID toUser amount).db fromUserID = some s1 ∧
      balanceOf (SendCoin db f fromUserID toUser amount).db receiver.ID = some r1 ∧
      s1 + r1 = sender.CoinBalance + receiver.CoinBalance := by
  rcases SendCoin_cases db f fromUserID toUser amount with
    h | ⟨s, r, hpos, hs1, hr1, hne, hle, heq⟩
  · exact absurd hok h.1
  · rw [hs] at hs1
    rw [hr] at hr1
    cases hs1
    cases hr1
    have h1 : wrapInt (sender.CoinBalance - amount) = sender.CoinBalance - amount := by
      apply wrapInt_of_isInt
      unfold isInt intMin intMax at *
      omega
    have h2 : wrapInt (receiver.CoinBalance + amount) = receiver.CoinBalance + amount := by
      apply wrapInt_of_isInt
      unfold isInt intMin intMax at *
      omega
    refine ⟨sender.CoinBalance - amount, receiver.CoinBalance + amount, ?_, ?_, by ring⟩
    · rw [heq, ← h1]
      exact balanceOf_sendCoinResult_sender db fromUserID amount sender receiver hs hne
    · rw [heq, ← h2]
      exact balanceOf_sendCoinResult_receiver db fromUserID toUser amount sender receiver hr

/-- Claim C3 at work: the transfer of the service tests keeps 1000 + 500. -/
theorem sendCoin_preserves_pair_sum_witness :
    (SendCoin sampleDB noSendCoinFaults 1 "receiver@example.com" 100).err = none ∧
    ∃ s1 r1 : Int,
      balanceOf (SendCoin sampleDB noSendCoinFaults 1 "receiver@example.com" 100).db 1 =
        some s1 ∧
      balanceOf (SendCoin sampleDB noSendCoinFaults 1 "receiver@example.com" 100).db 2 =
        some r1 ∧
      s1 + r1 = 1000 + 500 :=
  ⟨by decide,
   sendCoin_preserves_pair_sum sampleDB noSendCoinFaults 1 "receiver@example.com" 100
    ⟨1, "sender@example.com", [1], 1000⟩ ⟨2, "receiver@example.com", [2], 500⟩
    (by decide) (by decide) (by decide)
    (by unfold isInt; decide) (by unfold isInt; decide) (by decide)⟩

/-- Claim C5. For every account with `int` balance `b` and every catalog item
with price `p` (a price of the data model: not negative) such that `b >= p`
(including `b = p`): when no storage operation fails, `Buy` returns no error
and the account's balance afterwards is exactly `b - p`. -/
theorem buy_debits_price (db : DB) (userID : Int) (item : String) (merch : Merch) (user : User)
    (hm : db.merch.find? (fun m => m.Name == item) = some merch)
    (hu : db.users.find? (fun u => u.ID == userID) = some user)
    (hprice : 0 ≤ merch.Price)
    (hint : isInt user.CoinBalance)
    (hle : merch.Price ≤ user.CoinBalance) :
    (Buy db noBuyFaults userID item).err = none ∧
    balanceOf (Buy db noBuyFaults userID item).db userID =
      some (user.CoinBalance - merch.Price) := by
  have h1 : wrapInt (user.CoinBalance - merch.Price) = user.CoinBalance - merch.Price := by
    apply wrapInt_of_isInt
    unfold isInt intMin intMax at *
    omega
  rw [Buy_noFaults db userID item merch user hm hu hle]
  refine ⟨rfl, ?_⟩
  rw [← h1]
  exact balanceOf_buyResult db userID merch user hu

/-- Claim C5 at work: the purchase of the service tests, 1000 becomes 920, and
the purchase of an account that holds exactly the price, 80 becomes 0. -/
theorem buy_debits_price_witness :
    ((Buy sampleDB noBuyFaults 1 "t-shirt").err = none ∧
      balanceOf (Buy sampleDB noBuyFaults 1 "t-shirt").db 1 = some (1000 - 80)) ∧
    ((Buy exactFundsDB noBuyFaults 1 "t-shirt").err = none ∧
      balanceOf (Buy exactFundsDB noBuyFaults 1 "t-shirt").db 1 = some (80 - 80)) :=
  ⟨buy_debits_price sampleDB 1 "t-shirt" ⟨1, "t-shirt", 80⟩
      ⟨1, "sender@example.com", [1], 1000⟩
      (by decide) (by decide) (by decide) (by decide) (by decide),
   buy_debits_price exactFundsDB 1 "t-shirt" ⟨1, "t-shirt", 80⟩
      ⟨1, "test@example.com", [1], 80⟩
      (by decide) (by decide) (by decide) (by decide) (by decide)⟩

/-- Claim C7. For every account whose balance is strictly below the price of
the requested catalog item, and whatever driver errors the call meets, `Buy`
returns an error, the committed database is unchanged (the balance keeps its
value, no order is created), the unit of work is never committed, and once
begun it ends with `Rollback`; when the transaction begins and both reads go
through, the error is "insufficient funds" and the calls are `BeginTx`, the
two reads and `Rollback`. -/
theorem buy_insufficient_funds (db : DB) (f : BuyFaults) (userID : Int) (item : String)
    (merch : Merch) (user : User)
    (hm : db.merch.find? (fun m => m.Name == item) = some merch)
    (hu : db.users.find? (fun u => u.ID == userID) = some user)
    (hlt : user.CoinBalance < merch.Price) :
    (Buy db f userID item).err ≠ none ∧
    (Buy db f userID item).db = db ∧
    balanceOf (Buy db f userID item).db userID = some user.CoinBalance ∧
    (Buy db f userID item).db.orders = db.orders ∧
    Call.commit ∉ (Buy db f userID item).calls ∧
    (f.beginTx = none → (Buy db f userID item).calls.getLast? = some Call.rollback) ∧
    (f.beginTx = none → f.getMerch = none → f.lockUser = none →
      Buy db f userID item =
        { err := some (.errorf "service.BuyService.Buy: insufficient funds")
          db := db
          calls := [.beginTx, .getMerchByName item, .lockUserByIDTx userID, .rollback] }) := by
  have hbal : balanceOf db userID = some user.CoinBalance := by
    simp [balanceOf, hu]
  cases hb : f.beginTx with
  | some e => simp [Buy, hb, hbal]
  | none =>
    cases hm1 : GetMerchByName db f.getMerch item with
    | error e =>
      have hno : f.getMerch ≠ none := by
        intro h0
        rw [h0, GetMerchByName_found _ _ _ hm] at hm1
        cases hm1
      simp [Buy, hb, hm1, hbal, hno]
    | ok merch1 =>
      have e1 := GetMerchByName_ok _ _ _ _ hm1
      rw [hm] at e1
      cases e1
      cases hu1 : LockUserByIDTx db f.lockUser userID with
      | error e =>
        have hno : f.lockUser ≠ none := by
          intro h0
          rw [h0, LockUserByIDTx_found _ _ _ hu] at hu1
          cases hu1
        simp [Buy, hb, hm1, hu1, hbal, hno]
      | ok user1 =>
        have e2 := LockUserByIDTx_ok _ _ _ _ hu1
        rw [hu] at e2
        cases e2
        simp [Buy, hb, hm1, hu1, hlt, hbal]

/-- Claim C7 at work: an account holding 50 coins asks for the t-shirt priced 80. -/
theorem buy_insufficient_funds_witness :
    (Buy poorDB noBuyFaults 1
        "t-shirt").err =
      some (.errorf "service.BuyService.Buy: insufficient funds") ∧
    (Buy poorDB noBuyFaults 1
        "t-shirt").db = poorDB ∧
    (Buy poorDB noBuyFaults 1
        "t-shirt").calls.getLast? = some Call.rollback :=
  have h := buy_insufficient_funds poorDB
    noBuyFaults 1 "t-shirt" ⟨1, "t-shirt", 80⟩ ⟨1, "test@example.com", [1], 50⟩
    (by decide) (by decide) (by decide)
  ⟨by rw [h.2.2.2.2.2.2 rfl rfl rfl], h.2.1, h.2.2.2.2.2.1 rfl⟩

/-- Claim C9. For every existing account (whose identity is stored under no
other id) and every positive amount, whether or not the balance covers the
amount and whatever driver errors the call meets, `SendCoin` from that account
to its own identity returns an error and leaves the committed database
unchanged: no balance changes and no ledger entry is recorded.  When no storage
operation fails the error is "cannot transfer coins to yourself" and the unit
of work is rolled back. -/
theorem sendCoin_self_transfer_rejected (db : DB) (f : SendCoinFaults) (u : User) (amount : Int)
    (hmem : u ∈ db.users)
    (hident : ∀ v ∈ db.users, v.Email = u.Email → v.ID = u.ID)
    (hpos : 0 < amount) :
    (SendCoin db f u.ID u.Email amount).err ≠ none ∧
    (SendCoin db f u.ID u.Email amount).db = db ∧
    SendCoin db noSendCoinFaults u.ID u.Email amount =
      { err := some (.errorf "service.SendCoinService.SendCoin: cannot transfer coins to yourself")
        db := db
        calls := [.beginTx, .lockUserByIDTx u.ID, .getUserByEmail u.Email, .rollback] } := by
  obtain ⟨v, hv⟩ : ∃ v, db.users.find? (fun w => w.Email == u.Email) = some v := by
    cases hf : db.users.find? (fun w => w.Email == u.Email) with
    | some v => exact ⟨v, rfl⟩
    | none =>
      have := List.find?_eq_none.mp hf u hmem
      simp at this
  obtain ⟨hvin, hvmail⟩ := find_email_spec _ _ _ hv
  have hvid : v.ID = u.ID := hident v hvin hvmail
  obtain ⟨w, hw⟩ := find_email_id _ _ _ hv
  rw [hvid] at hw
  refine ⟨?_, ?_, ?_⟩
  · rcases SendCoin_cases db f u.ID u.Email amount with h | ⟨s, r, _, _, hr, hne, _, _⟩
    · exact h.1
    · rw [hv] at hr
      cases hr
      exact absurd hvid.symm hne
  · rcases SendCoin_cases db f u.ID u.Email amount with h | ⟨s, r, _, _, hr, hne, _, _⟩
    · exact h.2
    · rw [hv] at hr
      cases hr
      exact absurd hvid.symm hne
  · have ha : ¬ amount ≤ 0 := not_le.mpr hpos
    simp [SendCoin, noSendCoinFaults, ha, LockUserByIDTx_found _ _ _ hw,
      GetUserByEmail_found _ _ _ hv, hvid]

/-- Claim C9 at work: account 1 of the service tests sends 100 coins, and then
2000 coins (more than it holds), to its own identity. -/
theorem sendCoin_self_transfer_rejected_witness :
    ((SendCoin sampleDB noSendCoinFaults 1 "sender@example.com" 100).err ≠ none ∧
      (SendCoin sampleDB noSendCoinFaults 1 "sender@example.com" 100).db = sampleDB) ∧
    ((SendCoin sampleDB noSendCoinFaults 1 "sender@example.com" 2000).err ≠ none ∧
      (SendCoin sampleDB noSendCoinFaults 1 "sender@example.com" 2000).db = sampleDB) :=
  have h1 := sendCoin_self_transfer_rejected sampleDB noSendCoinFaults
    ⟨1, "sender@example.com", [1], 1000⟩ 100 (by decide) (by decide) (by decide)
  have h2 := sendCoin_self_transfer_rejected sampleDB noSendCoinFaults
    ⟨1, "sender@example.com", [1], 1000⟩ 2000 (by decide) (by decide) (by decide)
  ⟨⟨h1.1, h1.2.1⟩, ⟨h2.1, h2.2.1⟩⟩

/-- Claim C8 as stated fails where a credit overflows Go's `int`: in a database
whose balances are all `>= 0` and whose prices are all positive, one successful
transfer of 1 coin to an account holding 9223372036854775807 leaves that
account with the committed balance -9223372036854775808. -/
theorem balance_negative_after_overflow :
    (∀ u ∈ overflowDB.users, 0 ≤ u.CoinBalance) ∧
    (∀ m ∈ overflowDB.merch, 0 < m.Price) ∧
    balanceOf (run overflowDB oneCoinTransfer) 2 = some (-9223372036854775808) ∧
    ∃ u ∈ (run overflowDB oneCoinTransfer).users, u.CoinBalance < 0 := by
  decide

/-- Claim C8, amended. Starting from a database in which every account balance
is an `int` value `>= 0` and every catalog price is positive, after any finite
sequence of `Login`, `Buy` and `SendCoin` calls (successful or failed, whatever
driver errors they meet) in which no transfer that goes through credits a
receiver beyond the largest `int` (receiver balance + amount
`<= 9223372036854775807` at the time of a successful call; refused and failed
calls are under no condition), every account balance in the committed database
is still `>= 0`. -/
theorem balances_stay_nonnegative (db : DB) (ops : List Op)
    (hnonneg : ∀ u ∈ db.users, 0 ≤ u.CoinBalance)
    (hint : ∀ u ∈ db.users, isInt u.CoinBalance)
    (hprice : ∀ m ∈ db.merch, 0 < m.Price)
    (hfit : creditsFit db ops = true) :
    ∀ u ∈ (run db ops).users, 0 ≤ u.CoinBalance := by
  have hbal : balancesOK db := fun u hu => ⟨hnonneg u hu, (hint u hu).2⟩
  intro u hu
  exact (run_balancesOK ops db hbal hprice hfit u hu).1

/-- Claim C8 at work: a session of six calls on the sample database, three of
them failing, among them a refused transfer of 9223372036854775807 coins. -/
theorem balances_stay_nonnegative_witness :
    (run sampleDB sampleOps).users.map (fun u => u.CoinBalance) = [20, 500, 1900] ∧
    ∀ u ∈ (run sampleDB sampleOps).users, 0 ≤ u.CoinBalance :=
  ⟨by decide,
   balances_stay_nonnegative sampleDB sampleOps (by decide) (by decide) (by decide)
     (by decide)⟩

/-! ## Reads that find no row -/

theorem LockUserByIDTx_absent (tx : DB) (id : Int)
    (h : tx.users.find? (fun u => u.ID == id) = none) :
    LockUserByIDTx tx none id = .error ErrUserNotFound := by
  simp [LockUserByIDTx, queryRow, h, sqlErrNoRows, errorsIs]

theorem GetUserByEmail_absent (db : DB) (email : String)
    (h : db.users.find? (fun u => u.Email == email) = none) :
    GetUserByEmail db none email = .error ErrUserNotFound := by
  simp [GetUserByEmail, queryRow, h, sqlErrNoRows, errorsIs]

theorem GetMerchByName_absent (tx : DB) (name : String)
    (h : tx.merch.find? (fun m => m.Name == name) = none) :
    GetMerchByName tx none name = .error ErrMerchNotFound := by
  simp [GetMerchByName, queryRow, h, sqlErrNoRows, errorsIs]

theorem GetMerchByName_absent_error (tx : DB) (fault : Option GoError) (name : String)
    (h : tx.merch.find? (fun m => m.Name == name) = none) :
    ∃ e, GetMerchByName tx fault name = .error e := by
  cases hg : GetMerchByName tx fault name with
  | error e => exact ⟨e, rfl⟩
  | ok m =>
    have := GetMerchByName_ok _ _ _ _ hg
    rw [h] at this
    cases this

/-! ## Purchases that cannot go through -/

theorem Buy_insufficient (db : DB) (f : BuyFaults) (userID : Int) (item : String)
    (merch : Merch) (user : User)
    (hm : db.merch.find? (fun m => m.Name == item) = some merch)
    (hu : db.users.find? (fun u => u.ID == userID) = some user)
    (hlt : user.CoinBalance < merch.Price) :
    (Buy db f userID item).err ≠ none ∧ (Buy db f userID item).db = db := by
  rcases Buy_cases db f userID item with h | ⟨m, u, hm1, hu1, hle, _⟩
  · exact h
  · rw [hm] at hm1
    rw [hu] at hu1
    cases hm1
    cases hu1
    exact absurd hlt (not_lt.mpr hle)

theorem Buy_insufficient_reads_ok (db : DB) (f : BuyFaults) (userID : Int) (item : String)
    (merch : Merch) (user : User)
    (hm : db.merch.find? (fun m => m.Name == item) = some merch)
    (hu : db.users.find? (fun u => u.ID == userID) = some user)
    (hlt : user.CoinBalance < merch.Price)
    (hb : f.beginTx = none) (hg : f.getMerch = none) (hl : f.lockUser = none) :
    Buy db f userID item =
      { err := some (.errorf "service.BuyService.Buy: insufficient funds")
        db := db
        calls := [.beginTx, .getMerchByName item, .lockUserByIDTx userID, .rollback] } := by
  simp [Buy, hb, hg, hl, GetMerchByName_found _ _ _ hm, LockUserByIDTx_found _ _ _ hu, hlt]

/-! ## The claims, continued -/

/-- Claim C11. When no storage operation fails, the error `SendCoin` returns is
the error of the first check that fails, in the order of the specification
(amount `<= 0`, sender id unknown, receiver identity unknown, receiver is the
sender, balance below the amount), and `SendCoin` returns success if and only
if no check fails; in particular a transfer of the sender's whole (positive)
balance to another account succeeds. -/
theorem sendCoin_first_failed_check (db : DB) (fromUserID : Int) (toUser : String)
    (amount : Int) :
    (SendCoin db noSendCoinFaults fromUserID toUser amount).err =
      (firstFailedCheck db fromUserID toUser amount).map checkError ∧
    ((SendCoin db noSendCoinFaults fromUserID toUser amount).err = none ↔
      firstFailedCheck db fromUserID toUser amount = none) ∧
    (∀ sender receiver : User,
      db.users.find? (fun u => u.ID == fromUserID) = some sender →
      db.users.find? (fun u => u.Email == toUser) = some receiver →
      fromUserID ≠ receiver.ID → 0 < sender.CoinBalance →
      (SendCoin db noSendCoinFaults fromUserID toUser sender.CoinBalance).err = none) := by
  have key : (SendCoin db noSendCoinFaults fromUserID toUser amount).err =
      (firstFailedCheck db fromUserID toUser amount).map checkError := by
    by_cases ha : amount ≤ 0
    · simp [SendCoin, firstFailedCheck, ha, checkError]
    · cases hs : db.users.find? (fun u => u.ID == fromUserID) with
      | none =>
        simp [SendCoin, noSendCoinFaults, firstFailedCheck, ha, hs, checkError,
          LockUserByIDTx_absent _ _ hs]
      | some sender =>
        cases hr : db.users.find? (fun u => u.Email == toUser) with
        | none =>
          simp [SendCoin, noSendCoinFaults, firstFailedCheck, ha, hs, hr, checkError,
            LockUserByIDTx_found _ _ _ hs, GetUserByEmail_absent _ _ hr, errorsIs,
            ErrUserNotFound]
        | some receiver =>
          by_cases hself : fromUserID = receiver.ID
          · subst hself
            simp [SendCoin, noSendCoinFaults, firstFailedCheck, ha, hs, hr, checkError,
              LockUserByIDTx_found _ _ _ hs, GetUserByEmail_found _ _ _ hr]
          · by_cases hlt : sender.CoinBalance < amount
            · simp [SendCoin, noSendCoinFaults, firstFailedCheck, ha, hs, hr, checkError,
                LockUserByIDTx_found _ _ _ hs, GetUserByEmail_found _ _ _ hr, hself, hlt]
            · rw [SendCoin_noFaults db fromUserID toUser amount sender receiver hs hr
                (not_le.mp ha) hself (not_lt.mp hlt)]
              simp [firstFailedCheck, ha, hs, hr, hself, hlt]
  refine ⟨key, ?_, ?_⟩
  · rw [key]
    cases firstFailedCheck db fromUserID toUser amount <;> simp
  · intro sender receiver hs hr hne hpos
    rw [SendCoin_noFaults db fromUserID toUser sender.CoinBalance sender receiver hs hr hpos hne
      (le_refl _)]

/-- Claim C11 at work: account 1 of the service tests sends its whole balance
(1000) to the identity of account 2. -/
theorem sendCoin_first_failed_check_witness :
    firstFailedCheck sampleDB 1 "receiver@example.com" 1000 = none ∧
    (SendCoin sampleDB noSendCoinFaults 1 "receiver@example.com" 1000).err = none :=
  ⟨by decide,
   (sendCoin_first_failed_check sampleDB 1 "receiver@example.com" 1000).2.2
     ⟨1, "sender@example.com", [1], 1000⟩ ⟨2, "receiver@example.com", [2], 500⟩
     (by decide) (by decide) (by decide) (by decide)⟩

/-- Claim C12. For every item name absent from the catalog, whatever driver
errors the call meets, `Buy` returns an error, leaves the database (balances
and orders) unchanged and makes no call that locks or reads the account, so its
outcome is the same for every account id, existing or not; when the transaction
begins and the catalog query goes through, the error wraps
`storage.ErrMerchNotFound`. -/
theorem buy_unknown_item (db : DB) (f : BuyFaults) (userID : Int) (item : String)
    (habsent : db.merch.find? (fun m => m.Name == item) = none) :
    (Buy db f userID item).err ≠ none ∧
    (Buy db f userID item).db = db ∧
    ((Buy db f userID item).calls = [.beginTx] ∨
      (Buy db f userID item).calls = [.beginTx, .getMerchByName item, .rollback]) ∧
    (∀ otherID : Int, Buy db f otherID item = Buy db f userID item) ∧
    (f.beginTx = none → f.getMerch = none →
      (Buy db f userID item).err =
        some (.wrapf "service.BuyService.Buy: failed to get merch" ErrMerchNotFound) ∧
      errorsIs (.wrapf "service.BuyService.Buy: failed to get merch" ErrMerchNotFound)
        ErrMerchNotFound = true) := by
  cases hb : f.beginTx with
  | some e => simp [Buy, hb]
  | none =>
    obtain ⟨e, he⟩ := GetMerchByName_absent_error db f.getMerch item habsent
    refine ⟨by simp [Buy, hb, he], by simp [Buy, hb, he], by simp [Buy, hb, he],
      by intro otherID; simp [Buy, hb, he], ?_⟩
    intro _ hg
    rw [hg, GetMerchByName_absent _ _ habsent] at he
    cases he
    refine ⟨?_, by decide⟩
    simp [Buy, hb, hg, GetMerchByName_absent _ _ habsent]

/-- Claim C12 at work: the item of the API test, asked for by an account that
does not exist. -/
theorem buy_unknown_item_witness :
    (Buy sampleDB noBuyFaults 999 "nonexistent_item").err =
      some (.wrapf "service.BuyService.Buy: failed to get merch" ErrMerchNotFound) ∧
    (Buy sampleDB noBuyFaults 999 "nonexistent_item").db = sampleDB ∧
    Buy sampleDB noBuyFaults 1 "nonexistent_item" =
      Buy sampleDB noBuyFaults 999 "nonexistent_item" :=
  have h := buy_unknown_item sampleDB noBuyFaults 999 "nonexistent_item" (by decide)
  ⟨(h.2.2.2.2 rfl rfl).1, h.2.1, h.2.2.2.1 1⟩

/-- Claim C13. For every account whose balance is below the item price, two
calls of `Buy` in a row with the same arguments both return an error and the
database after the second call equals the database before the first, whatever
driver errors the calls meet; the error is the same both times when both calls
meet the same driver errors, and it is "insufficient funds" both times when
in both calls the transaction begins and the two reads go through. -/
theorem buy_insufficient_twice (db : DB) (f1 f2 : BuyFaults) (userID : Int) (item : String)
    (merch : Merch) (user : User)
    (hm : db.merch.find? (fun m => m.Name == item) = some merch)
    (hu : db.users.find? (fun u => u.ID == userID) = some user)
    (hlt : user.CoinBalance < merch.Price) :
    (Buy db f1 userID item).err ≠ none ∧
    (Buy (Buy db f1 userID item).db f2 userID item).err ≠ none ∧
    (Buy (Buy db f1 userID item).db f2 userID item).db = db ∧
    (f1 = f2 →
      (Buy (Buy db f1 userID item).db f2 userID item).err = (Buy db f1 userID item).err) ∧
    (f1.beginTx = none → f1.getMerch = none → f1.lockUser = none →
      f2.beginTx = none → f2.getMerch = none → f2.lockUser = none →
      (Buy db f1 userID item).err =
        some (.errorf "service.BuyService.Buy: insufficient funds") ∧
      (Buy (Buy db f1 userID item).db f2 userID item).err =
        some (.errorf "service.BuyService.Buy: insufficient funds")) := by
  have h1 := Buy_insufficient db f1 userID item merch user hm hu hlt
  have h2 := Buy_insufficient db f2 userID item merch user hm hu hlt
  rw [h1.2]
  refine ⟨h1.1, h2.1, h2.2, ?_, ?_⟩
  · intro heq
    rw [heq]
  · intro a1 b1 c1 a2 b2 c2
    rw [Buy_insufficient_reads_ok db f1 userID item merch user hm hu hlt a1 b1 c1,
      Buy_insufficient_reads_ok db f2 userID item merch user hm hu hlt a2 b2 c2]
    exact ⟨rfl, rfl⟩

/-- Claim C13 at work: the account holding 50 coins asks twice for the t-shirt
priced 80. -/
theorem buy_insufficient_twice_witness :
    (Buy poorDB noBuyFaults 1 "t-shirt").err =
      some (.errorf "service.BuyService.Buy: insufficient funds") ∧
    (Buy (Buy poorDB noBuyFaults 1 "t-shirt").db noBuyFaults 1 "t-shirt").err =
      some (.errorf "service.BuyService.Buy: insufficient funds") ∧
    (Buy (Buy poorDB noBuyFaults 1 "t-shirt").db noBuyFaults 1 "t-shirt").db = poorDB :=
  have h := buy_insufficient_twice poorDB noBuyFaults noBuyFaults 1 "t-shirt"
    ⟨1, "t-shirt", 80⟩ ⟨1, "test@example.com", [1], 50⟩ (by decide) (by decide) (by decide)
  ⟨(h.2.2.2.2 rfl rfl rfl rfl rfl rfl).1, (h.2.2.2.2 rfl rfl rfl rfl rfl rfl).2, h.2.2.1⟩

/-! ## Facts about GetInfo -/

theorem GetUserByID_ok (db : DB) (fault : Option GoError) (id : Int) (u : User)
    (h : GetUserByID db fault id = .ok u) :
    db.users.find? (fun u => u.ID == id) = some u := by
  unfold GetUserByID at h
  split at h
  · split at h <;> cases h
  · rename_i user hq
    cases h
    exact (queryRow_ok _ _ _ _ hq).2

theorem GetUserByID_found (db : DB) (id : Int) (u : User)
    (h : db.users.find? (fun u => u.ID == id) = some u) :
    GetUserByID db none id = .ok u := by
  simp [GetUserByID, queryRow, h]

theorem GetInfo_cases (db : DB) (env : GetInfoEnv) (userID : Int) :
    (∃ e, GetUserByID db env.getUser userID = .error e ∧
      GetInfo db env userID =
        ⟨none, some (.wrapf "failed to get user" e), db, [.getUserByID userID]⟩) ∨
    (∃ user e, GetUserByID db env.getUser userID = .ok user ∧
      GetOrdersByUserID db env.orders userID = .error e ∧
      GetInfo db env userID =
        ⟨none, some (.wrapf "failed to get orders" e), db,
          [.getUserByID userID, .getOrdersByUserID userID]⟩) ∨
    (∃ user orders e, GetUserByID db env.getUser userID = .ok user ∧
      GetOrdersByUserID db env.orders userID = .ok orders ∧
      GetTransactionsByUserID db env.transactions userID = .error e ∧
      GetInfo db env userID =
        ⟨some { Coins := user.CoinBalance, Inventory := inventoryOf env.rangeOrder orders,
                CoinHistory := { Received := [], Sent := [] } }, none, db, infoCalls userID⟩) ∨
    (∃ user orders transactions, GetUserByID db env.getUser userID = .ok user ∧
      GetOrdersByUserID db env.orders userID = .ok orders ∧
      GetTransactionsByUserID db env.transactions userID = .ok transactions ∧
      GetInfo db env userID =
        ⟨some { Coins := user.CoinBalance, Inventory := inventoryOf env.rangeOrder orders,
                CoinHistory :=
                  { Received := (historyLoop db env.lookup 0 transactions ([], [], [])).1
                    Sent := (historyLoop db env.lookup 0 transactions ([], [], [])).2.1 } },
          none, db,
          infoCalls userID ++ (historyLoop db env.lookup 0 transactions ([], [], [])).2.2⟩) := by
  cases hu : GetUserByID db env.getUser userID with
  | error e => left; exact ⟨e, rfl, by simp [GetInfo, hu]⟩
  | ok user =>
    right
    cases ho : GetOrdersByUserID db env.orders userID with
    | error e => left; exact ⟨user, e, rfl, rfl, by simp [GetInfo, hu, ho]⟩
    | ok orders =>
      right
      cases ht : GetTransactionsByUserID db env.transactions userID with
      | error e => left; exact ⟨user, orders, e, rfl, rfl, rfl, by simp [GetInfo, hu, ho, ht, infoCalls]⟩
      | ok transactions =>
        right
        exact ⟨user, orders, transactions, rfl, rfl, rfl, by simp [GetInfo, hu, ho, ht, infoCalls]⟩

theorem counterpartyName_calls (db : DB) (fault : Option GoError) (related : Option Int) :
    ∀ c ∈ (counterpartyName db fault related).2, c.isRead = true := by
  intro c hc
  unfold counterpartyName at hc
  split at hc
  · cases hc
  · split at hc <;> simp at hc <;> subst hc <;> rfl

theorem historyLoop_calls (db : DB) (lookup : Nat → Option GoError)
    (transactions : List CoinTransaction) :
    ∀ (i : Nat) (acc : List HistoryEntry × List HistoryEntry × List Call),
      (∀ c ∈ acc.2.2, c.isRead = true) →
      ∀ c ∈ (historyLoop db lookup i transactions acc).2.2, c.isRead = true := by
  induction transactions with
  | nil => intro i acc hacc; simpa [historyLoop] using hacc
  | cons tx rest ih =>
    intro i acc hacc
    obtain ⟨received, sent, calls⟩ := acc
    have hstep : ∀ c ∈ calls ++ (counterpartyName db (lookup i) tx.RelatedUserID).2,
        c.isRead = true := by
      intro c hc
      rcases List.mem_append.mp hc with h | h
      · exact hacc c h
      · exact counterpartyName_calls _ _ _ c h
    unfold historyLoop
    split
    · exact ih _ _ hstep
    · split
      · exact ih _ _ hstep
      · exact ih _ _ hacc

theorem historyLoop_received (db : DB) (lookup : Nat → Option GoError)
    (transactions : List CoinTransaction) :
    ∀ (i : Nat) (acc : List HistoryEntry × List HistoryEntry × List Call),
      (historyLoop db lookup i transactions acc).1.map (fun e => e.Amount) =
        acc.1.map (fun e => e.Amount) ++ (receivedOf transactions).map (fun t => t.Amount) := by
  induction transactions with
  | nil => intro i acc; simp [historyLoop, receivedOf]
  | cons tx rest ih =>
    intro i acc
    obtain ⟨received, sent, calls⟩ := acc
    unfold historyLoop
    cases hb1 : (tx.TxType == "transfer_received")
    · cases hb2 : (tx.TxType == "transfer_sent")
      · simp only [Bool.false_eq_true, if_false]
        rw [ih]
        simp [receivedOf, hb1]
      · simp only [Bool.false_eq_true, if_false, if_true]
        rw [ih]
        simp [receivedOf, hb1]
    · simp only [if_true]
      rw [ih]
      simp [receivedOf, hb1]

theorem historyLoop_sent (db : DB) (lookup : Nat → Option GoError)
    (transactions : List CoinTransaction) :
    ∀ (i : Nat) (acc : List HistoryEntry × List HistoryEntry × List Call),
      (historyLoop db lookup i transactions acc).2.1.map (fun e => e.Amount) =
        acc.2.1.map (fun e => e.Amount) ++ (sentOf transactions).map (fun t => t.Amount) := by
  induction transactions with
  | nil => intro i acc; simp [historyLoop, sentOf]
  | cons tx rest ih =>
    intro i acc
    obtain ⟨received, sent, calls⟩ := acc
    unfold historyLoop
    cases hb1 : (tx.TxType == "transfer_received")
    · cases hb2 : (tx.TxType == "transfer_sent")
      · simp only [Bool.false_eq_true, if_false]
        rw [ih]
        simp [sentOf, hb2]
      · simp only [Bool.false_eq_true, if_false, if_true]
        rw [ih]
        simp [sentOf, hb2]
    · have hb2 : (tx.TxType == "transfer_sent") = false := by
        have h1 : tx.TxType = "transfer_received" := by simpa using hb1
        rw [h1]
        decide
      simp only [if_true]
      rw [ih]
      simp [sentOf, hb2]

/-- Claim C14. For every account id and whatever `GetInfo` meets, `GetInfo`
never fabricates a balance: if the account cannot be read (no account has the
id, or the read fails) it returns an error and no response; whenever it
returns a response, an account with that id is stored and the `Coins` field is
its stored balance; and `GetInfo` changes nothing: the database is the same
afterwards and every storage call it makes is a read. -/
theorem getInfo_never_fabricates_balance (db : DB) (env : GetInfoEnv) (userID : Int) :
    (∀ e, GetUserByID db env.getUser userID = .error e →
      (GetInfo db env userID).resp = none ∧
      (GetInfo db env userID).err = some (.wrapf "failed to get user" e)) ∧
    (db.users.find? (fun u => u.ID == userID) = none →
      (GetInfo db env userID).resp = none ∧ (GetInfo db env userID).err ≠ none) ∧
    (∀ resp, (GetInfo db env userID).resp = some resp →
      ∃ user, db.users.find? (fun u => u.ID == userID) = some user ∧
        resp.Coins = user.CoinBalance) ∧
    (GetInfo db env userID).db = db ∧
    (∀ c ∈ (GetInfo db env userID).calls, c.isRead = true) := by
  have herr : ∀ e, GetUserByID db env.getUser userID = .error e →
      (GetInfo db env userID).resp = none ∧
      (GetInfo db env userID).err = some (.wrapf "failed to get user" e) := by
    intro e he
    simp [GetInfo, he]
  refine ⟨herr, ?_, ?_, ?_, ?_⟩
  · intro hnone
    cases hu : GetUserByID db env.getUser userID with
    | error e =>
      have := herr e hu
      exact ⟨this.1, by rw [this.2]; simp⟩
    | ok user =>
      have := GetUserByID_ok _ _ _ _ hu
      rw [hnone] at this
      cases this
  · intro resp hresp
    rcases GetInfo_cases db env userID with ⟨e, _, h⟩ | ⟨u, e, _, _, h⟩ |
      ⟨u, o, e, hu, _, _, h⟩ | ⟨u, o, t, hu, _, _, h⟩
    · rw [h] at hresp; cases hresp
    · rw [h] at hresp; cases hresp
    · rw [h] at hresp
      cases hresp
      exact ⟨u, GetUserByID_ok _ _ _ _ hu, rfl⟩
    · rw [h] at hresp
      cases hresp
      exact ⟨u, GetUserByID_ok _ _ _ _ hu, rfl⟩
  · rcases GetInfo_cases db env userID with ⟨e, _, h⟩ | ⟨u, e, _, _, h⟩ |
      ⟨u, o, e, hu, _, _, h⟩ | ⟨u, o, t, hu, _, _, h⟩ <;> rw [h]
  · intro c hc
    rcases GetInfo_cases db env userID with ⟨e, _, h⟩ | ⟨u, e, _, _, h⟩ |
      ⟨u, o, e, hu, _, _, h⟩ | ⟨u, o, t, hu, _, _, h⟩ <;> rw [h] at hc
    · simp at hc; subst hc; rfl
    · simp at hc; rcases hc with rfl | rfl <;> rfl
    · simp [infoCalls] at hc; rcases hc with rfl | rfl | rfl <;> rfl
    · rcases List.mem_append.mp hc with h1 | h1
      · simp [infoCalls] at h1; rcases h1 with rfl | rfl | rfl <;> rfl
      · exact historyLoop_calls db env.lookup t 0 ([], [], []) (by simp) c h1

/-- Claim C14 at work: the unknown account 999 of the service test gets an
error and no response; account 1 gets its stored 920 coins. -/
theorem getInfo_never_fabricates_balance_witness :
    ((GetInfo infoDB plainInfoEnv 999).resp = none ∧
      (GetInfo infoDB plainInfoEnv 999).err ≠ none) ∧
    (GetInfo infoDB plainInfoEnv 1).resp.map (fun r => r.Coins) = some 920 ∧
    ∃ user, infoDB.users.find? (fun u => u.ID == 1) = some user ∧
      (920 : Int) = user.CoinBalance :=
  ⟨(getInfo_never_fabricates_balance infoDB plainInfoEnv 999).2.1 (by decide),
   by decide,
   (getInfo_never_fabricates_balance infoDB plainInfoEnv 1).2.2.1
     { Coins := 920, Inventory := [⟨"t-shirt", 2⟩, ⟨"cup", 1⟩],
       CoinHistory := { Received := [⟨"", "", 80⟩], Sent := [⟨"", "friend@example.com", 30⟩] } }
     (by decide)⟩

/-- Claim C16. For every list of ledger entries returned for the account, the
amounts of the received history of the response of `GetInfo` are exactly the
amounts of the entries of kind `transfer_received`, in the order of the
listing, and the amounts of its sent history exactly those of the entries of
kind `transfer_sent`, in the order of the listing; an entry of any other kind
contributes to neither history. -/
theorem getInfo_history_split (db : DB) (env : GetInfoEnv) (userID : Int)
    (transactions : List CoinTransaction) (resp : InfoResponse)
    (hlist : GetTransactionsByUserID db env.transactions userID = .ok transactions)
    (hresp : (GetInfo db env userID).resp = some resp) :
    resp.CoinHistory.Received.map (fun e => e.Amount) =
      (receivedOf transactions).map (fun t => t.Amount) ∧
    resp.CoinHistory.Sent.map (fun e => e.Amount) =
      (sentOf transactions).map (fun t => t.Amount) ∧
    resp.CoinHistory.Received.length +  resp.CoinHistory.Sent.length ≤ transactions.length := by
  have hmain : resp.CoinHistory.Received.map (fun e => e.Amount) =
        (receivedOf transactions).map (fun t => t.Amount) ∧
      resp.CoinHistory.Sent.map (fun e => e.Amount) =
        (sentOf transactions).map (fun t => t.Amount) := by
    rcases GetInfo_cases db env userID with ⟨e, _, h⟩ | ⟨u, e, _, _, h⟩ |
      ⟨u, o, e, _, _, ht, h⟩ | ⟨u, o, t, _, _, ht, h⟩
    · rw [h] at hresp; cases hresp
    · rw [h] at hresp; cases hresp
    · rw [hlist] at ht; cases ht
    · rw [hlist] at ht
      cases ht
      rw [h] at hresp
      cases hresp
      constructor
      · simpa using historyLoop_received db env.lookup transactions 0 ([], [], [])
      · simpa using historyLoop_sent db env.lookup transactions 0 ([], [], [])
  refine ⟨hmain.1, hmain.2, ?_⟩
  have h1 := congrArg List.length hmain.1
  have h2 := congrArg List.length hmain.2
  simp only [List.length_map] at h1 h2
  rw [h1, h2]
  unfold receivedOf sentOf
  clear h1 h2 hmain hresp hlist
  induction transactions with
  | nil => simp
  | cons tx rest ih =>
    by_cases hb1 : tx.TxType = "transfer_received"
    · have hb2 : ¬ tx.TxType = "transfer_sent" := by rw [hb1]; decide
      simp [List.filter_cons, hb1] at ih ⊢
      omega
    · by_cases hb2 : tx.TxType = "transfer_sent"
      · simp [List.filter_cons, hb1, hb2] at ih ⊢
        omega
      · simp [List.filter_cons, hb1, hb2] at ih ⊢
        omega

/-- Claim C16 at work: account 1 of the sample database has, newest first, a
bonus of 7, a transfer sent of 30 and a transfer received of 80. -/
theorem getInfo_history_split_witness :
    GetTransactionsByUserID infoDB plainInfoEnv.transactions 1 =
      .ok [⟨1, 7, "bonus", none⟩, ⟨1, 30, "transfer_sent", some 2⟩,
           ⟨1, 80, "transfer_received", none⟩] ∧
    ([⟨"", "", 80⟩] : List HistoryEntry).map (fun e => e.Amount) = [80] ∧
    ([⟨"", "friend@example.com", 30⟩] : List HistoryEntry).map (fun e => e.Amount) = [30] :=
  have h := getInfo_history_split infoDB plainInfoEnv 1
    [⟨1, 7, "bonus", none⟩, ⟨1, 30, "transfer_sent", some 2⟩, ⟨1, 80, "transfer_received", none⟩]
    { Coins := 920, Inventory := [⟨"t-shirt", 2⟩, ⟨"cup", 1⟩],
      CoinHistory := { Received := [⟨"", "", 80⟩], Sent := [⟨"", "friend@example.com", 30⟩] } }
    rfl (by decide)
  ⟨rfl, h.1, h.2.1⟩

/-- Claim C17. If the balance read succeeds and the listing of the account's
ledger entries is called and fails, `GetInfo` does not fail: it returns no
error and a response with the stored balance and with empty received and sent
histories. -/
theorem getInfo_survives_ledger_failure (db : DB) (env : GetInfoEnv) (userID : Int)
    (user : User) (e : GoError)
    (hread : GetUserByID db env.getUser userID = .ok user)
    (hcalled : Call.getTransactionsByUserID userID ∈ (GetInfo db env userID).calls)
    (hfail : GetTransactionsByUserID db env.transactions userID = .error e) :
    (GetInfo db env userID).err = none ∧
    ∃ resp, (GetInfo db env userID).resp = some resp ∧
      resp.Coins = user.CoinBalance ∧
      db.users.find? (fun u => u.ID == userID) = some user ∧
      resp.CoinHistory.Received = [] ∧ resp.CoinHistory.Sent = [] := by
  rcases GetInfo_cases db env userID with ⟨e1, h1, h⟩ | ⟨u, e1, _, _, h⟩ |
    ⟨u, o, e1, hu, _, _, h⟩ | ⟨u, o, t, _, _, ht, h⟩
  · rw [hread] at h1; cases h1
  · rw [h] at hcalled
    simp at hcalled
  · rw [hread] at hu
    cases hu
    rw [h]
    exact ⟨rfl, _, rfl, rfl, GetUserByID_ok _ _ _ _ hread, rfl, rfl⟩
  · rw [hfail] at ht; cases ht

/-- Claim C17 at work: the ledger query of account 1 meets a lost connection. -/
theorem getInfo_survives_ledger_failure_witness :
    (GetInfo infoDB { plainInfoEnv with transactions := ⟨some connLost, none, none⟩ } 1).err =
      none ∧
    ∃ resp,
      (GetInfo infoDB { plainInfoEnv with transactions := ⟨some connLost, none, none⟩ } 1).resp =
        some resp ∧
      resp.Coins = 920 ∧
      infoDB.users.find? (fun u => u.ID == 1) = some ⟨1, "test@example.com", [1], 920⟩ ∧
      resp.CoinHistory.Received = [] ∧ resp.CoinHistory.Sent = [] :=
  getInfo_survives_ledger_failure infoDB
    { plainInfoEnv with transactions := ⟨some connLost, none, none⟩ } 1
    ⟨1, "test@example.com", [1], 920⟩ (.wrapf "failed to query coin transactions" connLost)
    rfl (by decide) rfl

/-! ## Facts about Login -/

theorem NewToken_nonempty (env : TokenEnv) (user : User) (t : String)
    (h : NewToken env user = .ok t) : t ≠ "" := by
  unfold NewToken at h
  split at h
  · cases h
  · split at h
    · cases h
    · split at h
      · cases h
      · cases h
        intro hempty
        have hlen := congrArg String.length hempty
        simp only [String.length_append] at hlen
        have hdot : ".".length = 1 := by decide
        rw [hdot] at hlen
        have h0 : "".length = 0 := by decide
        rw [h0] at hlen
        omega

theorem CreateUser_taken (db : DB) (env : CreateUserEnv) (newUser user : User)
    (hmem : user ∈ db.users) (hmail : user.Email = newUser.Email) :
    ∃ e, CreateUser db env newUser = .error e := by
  cases hc : CreateUser db env newUser with
  | error e => exact ⟨e, rfl⟩
  | ok res =>
    exfalso
    unfold CreateUser at hc
    split at hc
    · cases hc
    · simp only at hc
      split at hc
      · rename_i hacc
        simp only [usersAccepts, Bool.not_eq_true', List.any_eq_false, Bool.or_eq_true,
          beq_iff_eq, not_or] at hacc
        exact (hacc user hmem).2 hmail
      · cases hc

theorem Login_existing (db : DB) (env : LoginEnv) (email password : String) (user : User)
    (hfind : db.users.find? (fun u => u.Email == email) = some user) :
    (Login db env email password).db = db ∧
    ((Login db env email password).err ≠ none → (Login db env email password).token = "") ∧
    (∀ cerr, env.compare user.PassHash password = some cerr →
      (Login db env email password).err ≠ none) := by
  obtain ⟨hmem, hmail⟩ := find_email_spec _ _ _ hfind
  cases hg : GetUserByEmail db env.getUser email with
  | ok user1 =>
    have h1 := GetUserByEmail_ok _ _ _ _ hg
    rw [hfind] at h1
    cases h1
    cases hc : env.compare user.PassHash password with
    | some e => simp [Login, hg, hc]
    | none =>
      cases ht : NewToken env.token user with
      | error e => simp [Login, hg, hc, ht]
      | ok t => simp [Login, hg, hc, ht]
  | error err =>
    by_cases hnf : errorsIs err ErrUserNotFound = true
    · cases hh : env.hash with
      | error e => simp [Login, hg, hnf, hh]
      | ok passHash =>
        obtain ⟨e, he⟩ := CreateUser_taken db env.createUser
          { ID := 0, Email := email, PassHash := passHash, CoinBalance := 1000 } user hmem hmail
        simp [Login, hg, hnf, hh, he]
    · simp [Login, hg, hnf]

/-- Claim C18. For every email that has no account, a `Login` call whose
lookup, hashing, account creation and token signing go through returns the
signed token, which is not empty, and creates exactly one account: the accounts
afterwards are the accounts before followed by one row with that email and a
balance of exactly 1000, the only row with that email; the other tables are
unchanged.  For an email that already has an account, `Login` leaves the
database unchanged whatever it meets: it creates no account and changes no
balance. -/
theorem login_creates_account_once (db : DB) (env : LoginEnv) (email password : String) :
    (∀ (passHash : List Nat) (row : User) (db1 : DB) (t : String),
      db.users.find? (fun u => u.Email == email) = none →
      env.getUser = none →
      env.hash = .ok passHash →
      CreateUser db env.createUser
        { ID := 0, Email := email, PassHash := passHash, CoinBalance := 1000 } = .ok (row, db1) →
      NewToken env.token row = .ok t →
      (Login db env email password).token = t ∧
      (Login db env email password).err = none ∧
      t ≠ "" ∧
      (Login db env email password).db =
        { db with users := db.users ++ [row] } ∧
      row.Email = email ∧ row.CoinBalance = 1000 ∧
      ((Login db env email password).db.users.filter (fun u => u.Email == email)).length = 1) ∧
    (∀ user : User, db.users.find? (fun u => u.Email == email) = some user →
      (Login db env email password).db = db) := by
  constructor
  · intro passHash row db1 t hnone hget hhash hcreate htok
    obtain ⟨hrow, hdb1⟩ := CreateUser_ok _ _ _ _ _ hcreate
    have hlogin : Login db env email password = ⟨t, none, db1⟩ := by
      simp [Login, hget, GetUserByEmail_absent _ _ hnone, errorsIs, ErrUserNotFound, hhash,
        hcreate, htok]
    have hfilter : db.users.filter (fun u => u.Email == email) = [] := by
      rw [List.filter_eq_nil_iff]
      intro u hu
      exact List.find?_eq_none.mp hnone u hu
    rw [hlogin]
    refine ⟨rfl, rfl, NewToken_nonempty _ _ _ htok, hdb1, by rw [hrow], by rw [hrow], ?_⟩
    rw [hdb1]
    simp [List.filter_append, hfilter, List.filter_cons, hrow]
  · intro user hfind
    exact (Login_existing db env email password user hfind).1

/-- Claim C18 at work: the first login of a new email on the sample database,
then a second login with the same email. -/
theorem login_creates_account_once_witness :
    (Login sampleDB sampleLoginEnv "new@example.com" "secret").token =
      "header.new@example.com.signed-with-testsecret" ∧
    (Login sampleDB sampleLoginEnv "new@example.com" "secret").db.users =
      sampleDB.users ++ [⟨3, "new@example.com", [7], 1000⟩] ∧
    (Login (Login sampleDB sampleLoginEnv "new@example.com" "secret").db sampleLoginEnv
      "new@example.com" "secret").db =
      (Login sampleDB sampleLoginEnv "new@example.com" "secret").db :=
  have h := (login_creates_account_once sampleDB sampleLoginEnv "new@example.com" "secret").1
    [7] ⟨3, "new@example.com", [7], 1000⟩
    { sampleDB with users := sampleDB.users ++ [⟨3, "new@example.com", [7], 1000⟩] }
    "header.new@example.com.signed-with-testsecret" (by decide) rfl rfl rfl rfl
  ⟨h.1, by rw [h.2.2.2.1],
   (login_creates_account_once (Login sampleDB sampleLoginEnv "new@example.com" "secret").db
      sampleLoginEnv "new@example.com" "secret").2 ⟨3, "new@example.com", [7], 1000⟩
      (by decide)⟩

/-- Claim C19. For every existing account and every password that does not
verify against the account's stored hash, whatever else `Login` meets, `Login`
returns an error together with the empty token and leaves the database
unchanged (no account is created or modified); when the lookup goes through,
the error is "invalid credentials" wrapping the verification error. -/
theorem login_wrong_password (db : DB) (env : LoginEnv) (email password : String)
    (user : User) (cerr : GoError)
    (hfind : db.users.find? (fun u => u.Email == email) = some user)
    (hbad : env.compare user.PassHash password = some cerr) :
    (Login db env email password).err ≠ none ∧
    (Login db env email password).token = "" ∧
    (Login db env email password).db = db ∧
    (env.getUser = none →
      (Login db env email password).err =
        some (.wrapf "auth.Login: invalid credentials" cerr)) := by
  have h := Login_existing db env email password user hfind
  have herr := h.2.2 cerr hbad
  refine ⟨herr, h.2.1 herr, h.1, ?_⟩
  intro hget
  simp [Login, hget, GetUserByEmail_found _ _ _ hfind, hbad]

/-- Claim C19 at work: a stored hash that the comparison rejects. -/
theorem login_wrong_password_witness :
    (Login sampleDB sampleLoginEnv "sender@example.com" "wrongpassword").err =
      some (.wrapf "auth.Login: invalid credentials"
        (.sentinel "bcrypt.ErrMismatchedHashAndPassword")) ∧
    (Login sampleDB sampleLoginEnv "sender@example.com" "wrongpassword").token = "" ∧
    (Login sampleDB sampleLoginEnv "sender@example.com" "wrongpassword").db = sampleDB :=
  have h := login_wrong_password sampleDB sampleLoginEnv "sender@example.com" "wrongpassword"
    ⟨1, "sender@example.com", [1], 1000⟩ (.sentinel "bcrypt.ErrMismatchedHashAndPassword")
    (by decide) (by decide)
  ⟨h.2.2.2 rfl, h.2.1, h.2.2.1⟩

/-! ## Facts about the inventory map -/

theorem wrapInt_add_wrapInt (x y : Int) : wrapInt (wrapInt x + y) = wrapInt (x + y) := by
  unfold wrapInt
  omega

theorem mapGet_mapAdd (m : List (String × Int)) (k k1 : String) (q : Int) :
    mapGet (mapAdd m k q) k1 = if k1 = k then wrapInt (mapGet m k + q) else mapGet m k1 := by
  induction m with
  | nil =>
    by_cases h : k1 = k
    · subst h; simp [mapAdd, mapGet]
    · have h' : ¬ k = k1 := fun e => h e.symm
      simp [mapAdd, mapGet, h, h']
  | cons e rest ih =>
    obtain ⟨a, v⟩ := e
    by_cases hak : a = k
    · subst hak
      by_cases h : k1 = a
      · subst h; simp [mapAdd, mapGet]
      · have h' : ¬ a = k1 := fun e => h e.symm
        simp [mapAdd, mapGet, h, h']
    · by_cases h : k1 = k
      · subst h
        simp [mapAdd, mapGet, hak, ih]
      · by_cases ha1 : a = k1
        · simp [mapAdd, mapGet, hak, h, ha1]
        · simp [mapAdd, mapGet, hak, h, ha1, ih]

theorem keys_mapAdd (m : List (String × Int)) (k : String) (q : Int) :
    (mapAdd m k q).map Prod.fst =
      if k ∈ m.map Prod.fst then m.map Prod.fst else m.map Prod.fst ++ [k] := by
  induction m with
  | nil => simp [mapAdd]
  | cons e rest ih =>
    obtain ⟨a, v⟩ := e
    by_cases hak : a = k
    · subst hak; simp [mapAdd]
    · have hka : ¬ k = a := fun e => hak e.symm
      simp only [mapAdd, beq_iff_eq, hak, if_false, List.map_cons, ih, List.mem_cons, hka,
        false_or]
      split <;> simp

theorem keys_mapAdd_nodup (m : List (String × Int)) (k : String) (q : Int)
    (h : (m.map Prod.fst).Nodup) : ((mapAdd m k q).map Prod.fst).Nodup := by
  rw [keys_mapAdd]
  split
  · exact h
  · rename_i hk
    rw [List.nodup_append]
    refine ⟨h, List.nodup_singleton k, ?_⟩
    intro a ha hb
    rw [List.mem_singleton] at hb
    subst hb
    exact hk ha

theorem mem_keys_mapAdd (m : List (String × Int)) (k k1 : String) (q : Int) :
    k1 ∈ (mapAdd m k q).map Prod.fst ↔ k1 ∈ m.map Prod.fst ∨ k1 = k := by
  rw [keys_mapAdd]
  split
  · rename_i hk
    constructor
    · exact Or.inl
    · rintro (h | rfl)
      · exact h
      · exact hk
  · simp

theorem mapGet_of_mem (m : List (String × Int)) (k : String) (v : Int)
    (hnodup : (m.map Prod.fst).Nodup) (hmem : (k, v) ∈ m) : mapGet m k = v := by
  induction m with
  | nil => cases hmem
  | cons e rest ih =>
    obtain ⟨a, w⟩ := e
    rw [List.map_cons, List.nodup_cons] at hnodup
    rcases List.mem_cons.mp hmem with h | h
    · cases h
      simp [mapGet]
    · have hne : ¬ a = k := by
        intro e
        subst e
        exact hnodup.1 (List.mem_map.mpr ⟨(a, v), h, rfl⟩)
      simp [mapGet, hne, ih hnodup.2 h]

theorem qtySum_cons (k : String) (o : Order) (rest : List Order) :
    qtySum k (o :: rest) = if o.MerchName = k then o.Quantity + qtySum k rest else qtySum k rest := by
  unfold qtySum
  by_cases h : o.MerchName = k <;> simp [List.filter_cons, h]

theorem qtySum_of_absent (k : String) (orders : List Order)
    (h : ∀ o ∈ orders, o.MerchName ≠ k) : qtySum k orders = 0 := by
  induction orders with
  | nil => rfl
  | cons o rest ih =>
    rw [qtySum_cons]
    have h1 : ¬ o.MerchName = k := h o (List.mem_cons_self _ _)
    simp [h1, ih (fun o ho => h o (List.mem_cons_of_mem _ ho))]

theorem qtySum_unit_bounds (k : String) (orders : List Order)
    (hqty : ∀ o ∈ orders, o.Quantity = 1) :
    0 ≤ qtySum k orders ∧ qtySum k orders ≤ (orders.length : Int) := by
  induction orders with
  | nil => simp [qtySum]
  | cons o rest ih =>
    have h1 := ih (fun o ho => hqty o (List.mem_cons_of_mem _ ho))
    have h2 : o.Quantity = 1 := hqty o (List.mem_cons_self _ _)
    rw [qtySum_cons, List.length_cons, h2]
    push_cast
    split <;> omega

theorem ordersJoinMerch_quantity (db : DB) (userID : Int)
    (h : ∀ r ∈ db.orders, r.Quantity = 1) :
    ∀ o ∈ ordersJoinMerch db userID, o.Quantity = 1 := by
  intro o ho
  simp only [ordersJoinMerch, List.mem_flatMap, List.mem_filter, List.mem_reverse,
    List.mem_map] at ho
  obtain ⟨r, ⟨hr, _⟩, m, _, rfl⟩ := ho
  exact h r hr

theorem GetOrdersByUserID_quantity (db : DB) (f : RowsFaults) (userID : Int)
    (orders : List Order) (h : ∀ r ∈ db.orders, r.Quantity = 1)
    (hlist : GetOrdersByUserID db f userID = .ok orders) :
    ∀ o ∈ orders, o.Quantity = 1 := by
  have hrows : orders = ordersJoinMerch db userID := by
    unfold GetOrdersByUserID at hlist
    split at hlist
    · cases hlist
    · simp only at hlist
      split at hlist
      · split at hlist
        · split at hlist
          · cases hlist
          · cases hlist; rfl
        · cases hlist
      · split at hlist
        · cases hlist
        · cases hlist; rfl
  rw [hrows]
  exact ordersJoinMerch_quantity db userID h

theorem step_orders_quantity (db : DB) (op : Op) (h : ∀ r ∈ db.orders, r.Quantity = 1) :
    ∀ r ∈ (step db op).orders, r.Quantity = 1 := by
  cases op with
  | login env email password =>
    rcases Login_db db env email password with h1 | ⟨row, _, h1⟩ <;> simpa [step, h1] using h
  | buy f userID item =>
    rcases Buy_cases db f userID item with h1 | ⟨m, u, _, _, _, h1⟩
    · simpa [step, h1.2] using h
    · intro r hr
      simp only [step, h1, buyResult, List.mem_append, List.mem_singleton] at hr
      rcases hr with hr | rfl
      · exact h r hr
      · rfl
  | sendCoin f fromUserID toUser amount =>
    rcases SendCoin_cases db f fromUserID toUser amount with h1 | ⟨a, b, _, _, _, _, _, h1⟩
    · simpa [step, h1.2] using h
    · simpa [step, h1, sendCoinResult] using h

theorem run_orders_quantity (ops : List Op) :
    ∀ db : DB, (∀ r ∈ db.orders, r.Quantity = 1) →
      ∀ r ∈ (run db ops).orders, r.Quantity = 1 := by
  induction ops with
  | nil => intro db h; exact h
  | cons op ops ih =>
    intro db h
    exact ih (step db op) (step_orders_quantity db op h)

theorem fold_keys (orders : List Order) :
    ∀ m : List (String × Int), (m.map Prod.fst).Nodup →
      ((orders.foldl (fun m o => mapAdd m o.MerchName o.Quantity) m).map Prod.fst).Nodup ∧
      ∀ k, k ∈ (orders.foldl (fun m o => mapAdd m o.MerchName o.Quantity) m).map Prod.fst ↔
        (k ∈ m.map Prod.fst ∨ ∃ o ∈ orders, o.MerchName = k) := by
  induction orders with
  | nil => intro m h; simpa using h
  | cons o rest ih =>
    intro m h
    have h1 := ih (mapAdd m o.MerchName o.Quantity) (keys_mapAdd_nodup _ _ _ h)
    rw [List.foldl_cons]
    refine ⟨h1.1, ?_⟩
    intro k
    rw [h1.2 k, mem_keys_mapAdd]
    constructor
    · rintro ((hk | rfl) | ⟨o1, ho1, rfl⟩)
      · exact Or.inl hk
      · exact Or.inr ⟨o, List.mem_cons_self _ _, rfl⟩
      · exact Or.inr ⟨o1, List.mem_cons_of_mem _ ho1, rfl⟩
    · rintro (hk | ⟨o1, ho1, rfl⟩)
      · exact Or.inl (Or.inl hk)
      · rcases List.mem_cons.mp ho1 with rfl | h2
        · exact Or.inl (Or.inr rfl)
        · exact Or.inr ⟨o1, h2, rfl⟩

theorem fold_get_absent (k : String) (orders : List Order) :
    ∀ m : List (String × Int), (∀ o ∈ orders, o.MerchName ≠ k) →
      mapGet (orders.foldl (fun m o => mapAdd m o.MerchName o.Quantity) m) k = mapGet m k := by
  induction orders with
  | nil => intro m _; rfl
  | cons o rest ih =>
    intro m h
    have h1 : ¬ k = o.MerchName := fun e => h o (List.mem_cons_self _ _) e.symm
    rw [List.foldl_cons, ih _ (fun o ho => h o (List.mem_cons_of_mem _ ho)), mapGet_mapAdd]
    simp [h1]

theorem fold_get_present (k : String) (orders : List Order) :
    ∀ m : List (String × Int), (∃ o ∈ orders, o.MerchName = k) →
      mapGet (orders.foldl (fun m o => mapAdd m o.MerchName o.Quantity) m) k =
        wrapInt (mapGet m k + qtySum k orders) := by
  induction orders with
  | nil => intro m h; obtain ⟨o, ho, _⟩ := h; cases ho
  | cons o rest ih =>
    intro m h
    rw [List.foldl_cons, qtySum_cons]
    by_cases hrest : ∃ o1 ∈ rest, o1.MerchName = k
    · rw [ih _ hrest, mapGet_mapAdd]
      by_cases hk : o.MerchName = k
      · subst hk
        simp only [if_true]
        rw [wrapInt_add_wrapInt, add_assoc]
      · have hk' : ¬ k = o.MerchName := fun e => hk e.symm
        simp [hk, hk']
    · have habs : ∀ o1 ∈ rest, o1.MerchName ≠ k := by
        intro o1 ho1 e
        exact hrest ⟨o1, ho1, e⟩
      have hk : o.MerchName = k := by
        obtain ⟨o1, ho1, e⟩ := h
        rcases List.mem_cons.mp ho1 with rfl | h2
        · exact e
        · exact absurd e (habs o1 h2)
      rw [fold_get_absent k rest _ habs, mapGet_mapAdd, qtySum_of_absent k rest habs]
      subst hk
      simp

theorem inventoryOf_spec (rangeOrder : List (String × Int) → List (String × Int))
    (hperm : ∀ l, (rangeOrder l).Perm l) (orders : List Order) :
    ((inventoryOf rangeOrder orders).map (fun i => i.ItemType)).Nodup ∧
    (∀ name, name ∈ (inventoryOf rangeOrder orders).map (fun i => i.ItemType) ↔
      ∃ o ∈ orders, o.MerchName = name) ∧
    (∀ item ∈ inventoryOf rangeOrder orders,
      item.Quantity = wrapInt (qtySum item.ItemType orders)) := by
  have hk := fold_keys orders [] (by simp)
  have hp := hperm (inventoryMap orders)
  have hkeys : (inventoryOf rangeOrder orders).map (fun i => i.ItemType) =
      (rangeOrder (inventoryMap orders)).map Prod.fst := by
    simp [inventoryOf, Function.comp]
  have hpk : ((rangeOrder (inventoryMap orders)).map Prod.fst).Perm
      ((inventoryMap orders).map Prod.fst) := hp.map _
  refine ⟨?_, ?_, ?_⟩
  · rw [hkeys, hpk.nodup_iff]
    exact hk.1
  · intro name
    rw [hkeys, hpk.mem_iff]
    have := hk.2 name
    simpa [inventoryMap] using this
  · intro item hitem
    obtain ⟨e, he, rfl⟩ := List.mem_map.mp hitem
    have hmem : e ∈ inventoryMap orders := hp.mem_iff.mp he
    have hget := mapGet_of_mem (inventoryMap orders) e.1 e.2 hk.1 hmem
    have hkey : e.1 ∈ (inventoryMap orders).map Prod.fst := List.mem_map.mpr ⟨e, hmem, rfl⟩
    have hex : ∃ o ∈ orders, o.MerchName = e.1 := by
      have := (hk.2 e.1).mp hkey
      simpa using this
    have := fold_get_present e.1 orders [] hex
    simp only [mapGet, zero_add] at this
    show e.2 = wrapInt (qtySum e.1 orders)
    rw [← hget]
    exact this

/-- Claim C15. For every list of orders returned for the account (a Go slice,
so its length is an `int`; every order has quantity 1, the only quantity the
program writes) and every order in which `range` visits the inventory map, the
inventory in the response of `GetInfo` contains exactly one item for each
distinct item name occurring in the orders and no other item, and the quantity
of that item equals the sum of the quantities of the orders with that name. -/
theorem getInfo_inventory_groups_orders (db : DB) (env : GetInfoEnv) (userID : Int)
    (orders : List Order) (resp : InfoResponse)
    (hperm : ∀ l, (env.rangeOrder l).Perm l)
    (hlist : GetOrdersByUserID db env.orders userID = .ok orders)
    (hqty : ∀ o ∈ orders, o.Quantity = 1)
    (hlen : (orders.length : Int) ≤ intMax)
    (hresp : (GetInfo db env userID).resp = some resp) :
    (resp.Inventory.map (fun i => i.ItemType)).Nodup ∧
    (∀ name, name ∈ resp.Inventory.map (fun i => i.ItemType) ↔
      ∃ o ∈ orders, o.MerchName = name) ∧
    (∀ item ∈ resp.Inventory, item.Quantity = qtySum item.ItemType orders) := by
  have hinv : resp.Inventory = inventoryOf env.rangeOrder orders := by
    rcases GetInfo_cases db env userID with ⟨e, _, h⟩ | ⟨u, e, _, ho, h⟩ |
      ⟨u, o, e, _, ho, _, h⟩ | ⟨u, o, t, _, ho, _, h⟩
    · rw [h] at hresp; cases hresp
    · rw [h] at hresp; cases hresp
    · rw [hlist] at ho
      cases ho
      rw [h] at hresp
      cases hresp
      rfl
    · rw [hlist] at ho
      cases ho
      rw [h] at hresp
      cases hresp
      rfl
  have hspec := inventoryOf_spec env.rangeOrder hperm orders
  rw [hinv]
  refine ⟨hspec.1, hspec.2.1, ?_⟩
  intro item hitem
  have hb := qtySum_unit_bounds item.ItemType orders hqty
  have hfits : isInt (qtySum item.ItemType orders) := by
    unfold isInt intMin intMax
    unfold intMax at hlen
    omega
  rw [hspec.2.2 item hitem, wrapInt_of_isInt _ hfits]

/-- Claim C15 at work: account 1 of the sample database bought two t-shirts
and a cup; `range` visits the map backwards. -/
theorem getInfo_inventory_groups_orders_witness :
    (GetInfo infoDB { plainInfoEnv with rangeOrder := List.reverse } 1).resp.map
        (fun r => r.Inventory) = some [⟨"cup", 1⟩, ⟨"t-shirt", 2⟩] ∧
    ∀ item ∈ ([⟨"cup", 1⟩, ⟨"t-shirt", 2⟩] : List InventoryItem),
      item.Quantity =
        qtySum item.ItemType
          [⟨1, 1, "t-shirt", 1, 80⟩, ⟨1, 2, "cup", 1, 20⟩, ⟨1, 1, "t-shirt", 1, 80⟩] :=
  ⟨by decide,
   (getInfo_inventory_groups_orders infoDB { plainInfoEnv with rangeOrder := List.reverse } 1
      [⟨1, 1, "t-shirt", 1, 80⟩, ⟨1, 2, "cup", 1, 20⟩, ⟨1, 1, "t-shirt", 1, 80⟩]
      { Coins := 920, Inventory := [⟨"cup", 1⟩, ⟨"t-shirt", 2⟩],
        CoinHistory := { Received := [⟨"", "", 80⟩], Sent := [⟨"", "friend@example.com", 30⟩] } }
      (fun l => List.reverse_perm l) rfl (by decide) (by decide) (by decide)).2.2⟩

/-! ## Facts about the balance update -/

theorem setBalance_filter_ne (id nb : Int) (us : List User) :
    (setBalance id nb us).filter (fun v => v.ID != id) = us.filter (fun v => v.ID != id) := by
  induction us with
  | nil => rfl
  | cons u rest ih =>
    have hcons : setBalance id nb (u :: rest) =
        (if u.ID == id then { u with CoinBalance := nb } else u) :: setBalance id nb rest := rfl
    rw [hcons]
    by_cases h : u.ID = id
    · simp [List.filter_cons, h, ih]
    · simp [List.filter_cons, h, ih]

theorem setBalance_fields (id nb : Int) (us : List User) :
    (setBalance id nb us).map (fun v => (v.ID, v.Email, v.PassHash)) =
      us.map (fun v => (v.ID, v.Email, v.PassHash)) := by
  induction us with
  | nil => rfl
  | cons u rest ih =>
    have hcons : setBalance id nb (u :: rest) =
        (if u.ID == id then { u with CoinBalance := nb } else u) :: setBalance id nb rest := rfl
    rw [hcons, List.map_cons, List.map_cons, ih]
    by_cases h : u.ID = id
    · simp [h]
    · simp [h]

theorem setBalance_at (id nb : Int) (us : List User) (v : User)
    (hv : v ∈ setBalance id nb us) (hid : v.ID = id) : v.CoinBalance = nb := by
  unfold setBalance at hv
  obtain ⟨u, _, rfl⟩ := List.mem_map.mp hv
  by_cases h : u.ID = id
  · simp [h]
  · simp [h] at hid

theorem UpdateUserBalance_absent (tx : DB) (id nb : Int)
    (h : tx.users.find? (fun u => u.ID == id) = none) :
    UpdateUserBalance tx ⟨none, none⟩ id nb = .error ErrUserNotFound := by
  have hfilter : tx.users.filter (fun u => u.ID == id) = [] := by
    rw [List.filter_eq_nil_iff]
    intro u hu
    exact List.find?_eq_none.mp h u hu
  simp [UpdateUserBalance, hfilter]

/-! ## The claims: storage layer -/

/-- Claim C21. When the statement itself meets no driver error,
`UpdateUserBalance(id, newBalance)` returns `ErrUserNotFound` exactly when no
account has that id (the update matched zero rows); when an account with that id
exists it returns no error, the balance of that account is `newBalance`
afterwards, every account with another id is unchanged, the id, identity and
password hash of every account are unchanged, and so are the other tables. -/
theorem updateUserBalance_spec (tx : DB) (id newBalance : Int) :
    (UpdateUserBalance tx ⟨none, none⟩ id newBalance = .error ErrUserNotFound ↔
      ∀ u ∈ tx.users, u.ID ≠ id) ∧
    (∀ u : User, tx.users.find? (fun u => u.ID == id) = some u →
      ∃ tx1 : DB, UpdateUserBalance tx ⟨none, none⟩ id newBalance = .ok tx1 ∧
        balanceOf tx1 id = some newBalance ∧
        (∀ v ∈ tx1.users, v.ID = id → v.CoinBalance = newBalance) ∧
        tx1.users.filter (fun v => v.ID != id) = tx.users.filter (fun v => v.ID != id) ∧
        tx1.users.map (fun v => (v.ID, v.Email, v.PassHash)) =
          tx.users.map (fun v => (v.ID, v.Email, v.PassHash)) ∧
        tx1.merch = tx.merch ∧ tx1.orders = tx.orders ∧
        tx1.coinTransactions = tx.coinTransactions) := by
  constructor
  · constructor
    · intro herr u hu hid
      obtain ⟨w, hw⟩ : ∃ w, tx.users.find? (fun u => u.ID == id) = some w := by
        cases hf : tx.users.find? (fun u => u.ID == id) with
        | some w => exact ⟨w, rfl⟩
        | none =>
          have := List.find?_eq_none.mp hf u hu
          simp [hid] at this
      rw [UpdateUserBalance_found tx id newBalance w hw] at herr
      cases herr
    · intro hall
      apply UpdateUserBalance_absent
      rw [List.find?_eq_none]
      intro u hu
      simpa using hall u hu
  · intro u hu
    refine ⟨_, UpdateUserBalance_found tx id newBalance u hu, ?_, ?_, ?_, ?_, rfl, rfl, rfl⟩
    · simp only [balanceOf]
      rw [find_setBalance_same, hu]
      rfl
    · intro v hv hid
      exact setBalance_at id newBalance tx.users v hv hid
    · exact setBalance_filter_ne id newBalance tx.users
    · exact setBalance_fields id newBalance tx.users

/-- Claim C21 at work: the two storage tests, account 1 set to 900 and the
unknown account 99. -/
theorem updateUserBalance_spec_witness :
    (∃ tx1 : DB, UpdateUserBalance sampleDB ⟨none, none⟩ 1 900 = .ok tx1 ∧
      balanceOf tx1 1 = some 900 ∧ balanceOf tx1 2 = some 500) ∧
    UpdateUserBalance sampleDB ⟨none, none⟩ 99 900 = .error ErrUserNotFound :=
  ⟨(fun ⟨tx1, h1, h2, _, _, _, _⟩ => ⟨tx1, h1, h2, by cases h1; decide⟩)
     ((updateUserBalance_spec sampleDB 1 900).2 ⟨1, "sender@example.com", [1], 1000⟩
       (by decide)),
   (updateUserBalance_spec sampleDB 99 900).1.mpr (by decide)⟩

/-- Claim C22. `LockUserByIDTx` classifies the result of the locking read: a
returned row yields the account as stored (id, identity, hash, balance); no row
yields `ErrUserNotFound`; the driver error `pq` 55P03 (lock not available)
yields at once an error that wraps the driver error and is not (and does not
wrap) `ErrUserNotFound`; any other driver error that is not `sql.ErrNoRows` is
returned unchanged. -/
theorem lockUserByIDTx_classifies (tx : DB) (id : Int) :
    (∀ u : User, tx.users.find? (fun u => u.ID == id) = some u →
      LockUserByIDTx tx none id = .ok u ∧ u.ID = id) ∧
    (tx.users.find? (fun u => u.ID == id) = none →
      LockUserByIDTx tx none id = .error ErrUserNotFound) ∧
    (LockUserByIDTx tx (some (.pq "55P03")) id =
        .error (.wrapf "resource is locked, please try again" (.pq "55P03")) ∧
      errorsIs (.wrapf "resource is locked, please try again" (.pq "55P03")) (.pq "55P03") =
        true ∧
      errorsIs (.wrapf "resource is locked, please try again" (.pq "55P03")) ErrUserNotFound =
        false) ∧
    (∀ e : GoError, e ≠ .pq "55P03" → errorsIs e sqlErrNoRows = false →
      LockUserByIDTx tx (some e) id = .error e) := by
  refine ⟨?_, ?_, ⟨?_, by decide, by decide⟩, ?_⟩
  · intro u hu
    exact ⟨LockUserByIDTx_found tx id u hu, (find_id_spec _ _ _ hu).2⟩
  · intro hnone
    exact LockUserByIDTx_absent tx id hnone
  · simp [LockUserByIDTx, queryRow]
  · intro e hne hrows
    cases e with
    | pq code =>
      have hcode : ¬ code = "55P03" := by
        intro h
        exact hne (by rw [h])
      simp [LockUserByIDTx, queryRow, hcode, hrows]
    | sentinel n => simp [LockUserByIDTx, queryRow, hrows]
    | driver t => simp [LockUserByIDTx, queryRow, hrows]
    | wrapf m inner => simp [LockUserByIDTx, queryRow, hrows]
    | errorf m => simp [LockUserByIDTx, queryRow, hrows]

/-- Claim C22 at work: account 1 of the sample database is read as stored, and
a lost connection is passed on unchanged. -/
theorem lockUserByIDTx_classifies_witness :
    LockUserByIDTx sampleDB none 1 = .ok ⟨1, "sender@example.com", [1], 1000⟩ ∧
    LockUserByIDTx sampleDB (some connLost) 1 = .error connLost :=
  ⟨((lockUserByIDTx_classifies sampleDB 1).1 ⟨1, "sender@example.com", [1], 1000⟩
      (by decide)).1,
   (lockUserByIDTx_classifies sampleDB 1).2.2.2 connLost (by decide) (by decide)⟩

/-! ## The claims: units of work -/

/-- Claim C25. Every call of `Buy` or `SendCoin` that begins a unit of work
ends it exactly once, with its last storage call: the last call is a `Commit`
or a `Rollback` and no earlier call is one.  It is `Commit` when the call
returns success (so no success without `Commit`).  When a lookup, a validation
or a write step fails, whatever `Commit` would have met, it is `Rollback` with
no `Commit`, and the call returns an error.  When every such step goes through
it is `Commit`, and the call succeeds exactly when the `Commit` does. -/
theorem unit_ends_exactly_once (db : DB) :
    (∀ (f : BuyFaults) (userID : Int) (item : String), f.beginTx = none →
      (unitEnd (Buy db f userID item).calls = some .commit ∨
        unitEnd (Buy db f userID item).calls = some .rollback) ∧
      ((Buy db f userID item).err = none →
        unitEnd (Buy db f userID item).calls = some .commit) ∧
      ((Buy db f userID item).err ≠ none → f.commit = none →
        unitEnd (Buy db f userID item).calls = some .rollback) ∧
      (buyStepsPass db f userID item = false →
        unitEnd (Buy db f userID item).calls = some .rollback ∧
        (Buy db f userID item).err ≠ none) ∧
      (buyStepsPass db f userID item = true →
        unitEnd (Buy db f userID item).calls = some .commit ∧
        ((Buy db f userID item).err = none ↔ f.commit = none))) ∧
    (∀ (f : SendCoinFaults) (fromUserID : Int) (toUser : String) (amount : Int),
      0 < amount → f.beginTx = none →
      (unitEnd (SendCoin db f fromUserID toUser amount).calls = some .commit ∨
        unitEnd (SendCoin db f fromUserID toUser amount).calls = some .rollback) ∧
      ((SendCoin db f fromUserID toUser amount).err = none →
        unitEnd (SendCoin db f fromUserID toUser amount).calls = some .commit) ∧
      ((SendCoin db f fromUserID toUser amount).err ≠ none → f.commit = none →
        unitEnd (SendCoin db f fromUserID toUser amount).calls = some .rollback) ∧
      (sendCoinStepsPass db f fromUserID toUser amount = false →
        unitEnd (SendCoin db f fromUserID toUser amount).calls = some .rollback ∧
        (SendCoin db f fromUserID toUser amount).err ≠ none) ∧
      (sendCoinStepsPass db f fromUserID toUser amount = true →
        unitEnd (SendCoin db f fromUserID toUser amount).calls = some .commit ∧
        ((SendCoin db f fromUserID toUser amount).err = none ↔ f.commit = none))) := by
  constructor
  · intro f userID item hb
    cases hm : GetMerchByName db f.getMerch item with
    | error e => simp [Buy, buyStepsPass, hb, hm, unitEnd, Call.isEnd]
    | ok merch =>
      cases hu : LockUserByIDTx db f.lockUser userID with
      | error e => simp [Buy, buyStepsPass, hb, hm, hu, unitEnd, Call.isEnd]
      | ok user =>
        by_cases hlt : user.CoinBalance < merch.Price
        · simp [Buy, buyStepsPass, hb, hm, hu, hlt, unitEnd, Call.isEnd]
        · cases hup : UpdateUserBalance db f.updateBalance userID
              (wrapInt (user.CoinBalance - merch.Price)) with
          | error e => simp [Buy, buyStepsPass, hb, hm, hu, hlt, hup, unitEnd, Call.isEnd]
          | ok tx1 =>
            cases hco : CreateOrder tx1 f.createOrder userID merch.ID 1 merch.Price with
            | error e => simp [Buy, buyStepsPass, hb, hm, hu, hlt, hup, hco, unitEnd, Call.isEnd]
            | ok tx2 =>
              cases hc : f.commit with
              | some e => simp [Buy, buyStepsPass, hb, hm, hu, hlt, hup, hco, hc, unitEnd, Call.isEnd]
              | none => simp [Buy, buyStepsPass, hb, hm, hu, hlt, hup, hco, hc, unitEnd, Call.isEnd]
  · intro f fromUserID toUser amount hpos hb
    have ha : ¬ amount ≤ 0 := not_le.mpr hpos
    cases hs : LockUserByIDTx db f.lockSender fromUserID with
    | error e => simp [SendCoin, sendCoinStepsPass, ha, hb, hs, unitEnd, Call.isEnd]
    | ok sender =>
      cases hr : GetUserByEmail db f.getReceiver toUser with
      | error e =>
        by_cases hnf : errorsIs e ErrUserNotFound = true <;>
          simp [SendCoin, sendCoinStepsPass, ha, hb, hs, hr, hnf, unitEnd, Call.isEnd]
      | ok receiver =>
        by_cases hself : fromUserID = receiver.ID
        · subst hself
          simp [SendCoin, sendCoinStepsPass, ha, hb, hs, hr, unitEnd, Call.isEnd]
        by_cases hlt : sender.CoinBalance < amount
        · simp [SendCoin, sendCoinStepsPass, ha, hb, hs, hr, hself, hlt, unitEnd, Call.isEnd]
        cases h1 : UpdateUserBalance db f.updateSender fromUserID
            (wrapInt (sender.CoinBalance - amount)) with
        | error e => simp [SendCoin, sendCoinStepsPass, ha, hb, hs, hr, hself, hlt, h1, unitEnd, Call.isEnd]
        | ok tx1 =>
          cases h2 : UpdateUserBalance tx1 f.updateReceiver receiver.ID
              (wrapInt (receiver.CoinBalance + amount)) with
          | error e =>
            simp [SendCoin, sendCoinStepsPass, ha, hb, hs, hr, hself, hlt, h1, h2, unitEnd, Call.isEnd]
          | ok tx2 =>
            cases h3 : CreateTransaction tx2 f.createSent fromUserID amount "transfer_sent"
                (some receiver.ID) with
            | error e =>
              simp [SendCoin, sendCoinStepsPass, ha, hb, hs, hr, hself, hlt, h1, h2, h3, unitEnd, Call.isEnd]
            | ok tx3 =>
              cases h4 : CreateTransaction tx3 f.createReceived receiver.ID amount
                  "transfer_received" (some fromUserID) with
              | error e =>
                simp [SendCoin, sendCoinStepsPass, ha, hb, hs, hr, hself, hlt, h1, h2, h3, h4, unitEnd, Call.isEnd]
              | ok tx4 =>
                cases hc : f.commit with
                | some e =>
                  simp [SendCoin, sendCoinStepsPass, ha, hb, hs, hr, hself, hlt, h1, h2, h3, h4, hc, unitEnd,
                    Call.isEnd]
                | none =>
                  simp [SendCoin, sendCoinStepsPass, ha, hb, hs, hr, hself, hlt, h1, h2, h3, h4, hc, unitEnd,
                    Call.isEnd]

/-- Claim C25 at work: a purchase that commits; a purchase refused for lack of
funds, and a transfer whose second ledger insert fails, both over a connection
on which `Commit` would fail as well; and a purchase whose `Commit` fails. -/
theorem unit_ends_exactly_once_witness :
    unitEnd (Buy sampleDB noBuyFaults 1 "t-shirt").calls = some .commit ∧
    (unitEnd (Buy poorDB { noBuyFaults with commit := some connLost } 1 "t-shirt").calls =
        some .rollback ∧
      (Buy poorDB { noBuyFaults with commit := some connLost } 1 "t-shirt").err ≠ none) ∧
    (unitEnd (SendCoin sampleDB
        { noSendCoinFaults with createReceived := some connLost, commit := some connLost } 1
        "receiver@example.com" 100).calls = some .rollback ∧
      (SendCoin sampleDB
        { noSendCoinFaults with createReceived := some connLost, commit := some connLost } 1
        "receiver@example.com" 100).err ≠ none) ∧
    unitEnd (Buy sampleDB { noBuyFaults with commit := some connLost } 1 "t-shirt").calls =
      some .commit :=
  ⟨((unit_ends_exactly_once sampleDB).1 noBuyFaults 1 "t-shirt" rfl).2.1 (by decide),
   ((unit_ends_exactly_once poorDB).1 { noBuyFaults with commit := some connLost } 1 "t-shirt"
      rfl).2.2.2.1 (by decide),
   ((unit_ends_exactly_once sampleDB).2
      { noSendCoinFaults with createReceived := some connLost, commit := some connLost }
      1 "receiver@example.com" 100 (by decide) rfl).2.2.2.1 (by decide),
   (((unit_ends_exactly_once sampleDB).1 { noBuyFaults with commit := some connLost } 1 "t-shirt"
      rfl).2.2.2.2 (by decide)).1⟩

/-- Claim C26 as stated fails: for the item `nonexistent_item`, absent from the
catalog, `Buy` begins a unit of work before it looks the item up (its calls are
`BeginTx`, `GetMerchByName`, `Rollback`), and when the unit of work cannot be
opened the result is another one: the error wraps the driver error of
`BeginTx`, not `ErrMerchNotFound`, and the catalog is never read. -/
theorem buy_begins_before_lookup :
    sampleDB.merch.find? (fun m => m.Name == "nonexistent_item") = none ∧
    (Buy sampleDB noBuyFaults 1 "nonexistent_item").calls =
      [.beginTx, .getMerchByName "nonexistent_item", .rollback] ∧
    Buy sampleDB { noBuyFaults with beginTx := some connLost } 1 "nonexistent_item" =
      { err := some (.wrapf "service.BuyService.Buy: failed to begin transaction" connLost)
        db := sampleDB
        calls := [.beginTx] } ∧
    errorsIs (.wrapf "service.BuyService.Buy: failed to begin transaction" connLost)
      ErrMerchNotFound = false ∧
    (Buy sampleDB { noBuyFaults with beginTx := some connLost } 1 "nonexistent_item").err ≠
      (Buy sampleDB noBuyFaults 1 "nonexistent_item").err := by
  decide

/-- Claim C26, amended. `Buy` opens the atomic unit first and resolves the item
name through the catalog inside it: its first storage call is always `BeginTx`.
For every item name absent from the catalog, if the unit of work cannot be
opened `Buy` fails with the error of `BeginTx` and never reads the catalog; if
it is opened and the catalog read goes through, `Buy` fails with the
item-not-found error (wrapping `ErrMerchNotFound`) and rolls the unit back. -/
theorem buy_looks_up_inside_unit (db : DB) (f : BuyFaults) (userID : Int) (item : String)
    (habsent : db.merch.find? (fun m => m.Name == item) = none) :
    (Buy db f userID item).calls.head? = some .beginTx ∧
    (∀ e, f.beginTx = some e →
      Buy db f userID item =
        { err := some (.wrapf "service.BuyService.Buy: failed to begin transaction" e)
          db := db
          calls := [.beginTx] }) ∧
    (f.beginTx = none → f.getMerch = none →
      Buy db f userID item =
        { err := some (.wrapf "service.BuyService.Buy: failed to get merch" ErrMerchNotFound)
          db := db
          calls := [.beginTx, .getMerchByName item, .rollback] }) := by
  refine ⟨?_, ?_, ?_⟩
  · cases hb : f.beginTx with
    | some e => simp [Buy, hb]
    | none =>
      obtain ⟨e, he⟩ := GetMerchByName_absent_error db f.getMerch item habsent
      simp [Buy, hb, he]
  · intro e hb
    simp [Buy, hb]
  · intro hb hg
    simp [Buy, hb, hg, GetMerchByName_absent _ _ habsent]

/-- Claim C26 at work: the unknown item of the API test when the transaction
cannot be opened. -/
theorem buy_looks_up_inside_unit_witness :
    (Buy sampleDB { noBuyFaults with beginTx := some connLost } 1 "nonexistent_item").calls.head? =
      some .beginTx ∧
    Buy sampleDB { noBuyFaults with beginTx := some connLost } 1 "nonexistent_item" =
      { err := some (.wrapf "service.BuyService.Buy: failed to begin transaction" connLost)
        db := sampleDB
        calls := [.beginTx] } :=
  have h := buy_looks_up_inside_unit sampleDB { noBuyFaults with beginTx := some connLost } 1
    "nonexistent_item" (by decide)
  ⟨h.1, h.2.1 connLost rfl⟩

/-! ## The claims: GetInfo errors and frames -/

/-- Claim C28. `GetInfo` returns an error if and only if the read of the account
by id fails or the listing of the account's orders fails; in particular a
failing order listing fails the whole call although the balance was read, and
once both succeed no failure of the ledger listing or of a counterparty lookup
makes `GetInfo` fail. -/
theorem getInfo_error_iff (db : DB) (env : GetInfoEnv) (userID : Int) :
    ((GetInfo db env userID).err ≠ none ↔
      ((∃ e, GetUserByID db env.getUser userID = .error e) ∨
        (∃ e, GetOrdersByUserID db env.orders userID = .error e))) ∧
    (∀ user e, GetUserByID db env.getUser userID = .ok user →
      GetOrdersByUserID db env.orders userID = .error e →
      (GetInfo db env userID).err = some (.wrapf "failed to get orders" e) ∧
      (GetInfo db env userID).resp = none) ∧
    (∀ user orders, GetUserByID db env.getUser userID = .ok user →
      GetOrdersByUserID db env.orders userID = .ok orders →
      (GetInfo db env userID).err = none ∧ (GetInfo db env userID).resp ≠ none) := by
  refine ⟨?_, ?_, ?_⟩
  · rcases GetInfo_cases db env userID with ⟨e, hu, h⟩ | ⟨u, e, hu, ho, h⟩ |
      ⟨u, o, e, hu, ho, _, h⟩ | ⟨u, o, t, hu, ho, _, h⟩ <;> rw [h]
    · simp [hu]
    · simp [ho]
    · simp [hu, ho]
    · simp [hu, ho]
  · intro user e hu ho
    simp [GetInfo, hu, ho]
  · intro user orders hu ho
    cases ht : GetTransactionsByUserID db env.transactions userID <;>
      simp [GetInfo, hu, ho, ht]

/-- Claim C28 at work: for account 1 of the sample database a failing order
listing fails the call, while a failing ledger listing together with failing
counterparty lookups does not. -/
theorem getInfo_error_iff_witness :
    (GetInfo infoDB { plainInfoEnv with orders := ⟨some connLost, none, none⟩ } 1).err =
      some (.wrapf "failed to get orders" connLost) ∧
    (GetInfo infoDB { plainInfoEnv with transactions := ⟨none, none, some connLost⟩,
                                        lookup := fun _ => some connLost } 1).err = none :=
  ⟨((getInfo_error_iff infoDB { plainInfoEnv with orders := ⟨some connLost, none, none⟩ } 1).2.1
      ⟨1, "test@example.com", [1], 920⟩ connLost rfl rfl).1,
   ((getInfo_error_iff infoDB { plainInfoEnv with transactions := ⟨none, none, some connLost⟩,
                                                  lookup := fun _ => some connLost } 1).2.2
      ⟨1, "test@example.com", [1], 920⟩
      [⟨1, 1, "t-shirt", 1, 80⟩, ⟨1, 2, "cup", 1, 20⟩, ⟨1, 1, "t-shirt", 1, 80⟩] rfl rfl).1⟩

theorem setBalance_filter_ids (id nb : Int) (q : Int → Bool) (hq : q id = false)
    (us : List User) :
    (setBalance id nb us).filter (fun v => q v.ID) = us.filter (fun v => q v.ID) := by
  induction us with
  | nil => rfl
  | cons u rest ih =>
    have hcons : setBalance id nb (u :: rest) =
        (if u.ID == id then { u with CoinBalance := nb } else u) :: setBalance id nb rest := rfl
    rw [hcons]
    by_cases h : u.ID = id
    · simp [List.filter_cons, h, hq, ih]
    · simp [List.filter_cons, h, ih]

/-- Claim C29. A successful `Buy` changes the balance of the buyer only (every
account with another id is unchanged) and leaves the ledger as it was; a
successful `SendCoin` changes the balances of the sender and of the receiver
only and leaves the orders as they were; neither changes the catalog, nor the
id, identity or password hash of any account. -/
theorem successful_call_frame (db : DB) :
    (∀ (f : BuyFaults) (userID : Int) (item : String), (Buy db f userID item).err = none →
      (Buy db f userID item).db.users.filter (fun v => v.ID != userID) =
        db.users.filter (fun v => v.ID != userID) ∧
      (Buy db f userID item).db.coinTransactions = db.coinTransactions ∧
      (Buy db f userID item).db.merch = db.merch ∧
      (Buy db f userID item).db.users.map (fun v => (v.ID, v.Email, v.PassHash)) =
        db.users.map (fun v => (v.ID, v.Email, v.PassHash))) ∧
    (∀ (f : SendCoinFaults) (fromUserID : Int) (toUser : String) (amount : Int),
      (SendCoin db f fromUserID toUser amount).err = none →
      ∃ receiver : User, db.users.find? (fun u => u.Email == toUser) = some receiver ∧
        (SendCoin db f fromUserID toUser amount).db.users.filter
            (fun v => v.ID != fromUserID && v.ID != receiver.ID) =
          db.users.filter (fun v => v.ID != fromUserID && v.ID != receiver.ID) ∧
        (SendCoin db f fromUserID toUser amount).db.orders = db.orders ∧
        (SendCoin db f fromUserID toUser amount).db.merch = db.merch ∧
        (SendCoin db f fromUserID toUser amount).db.users.map
            (fun v => (v.ID, v.Email, v.PassHash)) =
          db.users.map (fun v => (v.ID, v.Email, v.PassHash))) := by
  constructor
  · intro f userID item hok
    rcases Buy_cases db f userID item with h | ⟨merch, user, _, _, _, heq⟩
    · exact absurd hok h.1
    · rw [heq]
      refine ⟨?_, rfl, rfl, ?_⟩
      · exact setBalance_filter_ne _ _ _
      · exact setBalance_fields _ _ _
  · intro f fromUserID toUser amount hok
    rcases SendCoin_cases db f fromUserID toUser amount with
      h | ⟨s, r, _, _, hr, _, _, heq⟩
    · exact absurd hok h.1
    · refine ⟨r, hr, ?_⟩
      rw [heq]
      refine ⟨?_, rfl, rfl, ?_⟩
      · simp only [sendCoinResult]
        rw [setBalance_filter_ids r.ID _ (fun i => i != fromUserID && i != r.ID) (by simp),
          setBalance_filter_ids fromUserID _ (fun i => i != fromUserID && i != r.ID) (by simp)]
      · simp only [sendCoinResult]
        rw [setBalance_fields, setBalance_fields]

/-- Claim C29 at work: the purchase and the transfer of the service tests. -/
theorem successful_call_frame_witness :
    (Buy sampleDB noBuyFaults 1 "t-shirt").db.users.filter (fun v => v.ID != 1) =
      sampleDB.users.filter (fun v => v.ID != 1) ∧
    (SendCoin sampleDB noSendCoinFaults 1 "receiver@example.com" 100).db.orders =
      sampleDB.orders :=
  ⟨((successful_call_frame sampleDB).1 noBuyFaults 1 "t-shirt" (by decide)).1,
   (fun ⟨_, _, _, h, _⟩ => h)
     ((successful_call_frame sampleDB).2 noSendCoinFaults 1 "receiver@example.com" 100
       (by decide))⟩

/-! ## The histories of GetInfo, entry by entry -/

theorem counterpartyName_shown (db : DB) (fault : Option GoError) (related : Option Int) :
    (counterpartyName db fault related).1 = shownName db fault related := by
  cases related with
  | none => rfl
  | some id =>
    cases h : GetUserByID db fault id <;> simp [counterpartyName, shownName, h]

theorem historyLoop_entries (db : DB) (lookup : Nat → Option GoError)
    (transactions : List CoinTransaction) :
    ∀ (i : Nat) (acc : List HistoryEntry × List HistoryEntry × List Call),
      (historyLoop db lookup i transactions acc).1 =
        acc.1 ++ receivedHistory db lookup i transactions ∧
      (historyLoop db lookup i transactions acc).2.1 =
        acc.2.1 ++ sentHistory db lookup i transactions := by
  induction transactions with
  | nil => intro i acc; simp [historyLoop, receivedHistory, sentHistory]
  | cons tx rest ih =>
    intro i acc
    obtain ⟨received, sent, calls⟩ := acc
    unfold historyLoop
    cases hb1 : (tx.TxType == "transfer_received")
    · cases hb2 : (tx.TxType == "transfer_sent")
      · simp only [Bool.false_eq_true, if_false]
        rw [(ih _ _).1, (ih _ _).2]
        simp [receivedHistory, sentHistory, List.enumFrom_cons, List.filter_cons, hb1, hb2]
      · simp only [Bool.false_eq_true, if_false, if_true]
        rw [(ih _ _).1, (ih _ _).2]
        simp [receivedHistory, sentHistory, List.enumFrom_cons, List.filter_cons, hb1, hb2,
          counterpartyName_shown]
    · have hb2 : (tx.TxType == "transfer_sent") = false := by
        have h1 : tx.TxType = "transfer_received" := by simpa using hb1
        rw [h1]
        decide
      simp only [if_true]
      rw [(ih _ _).1, (ih _ _).2]
      simp [receivedHistory, sentHistory, List.enumFrom_cons, List.filter_cons, hb1, hb2,
        counterpartyName_shown]

/-- Claim C30. For every listing of ledger entries returned for the account,
the received history of the response of `GetInfo` has exactly one entry for
each listed entry of kind `transfer_received`, and the sent history one for
each of kind `transfer_sent`, in the order of the listing and with the listed
amount; the counterparty name in that entry is the identity of the counterparty
account when the ledger entry has a counterparty id and that account can be
read, and the empty string when it has no counterparty id or the lookup fails,
so neither case drops the entry or changes its amount. -/
theorem getInfo_counterparty_names (db : DB) (env : GetInfoEnv) (userID : Int)
    (transactions : List CoinTransaction) (resp : InfoResponse)
    (hlist : GetTransactionsByUserID db env.transactions userID = .ok transactions)
    (hresp : (GetInfo db env userID).resp = some resp) :
    resp.CoinHistory.Received = receivedHistory db env.lookup 0 transactions ∧
    resp.CoinHistory.Sent = sentHistory db env.lookup 0 transactions ∧
    resp.CoinHistory.Received.length = (receivedOf transactions).length ∧
    resp.CoinHistory.Sent.length = (sentOf transactions).length ∧
    (∀ fault, shownName db fault none = "") ∧
    (∀ fault id user, GetUserByID db fault id = .ok user →
      shownName db fault (some id) = user.Email ∧
      db.users.find? (fun u => u.ID == id) = some user) ∧
    (∀ fault id e, GetUserByID db fault id = .error e → shownName db fault (some id) = "") := by
  have hmain : resp.CoinHistory.Received = receivedHistory db env.lookup 0 transactions ∧
      resp.CoinHistory.Sent = sentHistory db env.lookup 0 transactions := by
    rcases GetInfo_cases db env userID with ⟨e, _, h⟩ | ⟨u, e, _, _, h⟩ |
      ⟨u, o, e, _, _, ht, h⟩ | ⟨u, o, t, _, _, ht, h⟩
    · rw [h] at hresp; cases hresp
    · rw [h] at hresp; cases hresp
    · rw [hlist] at ht; cases ht
    · rw [hlist] at ht
      cases ht
      rw [h] at hresp
      cases hresp
      have := historyLoop_entries db env.lookup transactions 0 ([], [], [])
      exact ⟨by simpa using this.1, by simpa using this.2⟩
  have hlenR := congrArg (fun l => (l.map (fun e => e.Amount)).length) hmain.1
  have hlenS := congrArg (fun l => (l.map (fun e => e.Amount)).length) hmain.2
  have hR := historyLoop_received db env.lookup transactions 0 ([], [], [])
  have hS := historyLoop_sent db env.lookup transactions 0 ([], [], [])
  have eR := (historyLoop_entries db env.lookup transactions 0 ([], [], [])).1
  have eS := (historyLoop_entries db env.lookup transactions 0 ([], [], [])).2
  simp only [List.nil_append, List.map_nil] at hR hS eR eS
  refine ⟨hmain.1, hmain.2, ?_, ?_, ?_, ?_, ?_⟩
  · rw [hmain.1, ← eR]
    have := congrArg List.length hR
    simpa using this
  · rw [hmain.2, ← eS]
    have := congrArg List.length hS
    simpa using this
  · intro fault
    rfl
  · intro fault id user hu
    exact ⟨by simp [shownName, hu], GetUserByID_ok _ _ _ _ hu⟩
  · intro fault id e hu
    simp [shownName, hu]

/-- Claim C30 at work: account 1 of the sample database, whose listing has (at
positions 0, 1, 2) a bonus, a transfer sent to account 2 and a transfer received
without counterparty; the lookup of the counterparty of entry 1 fails in the
second call. -/
theorem getInfo_counterparty_names_witness :
    (GetInfo infoDB plainInfoEnv 1).resp.map (fun r => r.CoinHistory) =
      some { Received := [⟨"", "", 80⟩], Sent := [⟨"", "friend@example.com", 30⟩] } ∧
    (GetInfo infoDB { plainInfoEnv with lookup := fun _ => some connLost } 1).resp.map
        (fun r => r.CoinHistory) =
      some { Received := [⟨"", "", 80⟩], Sent := [⟨"", "", 30⟩] } ∧
    ([⟨"", "", 30⟩] : List HistoryEntry) =
      sentHistory infoDB (fun _ => some connLost) 0
        [⟨1, 7, "bonus", none⟩, ⟨1, 30, "transfer_sent", some 2⟩,
         ⟨1, 80, "transfer_received", none⟩] :=
  ⟨by decide, by decide,
   (getInfo_counterparty_names infoDB { plainInfoEnv with lookup := fun _ => some connLost } 1
      [⟨1, 7, "bonus", none⟩, ⟨1, 30, "transfer_sent", some 2⟩, ⟨1, 80, "transfer_received", none⟩]
      { Coins := 920, Inventory := [⟨"t-shirt", 2⟩, ⟨"cup", 1⟩],
        CoinHistory := { Received := [⟨"", "", 80⟩], Sent := [⟨"", "", 30⟩] } }
      rfl (by decide)).2.1⟩

/-! ## A transfer seen through GetInfo -/

theorem find_of_nodup_ids (us : List User) (u : User)
    (hkeys : (us.map (fun v => v.ID)).Nodup) (hmem : u ∈ us) :
    us.find? (fun v => v.ID == u.ID) = some u := by
  cases hf : us.find? (fun v => v.ID == u.ID) with
  | none =>
    have := List.find?_eq_none.mp hf u hmem
    simp at this
  | some w =>
    obtain ⟨hw, hid⟩ := find_id_spec _ _ _ hf
    rw [List.inj_on_of_nodup_map hkeys hw hmem hid]

theorem find_setBalance_email (id id1 nb : Int) (us : List User) :
    ((setBalance id nb us).find? (fun u => u.ID == id1)).map (fun u => u.Email) =
      (us.find? (fun u => u.ID == id1)).map (fun u => u.Email) := by
  rw [find_setBalance]
  cases us.find? (fun u => u.ID == id1) with
  | none => rfl
  | some v =>
    simp only [Option.map_some']
    split <;> rfl

theorem shownName_quiet (db : DB) (id : Int) :
    shownName db none (some id) =
      ((db.users.find? (fun u => u.ID == id)).map (fun u => u.Email)).getD "" := by
  cases h : db.users.find? (fun u => u.ID == id) with
  | none => simp [shownName, GetUserByID, queryRow, h, sqlErrNoRows, errorsIs]
  | some u => simp [shownName, GetUserByID_found _ _ _ h]

theorem mem_sentHistory (db : DB) (lookup : Nat → Option GoError)
    (hquiet : ∀ j, lookup j = none) (tx : CoinTransaction) (hkind : tx.TxType = "transfer_sent")
    (transactions : List CoinTransaction) :
    ∀ i : Nat, tx ∈ transactions →
      { FromUser := "", ToUser := shownName db none tx.RelatedUserID, Amount := tx.Amount } ∈
        sentHistory db lookup i transactions := by
  induction transactions with
  | nil => intro i h; cases h
  | cons x rest ih =>
    intro i hmem
    rcases List.mem_cons.mp hmem with rfl | h
    · simp [sentHistory, List.enumFrom_cons, List.filter_cons, hkind, hquiet]
    · have := ih (i + 1) h
      unfold sentHistory at this ⊢
      rw [List.enumFrom_cons, List.filter_cons]
      split
      · exact List.mem_map.mpr (by
          obtain ⟨p, hp, hpe⟩ := List.mem_map.mp this
          exact ⟨p, List.mem_cons_of_mem _ hp, hpe⟩)
      · exact this

theorem mem_receivedHistory (db : DB) (lookup : Nat → Option GoError)
    (hquiet : ∀ j, lookup j = none) (tx : CoinTransaction)
    (hkind : tx.TxType = "transfer_received") (transactions : List CoinTransaction) :
    ∀ i : Nat, tx ∈ transactions →
      { FromUser := shownName db none tx.RelatedUserID, ToUser := "", Amount := tx.Amount } ∈
        receivedHistory db lookup i transactions := by
  induction transactions with
  | nil => intro i h; cases h
  | cons x rest ih =>
    intro i hmem
    rcases List.mem_cons.mp hmem with rfl | h
    · simp [receivedHistory, List.enumFrom_cons, List.filter_cons, hkind, hquiet]
    · have := ih (i + 1) h
      unfold receivedHistory at this ⊢
      rw [List.enumFrom_cons, List.filter_cons]
      split
      · exact List.mem_map.mpr (by
          obtain ⟨p, hp, hpe⟩ := List.mem_map.mp this
          exact ⟨p, List.mem_cons_of_mem _ hp, hpe⟩)
      · exact this

theorem GetInfo_quiet (db : DB) (rangeOrder : List (String × Int) → List (String × Int))
    (userID : Int) (user : User)
    (hu : db.users.find? (fun u => u.ID == userID) = some user) :
    ∃ resp, (GetInfo db (quietInfoEnv rangeOrder) userID).resp = some resp ∧
      resp.Coins = user.CoinBalance ∧
      resp.CoinHistory.Received = receivedHistory db (fun _ => none) 0
        (db.coinTransactions.reverse.filter (fun t => t.UserID == userID)) ∧
      resp.CoinHistory.Sent = sentHistory db (fun _ => none) 0
        (db.coinTransactions.reverse.filter (fun t => t.UserID == userID)) := by
  have h := historyLoop_entries db (fun _ => none)
    (db.coinTransactions.reverse.filter (fun t => t.UserID == userID)) 0 ([], [], [])
  simp only [List.nil_append] at h
  refine ⟨{ Coins := user.CoinBalance
            Inventory := inventoryOf rangeOrder (ordersJoinMerch db userID)
            CoinHistory :=
              { Received := (historyLoop db (fun _ => none) 0
                  (db.coinTransactions.reverse.filter (fun t => t.UserID == userID))
                  ([], [], [])).1
                Sent := (historyLoop db (fun _ => none) 0
                  (db.coinTransactions.reverse.filter (fun t => t.UserID == userID))
                  ([], [], [])).2.1 } }, ?_, rfl, h.1, h.2⟩
  simp [GetInfo, quietInfoEnv, GetUserByID_found _ _ _ hu, GetOrdersByUserID,
    GetTransactionsByUserID]

/-- Claim C23. In a database whose accounts are keyed by id, after a successful
`SendCoin` of amount `a` from account A to the identity of account B, a
`GetInfo` of A whose reads all go through has in its sent history an entry with
amount `a` and `ToUser` equal to B's identity, and a `GetInfo` of B has in its
received history an entry with amount `a` and `FromUser` equal to A's
identity. -/
theorem transfer_shows_in_histories (db : DB) (f : SendCoinFaults) (fromUserID : Int)
    (toUser : String) (amount : Int) (sender receiver : User)
    (rangeA rangeB : List (String × Int) → List (String × Int))
    (hs : db.users.find? (fun u => u.ID == fromUserID) = some sender)
    (hr : db.users.find? (fun u => u.Email == toUser) = some receiver)
    (hkeys : (db.users.map (fun v => v.ID)).Nodup)
    (hok : (SendCoin db f fromUserID toUser amount).err = none) :
    (∃ respA,
      (GetInfo (SendCoin db f fromUserID toUser amount).db (quietInfoEnv rangeA)
        fromUserID).resp = some respA ∧
      { FromUser := "", ToUser := toUser, Amount := amount } ∈ respA.CoinHistory.Sent) ∧
    (∃ respB,
      (GetInfo (SendCoin db f fromUserID toUser amount).db (quietInfoEnv rangeB)
        receiver.ID).resp = some respB ∧
      { FromUser := sender.Email, ToUser := "", Amount := amount } ∈
        respB.CoinHistory.Received) := by
  rcases SendCoin_cases db f fromUserID toUser amount with
    h | ⟨s, r, _, hs1, hr1, hne, _, heq⟩
  · exact absurd hok h.1
  rw [hs] at hs1
  rw [hr] at hr1
  cases hs1
  cases hr1
  obtain ⟨hrmem, hrmail⟩ := find_email_spec _ _ _ hr
  have hrid := find_of_nodup_ids db.users receiver hkeys hrmem
  rw [heq]
  -- the accounts as stored after the transfer
  have hmailA : ((sendCoinResult db fromUserID amount sender receiver).users.find?
      (fun u => u.ID == fromUserID)).map (fun u => u.Email) = some sender.Email := by
    simp only [sendCoinResult]
    rw [find_setBalance_email, find_setBalance_email, hs]
    rfl
  have hmailB : ((sendCoinResult db fromUserID amount sender receiver).users.find?
      (fun u => u.ID == receiver.ID)).map (fun u => u.Email) = some toUser := by
    simp only [sendCoinResult]
    rw [find_setBalance_email, find_setBalance_email, hrid]
    simp [hrmail]
  obtain ⟨a1, ha1⟩ : ∃ a1, (sendCoinResult db fromUserID amount sender receiver).users.find?
      (fun u => u.ID == fromUserID) = some a1 := by
    cases hfa : (sendCoinResult db fromUserID amount sender receiver).users.find?
        (fun u => u.ID == fromUserID) with
    | some a1 => exact ⟨a1, rfl⟩
    | none => rw [hfa] at hmailA; cases hmailA
  obtain ⟨b1, hb1⟩ : ∃ b1, (sendCoinResult db fromUserID amount sender receiver).users.find?
      (fun u => u.ID == receiver.ID) = some b1 := by
    cases hfb : (sendCoinResult db fromUserID amount sender receiver).users.find?
        (fun u => u.ID == receiver.ID) with
    | some b1 => exact ⟨b1, rfl⟩
    | none => rw [hfb] at hmailB; cases hmailB
  constructor
  · obtain ⟨resp, hresp, _, _, hsent⟩ :=
      GetInfo_quiet (sendCoinResult db fromUserID amount sender receiver) rangeA fromUserID a1 ha1
    refine ⟨resp, hresp, ?_⟩
    rw [hsent]
    have hmem := mem_sentHistory (sendCoinResult db fromUserID amount sender receiver)
      (fun _ => none) (fun _ => rfl)
      { UserID := fromUserID, Amount := amount, TxType := "transfer_sent",
        RelatedUserID := some receiver.ID } rfl
      ((sendCoinResult db fromUserID amount sender receiver).coinTransactions.reverse.filter
        (fun t => t.UserID == fromUserID)) 0
      (by simp [sendCoinResult])
    rw [shownName_quiet, hmailB] at hmem
    exact hmem
  · obtain ⟨resp, hresp, _, hrecv, _⟩ :=
      GetInfo_quiet (sendCoinResult db fromUserID amount sender receiver) rangeB receiver.ID b1 hb1
    refine ⟨resp, hresp, ?_⟩
    rw [hrecv]
    have hmem := mem_receivedHistory (sendCoinResult db fromUserID amount sender receiver)
      (fun _ => none) (fun _ => rfl)
      { UserID := receiver.ID, Amount := amount, TxType := "transfer_received",
        RelatedUserID := some fromUserID } rfl
      ((sendCoinResult db fromUserID amount sender receiver).coinTransactions.reverse.filter
        (fun t => t.UserID == receiver.ID)) 0
      (by simp [sendCoinResult])
    rw [shownName_quiet, hmailA] at hmem
    exact hmem

/-- Claim C23 at work: the transfer of the service tests, seen by both
accounts. -/
theorem transfer_shows_in_histories_witness :
    (∃ respA,
      (GetInfo (SendCoin sampleDB noSendCoinFaults 1 "receiver@example.com" 100).db
        (quietInfoEnv List.reverse) 1).resp = some respA ∧
      { FromUser := "", ToUser := "receiver@example.com", Amount := 100 } ∈
        respA.CoinHistory.Sent) ∧
    (∃ respB,
      (GetInfo (SendCoin sampleDB noSendCoinFaults 1 "receiver@example.com" 100).db
        (quietInfoEnv List.reverse) 2).resp = some respB ∧
      { FromUser := "sender@example.com", ToUser := "", Amount := 100 } ∈
        respB.CoinHistory.Received) :=
  transfer_shows_in_histories sampleDB noSendCoinFaults 1 "receiver@example.com" 100
    ⟨1, "sender@example.com", [1], 1000⟩ ⟨2, "receiver@example.com", [2], 500⟩
    List.reverse List.reverse (by decide) (by decide) (by decide) (by decide)

/-! ## The claims: BuyHandler -/

/-- Claim C24. The status of the response of `BuyHandler` is a function of the
request and of the service result: 400 when the item parameter is empty, and
the service is not called, authenticated or not; otherwise 401 when the context
carries no user id, and the service is not called; otherwise 400 with the
text of the service's error when `Buy` returns an error; otherwise 200 with
the JSON message "Item purchased successfully".  The bodies are as stated
whenever the connection accepts the write. -/
theorem buyHandler_status (buy : Int → String → Option GoError) (env : HandlerEnv)
    (item : String) (ctxUserID : Option Int) :
    (item = "" →
      (BuyHandler buy env item ctxUserID).response.status = some 400 ∧
      (BuyHandler buy env item ctxUserID).serviceCalls = []) ∧
    (item ≠ "" → ctxUserID = none →
      (BuyHandler buy env item ctxUserID).response.status = some 401 ∧
      (BuyHandler buy env item ctxUserID).serviceCalls = []) ∧
    (∀ userID err, item ≠ "" → ctxUserID = some userID → buy userID item = some err →
      (BuyHandler buy env item ctxUserID).response.status = some 400 ∧
      (BuyHandler buy env item ctxUserID).serviceCalls = [(userID, item)] ∧
      (env.writeFault = none →
        (BuyHandler buy env item ctxUserID).response.body = env.errorText err ++ "\n")) ∧
    (∀ userID, item ≠ "" → ctxUserID = some userID → buy userID item = none →
      (BuyHandler buy env item ctxUserID).response.status = some 200 ∧
      (BuyHandler buy env item ctxUserID).serviceCalls = [(userID, item)] ∧
      (env.writeFault = none →
        (BuyHandler buy env item ctxUserID).response.body = buyResponseJSON ∧
        (BuyHandler buy env item ctxUserID).response.contentType = "application/json")) := by
  refine ⟨?_, ?_, ?_, ?_⟩
  · intro hitem
    cases hw : env.writeFault <;>
      simp [BuyHandler, hitem, httpError, Write, WriteHeader, setContentType, Response.fresh, hw]
  · intro hitem hctx
    cases hw : env.writeFault <;>
      simp [BuyHandler, hitem, hctx, httpError, Write, WriteHeader, setContentType,
        Response.fresh, hw]
  · intro userID err hitem hctx hbuy
    cases hw : env.writeFault <;>
      simp [BuyHandler, hitem, hctx, hbuy, httpError, Write, WriteHeader, setContentType,
        Response.fresh, hw]
  · intro userID hitem hctx hbuy
    cases hw : env.writeFault <;>
      simp [BuyHandler, hitem, hctx, hbuy, httpError, Write, WriteHeader, setContentType,
        Response.fresh, hw]

/-- Claim C24 at work: the handler in front of `Buy` on the sample database,
for a purchase that succeeds and for an unknown item. -/
theorem buyHandler_status_witness :
    (BuyHandler (fun userID item => (Buy sampleDB noBuyFaults userID item).err)
      ⟨outerText, none⟩ "t-shirt" (some 1)).response =
      { status := some 200, contentType := "application/json", body := buyResponseJSON } ∧
    (BuyHandler (fun userID item => (Buy sampleDB noBuyFaults userID item).err)
      ⟨outerText, none⟩ "nonexistent_item" (some 1)).response.status = some 400 ∧
    (BuyHandler (fun userID item => (Buy sampleDB noBuyFaults userID item).err)
      ⟨outerText, none⟩ "" (some 1)).serviceCalls = [] :=
  ⟨by decide,
   ((buyHandler_status (fun userID item => (Buy sampleDB noBuyFaults userID item).err)
      ⟨outerText, none⟩ "nonexistent_item" (some 1)).2.2.1 1
      (.wrapf "service.BuyService.Buy: failed to get merch" ErrMerchNotFound)
      (by decide) rfl (by decide)).1,
   ((buyHandler_status (fun userID item => (Buy sampleDB noBuyFaults userID item).err)
      ⟨outerText, none⟩ "" (some 1)).1 rfl).2⟩

/-! ## Facts about the ledger equation -/

theorem ledgerTotal_append (kind : String) (id : Int) (l : List CoinTransaction)
    (t : CoinTransaction) :
    ledgerTotal kind id (l ++ [t]) =
      ledgerTotal kind id l + (if t.UserID = id ∧ t.TxType = kind then t.Amount else 0) := by
  unfold ledgerTotal
  by_cases h : t.UserID = id ∧ t.TxType = kind
  · simp [List.filter_append, List.filter_cons, h]
  · have hb : (t.UserID == id && t.TxType == kind) = false := by
      simpa using h
    simp [List.filter_append, List.filter_cons, hb, h]

theorem ledgerTotal_absent (kind : String) (id : Int) (l : List CoinTransaction)
    (h : ∀ t ∈ l, t.UserID ≠ id) : ledgerTotal kind id l = 0 := by
  unfold ledgerTotal
  have hnil : l.filter (fun t => t.UserID == id && t.TxType == kind) = [] := by
    rw [List.filter_eq_nil_iff]
    intro t ht
    simp [h t ht]
  rw [hnil]
  rfl

theorem spentTotal_append (id : Int) (l : List OrderRow) (o : OrderRow) :
    spentTotal id (l ++ [o]) = spentTotal id l + (if o.UserID = id then o.TotalPrice else 0) := by
  unfold spentTotal
  by_cases h : o.UserID = id
  · simp [List.filter_append, List.filter_cons, h]
  · simp [List.filter_append, List.filter_cons, h]

theorem spentTotal_absent (id : Int) (l : List OrderRow)
    (h : ∀ o ∈ l, o.UserID ≠ id) : spentTotal id l = 0 := by
  unfold spentTotal
  have hnil : l.filter (fun o => o.UserID == id) = [] := by
    rw [List.filter_eq_nil_iff]
    intro o ho
    simp [h o ho]
  rw [hnil]
  rfl

theorem setBalance_ids (id nb : Int) (us : List User) :
    (setBalance id nb us).map (fun v => v.ID) = us.map (fun v => v.ID) := by
  have h := congrArg (List.map (fun p : Int × String × List Nat => p.1))
    (setBalance_fields id nb us)
  simpa [List.map_map, Function.comp] using h

theorem mem_setBalance_origin (id nb : Int) (us : List User) (v : User)
    (h : v ∈ setBalance id nb us) :
    ∃ u ∈ us, v = if u.ID = id then { u with CoinBalance := nb } else u := by
  unfold setBalance at h
  obtain ⟨u, hu, rfl⟩ := List.mem_map.mp h
  refine ⟨u, hu, ?_⟩
  by_cases hid : u.ID = id <;> simp [hid]

theorem same_row_of_nodup_ids (us : List User) (u w : User)
    (hkeys : (us.map (fun v => v.ID)).Nodup) (hu : u ∈ us) (hw : w ∈ us) (hid : u.ID = w.ID) :
    u = w :=
  List.inj_on_of_nodup_map hkeys hu hw hid

theorem CreateUser_accepts (db db1 : DB) (env : CreateUserEnv) (user row : User)
    (h : CreateUser db env user = .ok (row, db1)) : usersAccepts db.users row = true := by
  unfold CreateUser at h
  split at h
  · cases h
  · simp only at h
    split at h
    · rename_i hacc
      cases h
      exact hacc
    · cases h

theorem Login_created (db : DB) (env : LoginEnv) (email password : String) :
    (Login db env email password).db = db ∨
    ∃ row : User, row.CoinBalance = 1000 ∧ usersAccepts db.users row = true ∧
      (Login db env email password).db = { db with users := db.users ++ [row] } := by
  cases hg : GetUserByEmail db env.getUser email with
  | ok user =>
    left
    cases hc : env.compare user.PassHash password with
    | some e => simp [Login, hg, hc]
    | none =>
      cases ht : NewToken env.token user with
      | error e => simp [Login, hg, hc, ht]
      | ok t => simp [Login, hg, hc, ht]
  | error err =>
    by_cases hnf : errorsIs err ErrUserNotFound = true
    · cases hh : env.hash with
      | error e => left; simp [Login, hg, hnf, hh]
      | ok passHash =>
        cases hcu : CreateUser db env.createUser
            { ID := 0, Email := email, PassHash := passHash, CoinBalance := 1000 } with
        | error e => left; simp [Login, hg, hnf, hh, hcu]
        | ok res =>
          obtain ⟨row, db1⟩ := res
          obtain ⟨hrow, hdb1⟩ := CreateUser_ok _ _ _ _ _ hcu
          have hacc := CreateUser_accepts _ _ _ _ _ hcu
          right
          refine ⟨row, by rw [hrow], hacc, ?_⟩
          cases ht : NewToken env.token row with
          | error e => simp [Login, hg, hnf, hh, hcu, ht, hdb1]
          | ok t => simp [Login, hg, hnf, hh, hcu, ht, hdb1]
    · left; simp [Login, hg, hnf]

theorem ledgerInvariant_login (db : DB) (env : LoginEnv) (email password : String)
    (h : ledgerInvariant db) : ledgerInvariant (Login db env email password).db := by
  rcases Login_created db env email password with heq | ⟨row, hbal, hacc, heq⟩
  · rw [heq]; exact h
  · rw [heq]
    obtain ⟨hkeys, hledger, horders, hequation⟩ := h
    have hfresh : row.ID ∉ db.users.map (fun u => u.ID) := by
      intro hmem
      obtain ⟨u, hu, hid⟩ := List.mem_map.mp hmem
      simp only [usersAccepts, Bool.not_eq_true', List.any_eq_false, Bool.or_eq_true,
        beq_iff_eq, not_or] at hacc
      exact (hacc u hu).1 hid
    refine ⟨?_, ?_, ?_, ?_⟩
    · simp only [List.map_append, List.map_cons, List.map_nil]
      rw [List.nodup_append]
      refine ⟨hkeys, List.nodup_singleton _, ?_⟩
      intro a ha hb
      rw [List.mem_singleton] at hb
      subst hb
      exact hfresh ha
    · intro t ht
      simp only [List.map_append, List.mem_append]
      exact Or.inl (hledger t ht)
    · intro o ho
      simp only [List.map_append, List.mem_append]
      exact Or.inl (horders o ho)
    · intro u hu
      rcases List.mem_append.mp hu with hold | hnew
      · exact hequation u hold
      · rw [List.mem_singleton] at hnew
        subst hnew
        have h1 : ∀ t ∈ db.coinTransactions, t.UserID ≠ u.ID := by
          intro t ht e
          exact hfresh (e ▸ hledger t ht)
        have h2 : ∀ o ∈ db.orders, o.UserID ≠ u.ID := by
          intro o ho e
          exact hfresh (e ▸ horders o ho)
        simp only [ledgerEquation]
        rw [ledgerTotal_absent _ _ _ h1, ledgerTotal_absent _ _ _ h1,
          spentTotal_absent _ _ h2, hbal]
        rfl

theorem ledgerInvariant_buy (db : DB) (f : BuyFaults) (userID : Int) (item : String)
    (h : ledgerInvariant db) (hexact : arithExact db (.buy f userID item) = true) :
    ledgerInvariant (Buy db f userID item).db := by
  rcases Buy_cases db f userID item with hfail | ⟨merch, user, hm, hu, hle, heq⟩
  · rw [hfail.2]; exact h
  · rw [heq]
    obtain ⟨hkeys, hledger, horders, hequation⟩ := h
    obtain ⟨humem, huid⟩ := find_id_spec _ _ _ hu
    have hnb : wrapInt (user.CoinBalance - merch.Price) = user.CoinBalance - merch.Price := by
      simp only [arithExact, hm, hu, Bool.or_eq_true, decide_eq_true_eq] at hexact
      rcases hexact with hlt | hx
      · exact absurd hlt (not_lt.mpr hle)
      · exact hx
    simp only [buyResult]
    refine ⟨?_, ?_, ?_, ?_⟩
    · rw [setBalance_ids]; exact hkeys
    · intro t ht
      rw [setBalance_ids]
      exact hledger t ht
    · intro o ho
      rw [setBalance_ids]
      rcases List.mem_append.mp ho with hold | hnew
      · exact horders o hold
      · rw [List.mem_singleton] at hnew
        subst hnew
        exact List.mem_map.mpr ⟨user, humem, huid⟩
    · intro v hv
      obtain ⟨u, hu1, rfl⟩ := mem_setBalance_origin _ _ _ _ hv
      have hq := hequation u hu1
      simp only [ledgerEquation] at hq ⊢
      by_cases hid : u.ID = userID
      · have hsame : u = user :=
          same_row_of_nodup_ids db.users u user hkeys hu1 humem (hid.trans huid.symm)
        subst hsame
        simp only [hid, if_true]
        rw [spentTotal_append, hnb]
        simp only [if_true]
        rw [hid] at hq
        omega
      · have hid' : ¬ userID = u.ID := fun e => hid e.symm
        simp only [hid, if_false]
        rw [spentTotal_append]
        simp only [hid', if_false]
        omega

theorem ledgerInvariant_sendCoin (db : DB) (f : SendCoinFaults) (fromUserID : Int)
    (toUser : String) (amount : Int) (h : ledgerInvariant db)
    (hexact : arithExact db (.sendCoin f fromUserID toUser amount) = true) :
    ledgerInvariant (SendCoin db f fromUserID toUser amount).db := by
  rcases SendCoin_cases db f fromUserID toUser amount with
    hfail | ⟨sender, receiver, hpos, hs, hr, hne, hle, heq⟩
  · rw [hfail.2]; exact h
  · rw [heq]
    obtain ⟨hkeys, hledger, horders, hequation⟩ := h
    obtain ⟨hsmem, hsid⟩ := find_id_spec _ _ _ hs
    obtain ⟨hrmem, _⟩ := find_email_spec _ _ _ hr
    have hx : wrapInt (sender.CoinBalance - amount) = sender.CoinBalance - amount ∧
        wrapInt (receiver.CoinBalance + amount) = receiver.CoinBalance + amount := by
      simp only [arithExact, hs, hr, Bool.or_eq_true, Bool.and_eq_true,
        decide_eq_true_eq] at hexact
      rcases hexact with (hneg | hlt) | hboth
      · exact absurd hneg (not_le.mpr hpos)
      · exact absurd hlt (not_lt.mpr hle)
      · exact hboth
    have hkinds : ¬ ("transfer_sent" = "transfer_received") := by decide
    have hkinds' : ¬ ("transfer_received" = "transfer_sent") := by decide
    simp only [sendCoinResult]
    refine ⟨?_, ?_, ?_, ?_⟩
    · rw [setBalance_ids, setBalance_ids]; exact hkeys
    · intro t ht
      rw [setBalance_ids, setBalance_ids]
      rcases List.mem_append.mp ht with hold | hnew
      · exact hledger t hold
      · simp only [List.mem_cons, List.mem_singleton, List.not_mem_nil, or_false] at hnew
        rcases hnew with rfl | rfl
        · exact List.mem_map.mpr ⟨sender, hsmem, hsid⟩
        · exact List.mem_map.mpr ⟨receiver, hrmem, rfl⟩
    · intro o ho
      rw [setBalance_ids, setBalance_ids]
      exact horders o ho
    · intro v hv
      obtain ⟨w, hw, rfl⟩ := mem_setBalance_origin _ _ _ _ hv
      obtain ⟨u, hu1, rfl⟩ := mem_setBalance_origin _ _ _ _ hw
      have hq := hequation u hu1
      have happ : db.coinTransactions ++
          [{ UserID := fromUserID, Amount := amount, TxType := "transfer_sent",
             RelatedUserID := some receiver.ID },
           { UserID := receiver.ID, Amount := amount, TxType := "transfer_received",
             RelatedUserID := some fromUserID }] =
          (db.coinTransactions ++
            [{ UserID := fromUserID, Amount := amount, TxType := "transfer_sent",
               RelatedUserID := some receiver.ID }]) ++
            [{ UserID := receiver.ID, Amount := amount, TxType := "transfer_received",
               RelatedUserID := some fromUserID }] := by simp
      simp only [ledgerEquation] at hq ⊢
      rw [happ, ledgerTotal_append, ledgerTotal_append, ledgerTotal_append, ledgerTotal_append]
      by_cases hid1 : u.ID = fromUserID
      · have hsame : u = sender :=
          same_row_of_nodup_ids db.users u sender hkeys hu1 hsmem (hid1.trans hsid.symm)
        subst hsame
        have hne1 : ¬ fromUserID = receiver.ID := hne
        have hne2 : ¬ receiver.ID = fromUserID := fun e => hne e.symm
        simp only [hid1, if_true, hne1, hne2, if_false, hkinds, hkinds', and_false, false_and,
          and_self, and_true, true_and]
        rw [hx.1]
        rw [hid1] at hq
        omega
      · by_cases hid2 : u.ID = receiver.ID
        · have hsame : u = receiver :=
            same_row_of_nodup_ids db.users u receiver hkeys hu1 hrmem hid2
          subst hsame
          have hne2 : ¬ fromUserID = u.ID := fun e => hid1 e.symm
          simp only [hid1, if_true, hne2, if_false, hkinds, hkinds', and_false, false_and,
            and_self, and_true, true_and]
          rw [hx.2]
          omega
        · have hne1 : ¬ fromUserID = u.ID := fun e => hid1 e.symm
          have hne2 : ¬ receiver.ID = u.ID := fun e => hid2 e.symm
          simp only [hid1, hid2, if_false, hne1, hne2, false_and]
          omega

theorem ledgerInvariant_run (ops : List Op) :
    ∀ db : DB, ledgerInvariant db → arithExactAlong db ops = true →
      ledgerInvariant (run db ops) := by
  induction ops with
  | nil => intro db h _; exact h
  | cons op ops ih =>
    intro db h hexact
    simp only [arithExactAlong, Bool.and_eq_true] at hexact
    have hstep : ledgerInvariant (step db op) := by
      cases op with
      | login env email password => exact ledgerInvariant_login db env email password h
      | buy f userID item => exact ledgerInvariant_buy db f userID item h hexact.1
      | sendCoin f fromUserID toUser amount =>
        exact ledgerInvariant_sendCoin db f fromUserID toUser amount h hexact.1
    exact ih (step db op) hstep hexact.2

/-! ## The claims: the ledger equation -/

/-- Claim C27. Starting from the empty store (with any catalog), after any
finite sequence of `Login`, `Buy` and `SendCoin` calls, successful or failed,
whose arithmetic is exact (no new balance computed along the way wraps), the
balance of every account equals 1000 plus the sum of the amounts of its
`transfer_received` ledger entries, minus the sum of the amounts of its
`transfer_sent` ledger entries, minus the sum of the total prices of its
orders, as integers. -/
theorem balance_matches_ledger (catalog : List Merch) (ops : List Op)
    (hexact : arithExactAlong (emptyStore catalog) ops = true) :
    ∀ u ∈ (run (emptyStore catalog) ops).users,
      u.CoinBalance =
        1000 + ledgerTotal "transfer_received" u.ID (run (emptyStore catalog) ops).coinTransactions
          - ledgerTotal "transfer_sent" u.ID (run (emptyStore catalog) ops).coinTransactions
          - spentTotal u.ID (run (emptyStore catalog) ops).orders := by
  have h0 : ledgerInvariant (emptyStore catalog) := by
    refine ⟨?_, ?_, ?_, ?_⟩
    · simp [emptyStore]
    · intro t ht; simp [emptyStore] at ht
    · intro o ho; simp [emptyStore] at ho
    · intro u hu; simp [emptyStore] at hu
  intro u hu
  exact (ledgerInvariant_run ops (emptyStore catalog) h0 hexact).2.2.2 u hu

/-- Claim C27 at work: a session of seven calls from the empty store with the
t-shirt in the catalog; the two accounts end with 670 and 1250 coins. -/
theorem balance_matches_ledger_witness :
    (run (emptyStore [⟨1, "t-shirt", 80⟩]) ledgerOps).users.map
        (fun u => (u.ID, u.CoinBalance)) = [(1, 670), (2, 1250)] ∧
    ∀ u ∈ (run (emptyStore [⟨1, "t-shirt", 80⟩]) ledgerOps).users,
      u.CoinBalance =
        1000 + ledgerTotal "transfer_received" u.ID
            (run (emptyStore [⟨1, "t-shirt", 80⟩]) ledgerOps).coinTransactions
          - ledgerTotal "transfer_sent" u.ID
            (run (emptyStore [⟨1, "t-shirt", 80⟩]) ledgerOps).coinTransactions
          - spentTotal u.ID (run (emptyStore [⟨1, "t-shirt", 80⟩]) ledgerOps).orders :=
  ⟨by decide, balance_matches_ledger [⟨1, "t-shirt", 80⟩] ledgerOps (by decide)⟩

end AvitoShop
